import Mathlib

/-!
qtWsdlConverter, StandardPath: the emitted message and facade classes.

`StandardPath` (src/qtWsdlConverter/sources/standardpath.cpp) writes C++ source text for one
message class per web-service operation and one facade class per service.  This development has
two layers, both translated from that file:

* the *runtime layer*: the member functions that `createMessageSource` emits into every message
  class (`convertReplyToUtf`, `replyFinished`, `prepareRequestData`), read as C++ and translated
  into Lean functions on the members of a message instance;
* the *generator layer*: the text streamed to `out` by `createMessageHeader`,
  `createMessageSource`, `createServiceHeader` and `createServiceSource`, as a list of lines.

Qt types are modelled by their documented behaviour: a `QString` is the list of its characters,
a `QMap` is a list of entries in strictly ascending key order.
-/

namespace StandardPath

/-! ## Qt strings -/

/-- A `QString`, as the sequence of its characters. -/
abbrev QString := List Char

/-- Offset of the first occurrence of `needle` in a text, if there is one. -/
def findFirst (needle : QString) : QString → Option Nat
  | [] => if needle.isPrefixOf [] then some 0 else none
  | c :: s =>
    if needle.isPrefixOf (c :: s) then some 0
    else (findFirst needle s).map (· + 1)

/-- The call `s.indexOf(needle, frm, Qt::CaseSensitive)`: index of the first occurrence of `needle`
at or after `frm`, or `-1`.  A negative `frm` counts from the end, as in Qt; a start that is still
negative after that adjustment yields `-1` (the emitted code never passes one). -/
def QString.indexOf (s needle : QString) (frm : Int) : Int :=
  let frm := if frm < 0 then frm + s.length else frm
  if frm < 0 ∨ (needle.length : Int) + frm > s.length then -1
  else
    match findFirst needle (s.drop frm.toNat) with
    | some k => frm + k
    | none => -1

/-- The call `s.mid(position, n)`, following Qt 4: the empty string when `position` is at or past
the end; all remaining characters when `n` is negative or exceeds what is available. -/
def QString.mid (s : QString) (position n : Int) : QString :=
  if position ≥ s.length then []
  else
    let n := if n < 0 then (s.length : Int) - position else n
    let pn : Int × Int := if position < 0 then (0, n + position) else (position, n)
    let n := if pn.2 + pn.1 > s.length then (s.length : Int) - pn.1 else pn.2
    (s.drop pn.1.toNat).take n.toNat

/-- Left-to-right scan used by `QString.replace`; `skip` counts the characters of a match that are
still to be passed over. -/
def replaceFrom (before after : QString) : Nat → QString → QString
  | _, [] => []
  | skip + 1, _ :: s => replaceFrom before after skip s
  | 0, c :: s =>
    if before.isPrefixOf (c :: s) then
      after ++ replaceFrom before after (before.length - 1) s
    else c :: replaceFrom before after 0 s

/-- The call `s.replace(before, after)`: every non-overlapping occurrence of `before`, found left
to right in the original text, is replaced by `after`. -/
def QString.replace (s before after : QString) : QString :=
  replaceFrom before after 0 s

/-- Whether `needle` occurs in `s` (executable form of `needle <:+: s`). -/
def QString.contains (s needle : QString) : Bool :=
  (findFirst needle s).isSome

/-! ## The emitted message class at run time -/

/-- The `Protocol` enumeration declared in every emitted message header
(`enum Protocol {http, soap10, soap12};`, standardpath.cpp line 169). -/
inductive Protocol where
  | http
  | soap10
  | soap12
  deriving DecidableEq, Repr

/-- The data members of an emitted message class that the emitted member functions below read or
write (declared at standardpath.cpp lines 215-237).  `parameters` holds the per-operation parameter
members, each with its name and the string form of its current value, in the order in which the
header declares them. -/
structure Message where
  protocol : Protocol
  hostname : QString
  messageName : QString
  targetNamespace : QString
  parameters : List (QString × QString)
  replyReceived : Bool
  reply : QString
  data : QString
  deriving DecidableEq, Repr

/-- The emitted `convertReplyToUtf` (standardpath.cpp lines 559-567). -/
def convertReplyToUtf (textToConvert : QString) : QString :=
  let result := textToConvert
  let result := result.replace "&lt;".toList "<".toList
  let result := result.replace "&gt;".toList ">".toList
  result

/-- The local `tempBegin` of the emitted `replyFinished` (line 500): the opening result tag. -/
def tempBegin (messageName : QString) : QString :=
  "<".toList ++ messageName ++ "Result>".toList

/-- The local `tempFinish` of the emitted `replyFinished` (line 504): the closing result tag. -/
def tempFinish (messageName : QString) : QString :=
  "</".toList ++ messageName ++ "Result>".toList

/-- The emitted `replyFinished` slot (standardpath.cpp lines 492-517); `readAll` is the reply
body, what `networkReply->readAll()` returns, as the text `convertReplyToUtf` receives.  The test `replyBeginIndex == -1` is made after the length of
the opening tag has been added, and its branch assigns the local `replyBytes`, which is not read
again. -/
def replyFinished (m : Message) (readAll : QString) : Message :=
  let replyBytes := readAll
  let replyString := convertReplyToUtf replyBytes
  let tempBegin := tempBegin m.messageName
  let replyBeginIndex := replyString.indexOf tempBegin 0
  let replyBeginIndex := replyBeginIndex + tempBegin.length
  let tempFinish := tempFinish m.messageName
  let replyFinishIndex := replyString.indexOf tempFinish replyBeginIndex
  let _replyBytes : QString := if replyBeginIndex = -1 then [] else replyBytes
  let replyFinishIndex :=
    if replyFinishIndex = -1 then (replyString.length : Int) else replyFinishIndex
  { m with
    reply := replyString.mid replyBeginIndex (replyFinishIndex - replyBeginIndex)
    replyReceived := true }

/-- The emitted `prepareRequestData` (standardpath.cpp lines 532-557), read as C++.

* In the statement that opens `body` (written by line 544) the quotes meant to surround the target
  namespace are not escaped in the emitted text, which reads
  `body = "\t<" + messageName + " xmlns="" + targetNamespace + ""> \r\n";`.  C++ joins the three
  adjacent literals `" xmlns="`, `" + targetNamespace + "` and `"> \r\n"` into one, so the member
  `targetNamespace` is not read.
* The loop that appends one element per parameter runs over the keys of `parameters`, a local map
  that is declared, empty, on the line before the loop (line 546). -/
def prepareRequestData (m : Message) : Message :=
  let header : QString :=
    if m.protocol = Protocol.soap12 then
      "<?xml version=\"1.0\" encoding=\"utf-8\"?> \r\n <soap12:Envelope xmlns:xsi=\"http://www.w3.org/2001/XMLSchema-instance\" xmlns:xsd=\"http://www.w3.org/2001/XMLSchema\" xmlns:soap12=\"http://www.w3.org/2003/05/soap-envelope\"> \r\n <soap12:Body> \r\n".toList
    else []
  let footer : QString :=
    if m.protocol = Protocol.soap12 then "</soap12:Body> \r\n</soap12:Envelope>".toList
    else []
  let body : QString :=
    "\t<".toList ++ m.messageName ++ (" xmlns=" ++ " + targetNamespace + " ++ "> \r\n").toList
  let parameters : List (QString × QString) := []
  let body : QString :=
    parameters.foldl
      (fun body kv =>
        body ++ ("\t\t<".toList ++ kv.1 ++ ">".toList ++ kv.2 ++ "</".toList ++ kv.1
          ++ "> \r\n".toList))
      body
  let body : QString := body ++ ("\t</".toList ++ m.messageName ++ "> \r\n".toList)
  { m with data := header ++ body ++ footer }

/-- The behaviour the words "replaces every occurrence of `&lt;` by `<` and every occurrence of
`&gt;` by `>` and changes nothing else" describe: one pass over the text, left to right, in which
each of the two entities is replaced where it stands and every other character is copied. -/
def unescapeEntities : QString → QString
  | '&' :: 'l' :: 't' :: ';' :: rest => '<' :: unescapeEntities rest
  | '&' :: 'g' :: 't' :: ';' :: rest => '>' :: unescapeEntities rest
  | c :: rest => c :: unescapeEntities rest
  | [] => []

/-- A `QByteArray` as far as `setRawHeader` tells values apart: `none` is the null byte array,
`some text` a byte array that is not null, with its bytes read as characters. -/
abbrev QByteArray := Option QString

/-- The call `text.toAscii()` (the emitted code sets no codec for C strings, so this is
`toLatin1()`): the null byte array for the empty text; otherwise one byte per character, `?` for
a character outside Latin-1. -/
def toAscii (text : QString) : QByteArray :=
  if text = [] then none
  else some (text.map fun c => if c.toNat < 256 then c else '?')

/-- What `QUrl` makes of a text: the result of `toString()` after `setUrl(text)`.  Qt parses the
text and writes the URL back in a form of its choice, which is left open here; the empty text
gives the empty URL, whose `toString()` is the empty text. -/
structure QUrlForm where
  toString : QString → QString
  toString_nil : toString [] = []

/-- A `QNetworkRequest`, as far as the emitted `sendMessage` builds it: the URL, as the text of
its `toString()`, and the raw headers, in the order in which they were set. -/
structure QNetworkRequest where
  url : QString
  rawHeaders : List (QString × QString)
  deriving DecidableEq, Repr

/-- The call `request.setRawHeader(name, value)`: every header whose name is `name`, letter case
aside, is removed; then, unless `value` is the null byte array, the header `name` with the value
`value` is added.  With a null value the call only removes. -/
def QNetworkRequest.setRawHeader (r : QNetworkRequest) (name : QString) (value : QByteArray) :
    QNetworkRequest :=
  let others := r.rawHeaders.filter fun h => h.1.map Char.toLower ≠ name.map Char.toLower
  match value with
  | none => { r with rawHeaders := others }
  | some v => { r with rawHeaders := others ++ [(name, v)] }

/-- The call `request.setHeader(QNetworkRequest::ContentTypeHeader, QVariant(value))` for a text
`value`: it sets the raw header `Content-Type` to the bytes of the text. -/
def QNetworkRequest.setContentTypeHeader (r : QNetworkRequest) (value : QString) :
    QNetworkRequest :=
  r.setRawHeader "Content-Type".toList (toAscii value)

/-- The state of the pointer member `manager`.  The emitted class declares
`QNetworkAccessManager *manager;` (line 235) and no emitted statement assigns it: the only
assignment, `manager = new QNetworkAccessManager(this);`, stands in the `init()` that is
commented out (lines 519-531).  So in every object of an emitted class the pointer is
`uninitialised`; `assigned` is the state the commented-out `init()` would have produced. -/
inductive Pointer where
  | uninitialised
  | assigned
  deriving DecidableEq, Repr

/-- The call `manager->post(request, data)` that the emitted `sendMessage()` makes: the state of
the pointer it goes through and its two arguments.  Through an `uninitialised` pointer C++ does
not define what the call does, and no request is known to leave. -/
structure PostCall where
  manager : Pointer
  request : QNetworkRequest
  data : QString
  deriving DecidableEq, Repr

/-- The emitted `sendMessage()` (standardpath.cpp lines 358-377) up to its call
`manager->post(request, data)`: the message instance at that point and the call.  `manager` is
the state of the pointer member of that name, which is not among the members of `Message`.  The
member `hostUrl`, which the function overwrites in its first statement, is kept as a local.  The
two `qDebug` statements that debug mode adds before the `post` only print.  The function ends
with `return true;`. -/
def sendMessage (url : QUrlForm) (manager : Pointer) (m : Message) : Message × PostCall :=
  let hostUrl : QString := url.toString m.hostname
  let request : QNetworkRequest := { url := [], rawHeaders := [] }
  let request := { request with url := hostUrl }
  let request := request.setContentTypeHeader "application/soap+xml; charset=utf-8".toList
  let request :=
    if m.protocol = Protocol.soap10 then
      request.setRawHeader "SOAPAction".toList (toAscii hostUrl)
    else request
  let m := prepareRequestData m
  (m, { manager := manager, request := request, data := m.data })

/-- The text that follows the first occurrence of `needle` in a text, if `needle` occurs in it. -/
def afterFirst (needle : QString) : QString → Option QString
  | [] => if needle.isPrefixOf [] then some [] else none
  | c :: s =>
    if needle.isPrefixOf (c :: s) then some ((c :: s).drop needle.length)
    else afterFirst needle s

/-- The text that precedes the first occurrence of `needle` in a text; the whole text when
`needle` does not occur in it. -/
def beforeFirst (needle : QString) : QString → QString
  | [] => []
  | c :: s => if needle.isPrefixOf (c :: s) then [] else c :: beforeFirst needle s

/-- The fragment the words "from the end of the opening tag to the closing tag, or to the end of
the text when the closing tag is absent" describe, for a text that holds the opening tag
`<{messageName}Result>`: what follows the first opening tag, up to the first closing tag
`</{messageName}Result>` after it. -/
def extractResult (messageName text : QString) : Option QString :=
  (afterFirst (tempBegin messageName) text).map (beforeFirst (tempFinish messageName))

/-! ## Generator input -/

/-- A `QVariant` as far as the generator inspects it: the results of `typeName()` and of
`toString()`.  The default value stands for an invalid variant, for which both are empty. -/
structure QVariant where
  typeName : String
  toString : String
  deriving DecidableEq, Repr, Inhabited

/-- A `QMap` with `QString` keys: its entries, kept in strictly ascending key order (keys are
unique).  Keys are compared as Lean strings. -/
structure QMap (V : Type) where
  entries : List (String × V)
  ascending : entries.Pairwise (fun a b => a.1 < b.1)

/-- The call `map.keys()`: all keys, in ascending order. -/
def QMap.keys {V : Type} (m : QMap V) : List String :=
  m.entries.map Prod.fst

/-- The call `map.value(key)`: the value stored under `key`, or a default-constructed value. -/
def QMap.value {V : Type} [Inhabited V] (m : QMap V) (key : String) : V :=
  match m.entries.lookup key with
  | some v => v
  | none => default

/-- Entry list of `map.insert(key, v)`: the entry is placed at its position in key order, and
replaces an entry that has the same key.  (`key.data < e.1.data` is `key < e.1`, in the form that
evaluates.) -/
def insertEntry {V : Type} (key : String) (v : V) : List (String × V) → List (String × V)
  | [] => [(key, v)]
  | e :: rest =>
    if key.data < e.1.data then (key, v) :: e :: rest
    else if key = e.1 then (key, v) :: rest
    else e :: insertEntry key v rest

/-- The call `map.insert(key, v)`; the entries stay in strictly ascending key order. -/
def QMap.insert {V : Type} (m : QMap V) (key : String) (v : V) : QMap V :=
  ⟨insertEntry key v m.entries, by
    have hfst : ∀ (l : List (String × V)) (x : String × V),
        x ∈ insertEntry key v l → x.1 = key ∨ x ∈ l := by
      intro l
      induction l with
      | nil =>
        intro x hx
        simp only [insertEntry, List.mem_singleton] at hx
        exact Or.inl (by rw [hx])
      | cons e rest ih =>
        intro x hx
        simp only [insertEntry] at hx
        split_ifs at hx with h1 h2
        · rcases List.mem_cons.1 hx with h | h
          · exact Or.inl (by rw [h])
          · exact Or.inr h
        · rcases List.mem_cons.1 hx with h | h
          · exact Or.inl (by rw [h])
          · exact Or.inr (List.mem_cons_of_mem _ h)
        · rcases List.mem_cons.1 hx with h | h
          · exact Or.inr (by rw [h]; exact List.mem_cons_self _ _)
          · rcases ih x h with h3 | h3
            · exact Or.inl h3
            · exact Or.inr (List.mem_cons_of_mem _ h3)
    have hasc : ∀ l : List (String × V), l.Pairwise (fun a b => a.1 < b.1) →
        (insertEntry key v l).Pairwise (fun a b => a.1 < b.1) := by
      intro l
      induction l with
      | nil => intro _; simp [insertEntry]
      | cons e rest ih =>
        intro hl
        have hrest := (List.pairwise_cons.1 hl).2
        have hhead := (List.pairwise_cons.1 hl).1
        simp only [insertEntry]
        split_ifs with h1 h2
        · have h1' : key < e.1 := String.lt_iff_toList_lt.2 h1
          refine List.pairwise_cons.2 ⟨?_, hl⟩
          intro b hb
          rcases List.mem_cons.1 hb with h | h
          · rw [h]; exact h1'
          · exact lt_trans h1' (hhead b h)
        · refine List.pairwise_cons.2 ⟨?_, hrest⟩
          intro b hb
          show key < b.1
          rw [h2]; exact hhead b hb
        · refine List.pairwise_cons.2 ⟨?_, ih hrest⟩
          intro b hb
          have h1' : ¬ key < e.1 := fun h3 => h1 (String.lt_iff_toList_lt.1 h3)
          rcases hfst rest b hb with h | h
          · rw [h]
            exact lt_of_le_of_ne (not_lt.1 h1') (fun h3 => h2 h3.symm)
          · exact hhead b h
    exact hasc m.entries m.ascending⟩

/-- The empty map. -/
def QMap.empty {V : Type} : QMap V := ⟨[], List.Pairwise.nil⟩

/-- The map obtained by inserting the given entries one after another, first to last. -/
def QMap.ofList {V : Type} (l : List (String × V)) : QMap V :=
  l.foldl (fun m e => m.insert e.1 e.2) QMap.empty

/-- Whether a text is made of basic Latin characters (code points below 128).  On such a text
`QString::toUpper` and `QString::toLower` change the letters `a`-`z` and `A`-`Z` and nothing
else. -/
def isBasicLatin (s : String) : Prop :=
  ∀ c ∈ s.data, c.toNat < 128

instance (s : String) : Decidable (isBasicLatin s) := by
  unfold isBasicLatin; infer_instance

/-- The call `s.toUpper()` for a text of basic Latin characters (`isBasicLatin`): the letters
`a`-`z` become `A`-`Z`.  Qt maps every cased letter; characters outside basic Latin are left as
they are here, so what is said of the value of `toUpper` is said of basic Latin texts. -/
def toUpper (s : String) : String :=
  ⟨s.data.map Char.toUpper⟩

/-- The call `s.toLower()` for a text of basic Latin characters (`isBasicLatin`): the letters
`A`-`Z` become `a`-`z`.  Qt maps every cased letter; characters outside basic Latin are left as
they are here, so what is said of the value of `toLower` is said of basic Latin texts. -/
def toLower (s : String) : String :=
  ⟨s.data.map Char.toLower⟩

/-- The call `s.chop(n)`: removes the last `n` characters (all of them when there are fewer). -/
def chop (s : String) (n : Nat) : String :=
  ⟨s.data.take (s.data.length - n)⟩

/-- Modelled from the spec: `QSoapMessage::Protocol`, whose declaration (qsoapmessage.h) is not
among the sources; the three values are the ones `createMessageSource` tests for (lines 294-299)
and the ones the spec lists (`protocol` is one of http, soap1.0, soap1.2). -/
inductive QSoapMessage.Protocol where
  | http
  | soap10
  | soap12
  deriving DecidableEq, Repr

/-- Modelled from the spec: `Flags::Mode` of flags.h, which is not among the sources (`mode` is
one of compact, full, debug); constructor names as used in standardpath.cpp. -/
inductive Flags.Mode where
  | fullMode
  | debugMode
  | compactMode
  deriving DecidableEq, Repr

/-- Modelled from the spec: `Flags::Synchronousness` of flags.h, which is not among the sources
(`synchronousness` is one of synchronous, asynchronous). -/
inductive Flags.Synchronousness where
  | synchronous
  | asynchronous
  deriving DecidableEq, Repr

/-- Modelled from the spec: `Flags::BuildSystem` of flags.h, which is not among the sources
(`buildSystem` is none or a project-file kind); constructor names as used in
`createBuildSystemFile`. -/
inductive Flags.BuildSystem where
  | qmake
  | noBuildSystem
  deriving DecidableEq, Repr

/-- Modelled from the spec: the `Flags` object of flags.h, which is not among the sources; the
fields are the ones standardpath.cpp reads. -/
structure Flags where
  mode : Flags.Mode
  synchronousness : Flags.Synchronousness
  protocol : QSoapMessage.Protocol
  buildSystem : Flags.BuildSystem
  deriving DecidableEq, Repr

/-- A `QSoapMessage` as the generator reads it, through the getters `getMessageName`,
`getTargetNamespace`, `getReturnValueName`, `getReturnValueNameType` and `getParameterNamesTypes`.
The generator calls `getReturnValueName().first()`, which Qt defines for a non-empty list only. -/
structure QSoapMessage where
  messageName : String
  targetNamespace : String
  returnValueName : List String
  returnValueNameType : QMap QVariant
  parameterNamesTypes : QMap QVariant
  returnValueName_ne : returnValueName ≠ []

instance : Inhabited QSoapMessage :=
  ⟨{ messageName := "", targetNamespace := "", returnValueName := [""],
     returnValueNameType := QMap.empty, parameterNamesTypes := QMap.empty,
     returnValueName_ne := List.cons_ne_nil _ _ }⟩

/-- A `QWsdl` as the generator reads it, through `getWebServiceName`, `getMethods` and
`getMethodNames`. -/
structure QWsdl where
  webServiceName : String
  methods : QMap QSoapMessage
  methodNames : List String

/-! ## The text written by `createMessageHeader` and `createMessageSource` -/

/-- The local `msgReplyName`: `msg->getReturnValueName().first()` (lines 127, 258). -/
def msgReplyName (msg : QSoapMessage) : String :=
  msg.returnValueName.head msg.returnValueName_ne

/-- The local `msgReplyType` (lines 133-138, 263-268): the type name of the first return value. -/
def msgReplyType (msg : QSoapMessage) : String :=
  match msg.returnValueNameType.keys with
  | [] => ""
  | s :: _ => "" ++ (msg.returnValueNameType.value s).typeName

/-- The local `msgParameters` (lines 141-148, 270-277): one `type name, ` item per key of the
parameter map, in key order, with the last two characters chopped. -/
def msgParameters (msg : QSoapMessage) : String :=
  let tempMap := msg.parameterNamesTypes
  chop
    (tempMap.keys.foldl
      (fun msgParameters s => msgParameters ++ ((tempMap.value s).typeName ++ " " ++ s ++ ", "))
      "")
    2

/-- The protocol literal written into the emitted constructors (lines 294-299, 319-324). -/
def protocolLiteral (flags : Flags) : String :=
  if flags.protocol = QSoapMessage.Protocol.soap10 then "soap10"
  else if flags.protocol = QSoapMessage.Protocol.soap12 then "soap12"
  else if flags.protocol = QSoapMessage.Protocol.http then "http"
  else ""

/-- The loop that writes one assignment per parameter (lines 311-315, 342-346, 384-388). -/
def assignAllParameters (msg : QSoapMessage) : List String :=
  let tempMap := msg.parameterNamesTypes
  tempMap.keys.map fun s => "    this->" ++ s ++ " = " ++ s ++ ";"

/-- The lines `createMessageHeader` writes to the header file of `msg` (lines 155-239). -/
def createMessageHeaderOut (flags : Flags) (msg : QSoapMessage) : List String :=
  let msgName := msg.messageName
  let msgReplyName := msgReplyName msg
  let msgReplyType := msgReplyType msg
  let msgParameters := msgParameters msg
  [ "#ifndef " ++ toUpper msgName ++ "_H",
    "#define " ++ toUpper msgName ++ "_H",
    "",
    "#include <QtCore>",
    "#include <QNetworkAccessManager>",
    "#include <QNetworkRequest>",
    "#include <QNetworkReply>",
    "",
    "class " ++ msgName ++ " : public QObject",
    "\x7b",
    "    Q_OBJECT",
    "",
    "public:",
    "    enum Role \x7boutboundRole, inboundRole, staticRole, noRole\x7d;",
    "    enum Protocol \x7bhttp, soap10, soap12\x7d;",
    "",
    "    explicit " ++ msgName ++ "(QObject *parent = 0);" ]
  ++ (if msgParameters ≠ "" then
        [ "    " ++ msgName ++ "(" ++ msgParameters ++ ", QObject *parent = 0);" ]
      else [])
  ++ [ "    ~" ++ msgName ++ "();",
       "",
       "    void setParams(" ++ msgParameters ++ ");" ]
  ++ (if flags.mode ≠ Flags.Mode.compactMode then
        [ "    void setProtocol(Protocol protocol);" ]
      else [])
  ++ [ "    bool sendMessage();" ]
  ++ (if msgParameters ≠ "" then
        [ "    bool sendMessage(" ++ msgParameters ++ ");" ]
      else [])
  ++ (if msgParameters ≠ "" then
        [ "    QString static sendMessage(QObject *parent" ++ ",",
          "                                " ++ msgParameters ++ ");" ]
      else
        [ "    QString static sendMessage(QObject *parent" ++ ");" ])
  ++ [ "    QString replyRead();",
       "    QString getMessageName();",
       "    QStringList getParameterNames() const;",
       "    QString getReturnValueName() const;",
       "    QMap<QString, QVariant> getParameterNamesTypes() const;",
       "    QString getReturnValueNameType() const;",
       "    QString getTargetNamespace();",
       "",
       "signals:",
       "    void replyReady(QString " ++ msgReplyName ++ ");",
       "",
       "public slots:",
       "    void replyFinished(QNetworkReply *reply);",
       "",
       "private:",
       "    void prepareRequestData();",
       "    QString convertReplyToUtf(QString textToConvert);",
       "",
       "    bool replyReceived;",
       "    Role role;",
       "    Protocol protocol;",
       "    QUrl hostUrl;",
       "    QString hostname;",
       "    QString messageName;",
       "    QString targetNamespace;",
       "    QString reply;",
       "    // -------------------------",
       "    // Parameters:" ]
  ++ (let tempMap := msg.parameterNamesTypes
      tempMap.keys.map fun s => "    " ++ (tempMap.value s).typeName ++ " " ++ s ++ ";")
  ++ [ "    // End of parameters.",
       "    // -------------------------",
       "    " ++ msgReplyType ++ " " ++ msgReplyName ++ ";",
       "    QNetworkAccessManager *manager;",
       "    QNetworkReply *networkReply;",
       "    QByteArray data;",
       "\x7d;",
       "#endif // " ++ toUpper msgName ++ "_H" ]

/-- Lines 283-304 of `createMessageSource`: the include and the default constructor. -/
def sourceDefaultConstructor (flags : Flags) (msg : QSoapMessage) : List String :=
  let msgName := msg.messageName
  [ "#include \"../headers/" ++ msgName ++ ".h\"",
    "",
    msgName ++ "::" ++ msgName ++ "(QObject *parent) :",
    "    QObject(parent)",
    "\x7b",
    "    hostname = \"" ++ msg.targetNamespace ++ "\";",
    "    hostUrl.setHost(hostname);",
    "    messageName = \"" ++ msgName ++ "\";",
    "    protocol = " ++ protocolLiteral flags ++ ";",
    "\x7d",
    "" ]

/-- Lines 305-331 of `createMessageSource`: the constructor that takes the parameters. -/
def sourceParamConstructor (flags : Flags) (msg : QSoapMessage) : List String :=
  let msgName := msg.messageName
  let msgParameters := msgParameters msg
  if msgParameters ≠ "" then
    [ msgName ++ "::" ++ msgName ++ "(" ++ msgParameters ++ ", QObject *parent) :",
      "    QObject(parent)",
      "\x7b" ]
    ++ assignAllParameters msg
    ++ [ "    protocol = " ++ protocolLiteral flags ++ ";",
         "    hostUrl.setHost(hostname + messageName);",
         "\x7d",
         "" ]
  else []

/-- Lines 332-349 of `createMessageSource`: the destructor and `setParams`. -/
def sourceSetParams (msg : QSoapMessage) : List String :=
  let msgName := msg.messageName
  let msgParameters := msgParameters msg
  [ msgName ++ "::~" ++ msgName ++ "()",
    "\x7b",
    "    delete manager;",
    "    delete networkReply;",
    "    this->deleteLater();",
    "\x7d",
    "",
    "void " ++ msgName ++ "::setParams(" ++ msgParameters ++ ")",
    "\x7b" ]
  ++ assignAllParameters msg
  ++ [ "\x7d",
       "" ]

/-- Lines 350-357 of `createMessageSource`: `setProtocol`. -/
def sourceSetProtocol (flags : Flags) (msg : QSoapMessage) : List String :=
  let msgName := msg.messageName
  if flags.mode ≠ Flags.Mode.compactMode then
    [ "void " ++ msgName ++ "::setProtocol(Protocol prot)",
      "\x7b",
      "    protocol = prot;",
      "\x7d",
      "" ]
  else []

/-- Lines 358-378 of `createMessageSource`: the `sendMessage()` without arguments. -/
def sourceSendMessage (flags : Flags) (msg : QSoapMessage) : List String :=
  let msgName := msg.messageName
  [ "bool " ++ msgName ++ "::sendMessage()",
    "\x7b",
    "    hostUrl.setUrl(hostname);",
    "    QNetworkRequest request;",
    "    request.setUrl(hostUrl);",
    "    request.setHeader(QNetworkRequest::ContentTypeHeader, QVariant(\"application/soap+xml; charset=utf-8\"));",
    "    if (protocol == soap10)",
    "        request.setRawHeader(QByteArray(\"SOAPAction\"), QByteArray(hostUrl.toString().toAscii()));",
    "",
    "    prepareRequestData();",
    "" ]
  ++ (if flags.mode = Flags.Mode.debugMode then
        [ "    qDebug() << request.rawHeaderList() << \" \" << request.url().toString();",
          "    qDebug() << \"*************************\";",
          "" ]
      else [])
  ++ [ "    manager->post(request, data);",
       "    return true;",
       "\x7d",
       "" ]

/-- Lines 379-394 of `createMessageSource`: the `sendMessage` that takes the parameters. -/
def sourceSendMessageParams (msg : QSoapMessage) : List String :=
  let msgName := msg.messageName
  let msgParameters := msgParameters msg
  if msgParameters ≠ "" then
    [ "bool " ++ msgName ++ "::sendMessage(" ++ msgParameters ++ ")",
      "\x7b" ]
    ++ assignAllParameters msg
    ++ [ "    sendMessage();",
         "    return true;",
         "\x7d",
         "" ]
  else []

/-- The local `tempS` of lines 406-412: the parameter names, comma separated. -/
def paramNames (msg : QSoapMessage) : String :=
  let tempMap := msg.parameterNamesTypes
  chop (tempMap.keys.foldl (fun tempS s => tempS ++ (s ++ ", ")) "") 2

/-- Lines 395-430 of `createMessageSource`: the static `sendMessage`. -/
def sourceStaticSendMessage (msg : QSoapMessage) : List String :=
  let msgName := msg.messageName
  let msgParameters := msgParameters msg
  [ "/* STATIC */",
    "QString " ++ msgName ++ "::sendMessage(QObject *parent"
      ++ (if msgParameters ≠ "" then ", " ++ msgParameters else "") ++ ")",
    "\x7b",
    "    " ++ msgName ++ " qsm(parent);",
    "    qsm.setParams(" ++ paramNames msg ++ ");",
    "    qsm.role = staticRole;",
    "",
    "    qsm.sendMessage();",
    "    // TODO: ADD ERROR HANDLING!",
    "    forever",
    "    \x7b",
    "        if (qsm.replyReceived)",
    "            return qsm.reply;",
    "        else",
    "        \x7b",
    "            qApp->processEvents();",
    "        \x7d",
    "    \x7d",
    "\x7d",
    "" ]

/-- The loop of lines 447-455 and 469-477: one `parameters.insert` line per parameter. -/
def insertAllParameters (msg : QSoapMessage) : List String :=
  let tempMap := msg.parameterNamesTypes
  tempMap.keys.map fun s =>
    let tmpName := (tempMap.value s).typeName
    "    parameters.insert(\"" ++ s ++ "\", QVariant("
      ++ (if tmpName ≠ "int" then tmpName else "")
      ++ "(" ++ (tempMap.value s).toString ++ ")));"

/-- Lines 433-491 of `createMessageSource`: the getters. -/
def sourceGetters (msg : QSoapMessage) : List String :=
  let msgName := msg.messageName
  [ "QString " ++ msgName ++ "::replyRead()",
    "\x7b",
    "    return reply;",
    "\x7d",
    "",
    "QString " ++ msgName ++ "::getMessageName()",
    "\x7b",
    "    return messageName;",
    "\x7d",
    "",
    "QStringList " ++ msgName ++ "::getParameterNames() const",
    "\x7b",
    "    QMap<QString, QVariant> parameters;" ]
  ++ insertAllParameters msg
  ++ [ "    return (QStringList) parameters.keys();",
       "\x7d",
       "",
       "QString " ++ msgName ++ "::getReturnValueName() const",
       "\x7b",
       "    return \"" ++ msgReplyName msg ++ "\";",
       "\x7d",
       "",
       "QMap<QString, QVariant> " ++ msgName ++ "::getParameterNamesTypes() const",
       "\x7b",
       "    QMap<QString, QVariant> parameters;" ]
  ++ insertAllParameters msg
  ++ [ "    return parameters;",
       "\x7d",
       "",
       "QString " ++ msgName ++ "::getReturnValueNameType() const",
       "\x7b",
       "    return \"" ++ msgReplyType msg ++ "\";",
       "\x7d",
       "",
       "QString " ++ msgName ++ "::getTargetNamespace()",
       "\x7b",
       "    return targetNamespace;",
       "\x7d",
       "" ]

/-- Lines 492-518 of `createMessageSource`: the text of `replyFinished`. -/
def sourceReplyFinished (msg : QSoapMessage) : List String :=
  let msgName := msg.messageName
  [ "void " ++ msgName ++ "::replyFinished(QNetworkReply *netReply)",
    "\x7b",
    "    networkReply = netReply;",
    "    QByteArray replyBytes;",
    "",
    "    replyBytes = (networkReply->readAll());",
    "    QString replyString = convertReplyToUtf(replyBytes);",
    "",
    "    QString tempBegin = \"<\" + messageName + \"Result>\";",
    "    int replyBeginIndex = replyString.indexOf(tempBegin, 0, Qt::CaseSensitive);",
    "    replyBeginIndex += tempBegin.length();",
    "",
    "    QString tempFinish = \"</\" + messageName + \"Result>\";",
    "    int replyFinishIndex = replyString.indexOf(tempFinish, replyBeginIndex, Qt::CaseSensitive);",
    "",
    "    if (replyBeginIndex == -1)",
    "        replyBytes = 0;",
    "    if (replyFinishIndex == -1)",
    "        replyFinishIndex = replyString.length();",
    "",
    "    reply = (QString) replyString.mid(replyBeginIndex, replyFinishIndex - replyBeginIndex);",
    "",
    "    replyReceived = true;",
    "    emit replyReady(reply);",
    "\x7d",
    "" ]

/-- Lines 532-558 of `createMessageSource`: the text of `prepareRequestData`. -/
def sourcePrepareRequestData (msg : QSoapMessage) : List String :=
  let msgName := msg.messageName
  [ "void " ++ msgName ++ "::prepareRequestData()",
    "\x7b",
    "    data.clear();",
    "    QString header, body, footer;",
    "",
    "    if (protocol == soap12)",
    "    \x7b",
    "        header = \"<?xml version=\\\"1.0\\\" encoding=\\\"utf-8\\\"?> \\r\\n <soap12:Envelope xmlns:xsi=\\\"http://www.w3.org/2001/XMLSchema-instance\\\" xmlns:xsd=\\\"http://www.w3.org/2001/XMLSchema\\\" xmlns:soap12=\\\"http://www.w3.org/2003/05/soap-envelope\\\"> \\r\\n <soap12:Body> \\r\\n\";",
    "",
    "        footer = \"</soap12:Body> \\r\\n</soap12:Envelope>\";",
    "    \x7d",
    "",
    "    body = \"\\t<\" + messageName + \" xmlns=\"\" + targetNamespace + \"\"> \\r\\n\";",
    "",
    "    QMap<QString, QVariant> parameters;",
    "    foreach (const QString currentKey, parameters.keys())",
    "    \x7b",
    "        QVariant qv = parameters.value(currentKey);",
    "        // Currently, this does not handle nested lists",
    "        body += \"\\t\\t<\" + currentKey + \">\" + qv.toString() + \"</\" + currentKey + \"> \\r\\n\";",
    "    \x7d",
    "",
    "    body += \"\\t</\" + messageName + \"> \\r\\n\";",
    "",
    "    data.append(header + body + footer);",
    "\x7d",
    "" ]

/-- Lines 559-567 of `createMessageSource`: the text of `convertReplyToUtf`. -/
def sourceConvertReplyToUtf (msg : QSoapMessage) : List String :=
  let msgName := msg.messageName
  [ "QString " ++ msgName ++ "::convertReplyToUtf(QString textToConvert)",
    "\x7b",
    "    QString result = textToConvert;",
    "",
    "    result.replace(\"&lt;\", \"<\");",
    "    result.replace(\"&gt;\", \">\");",
    "",
    "    return result;",
    "\x7d" ]

/-- The lines `createMessageSource` writes to the source file of `msg` (lines 283-567). -/
def createMessageSourceOut (flags : Flags) (msg : QSoapMessage) : List String :=
  sourceDefaultConstructor flags msg
  ++ sourceParamConstructor flags msg
  ++ sourceSetParams msg
  ++ sourceSetProtocol flags msg
  ++ sourceSendMessage flags msg
  ++ sourceSendMessageParams msg
  ++ sourceStaticSendMessage msg
  ++ sourceGetters msg
  ++ sourceReplyFinished msg
  ++ sourcePrepareRequestData msg
  ++ sourceConvertReplyToUtf msg

/-! ## The text written by `createServiceHeader` and `createServiceSource` -/

/-- The local `wsName` (lines 627-632, 778-783): the base class name when one is given, the web
service name otherwise. -/
def wsName (baseClassName : String) (wsdl : QWsdl) : String :=
  if baseClassName ≠ "" then baseClassName else wsdl.webServiceName

/-- The local `tmpReturn` of the service writers (lines 668-672 and alike): the type name of the
first return value of `m`. -/
def tmpReturn (m : QSoapMessage) : String :=
  match m.returnValueNameType.keys with
  | [] => ""
  | ret :: _ => (m.returnValueNameType.value ret).typeName

/-- Lines 663-689 of `createServiceHeader`: one `Send` member per operation. -/
def headerSendMembers (flags : Flags) (wsdl : QWsdl) : List String :=
  let tempMap := wsdl.methods
  tempMap.keys.map fun s =>
    let m := tempMap.value s
    let tmpP := msgParameters m
    (if flags.synchronousness = Flags.Synchronousness.synchronous then "    QString "
     else "    void ")
      ++ s ++ "Send(" ++ tmpP ++ ");"

/-- Lines 694-716 of `createServiceHeader`: the reply getters. -/
def headerReplyGetters (flags : Flags) (wsdl : QWsdl) : List String :=
  let tempMap := wsdl.methods
  if flags.synchronousness = Flags.Synchronousness.asynchronous then
    [ "    // Method reply getters: " ]
    ++ (tempMap.keys.flatMap fun s =>
          if flags.mode = Flags.Mode.compactMode then []
          else if flags.mode = Flags.Mode.fullMode ∨ flags.mode = Flags.Mode.debugMode then
            let m := tempMap.value s
            [ "    " ++ tmpReturn m ++ " " ++ s ++ "ReplyRead();" ]
          else [])
    ++ [ "" ]
  else []

/-- Lines 719-733 of `createServiceHeader`: the slots that process asynchronous replies. -/
def headerReplySlots (flags : Flags) (wsdl : QWsdl) : List String :=
  let tempMap := wsdl.methods
  if flags.synchronousness = Flags.Synchronousness.asynchronous then
    (tempMap.keys.flatMap fun s =>
      if flags.mode = Flags.Mode.compactMode then []
      else if flags.mode = Flags.Mode.fullMode ∨ flags.mode = Flags.Mode.debugMode then
        [ "    void " ++ s ++ "Reply(QString result);" ]
      else [])
    ++ [ "" ]
  else []

/-- Lines 740-761 of `createServiceHeader`: the reply variables and the message instances. -/
def headerMessageMembers (flags : Flags) (wsdl : QWsdl) : List String :=
  let tempMap := wsdl.methods
  if flags.synchronousness = Flags.Synchronousness.asynchronous
      ∧ (flags.mode = Flags.Mode.fullMode ∨ flags.mode = Flags.Mode.debugMode) then
    [ "    // Message replies:" ]
    ++ (tempMap.keys.map fun s =>
          let m := tempMap.value s
          "    " ++ tmpReturn m ++ " " ++ s ++ "Result;")
    ++ [ "    // Messages:" ]
    ++ (tempMap.keys.map fun s => "    " ++ s ++ " " ++ toLower s ++ ";")
  else []

/-- The lines `createServiceHeader` writes to the facade header (lines 642-764). -/
def createServiceHeaderOut (flags : Flags) (baseClassName : String) (wsdl : QWsdl) :
    List String :=
  let wsName := wsName baseClassName wsdl
  [ "#ifndef " ++ toUpper wsName ++ "_H",
    "#define " ++ toUpper wsName ++ "_H",
    "",
    "#include <QUrl>" ]
  ++ (wsdl.methodNames.map fun s => "#include \"" ++ s ++ ".h\"")
  ++ [ "",
       "class " ++ wsName ++ " : public QObject",
       "\x7b",
       "    Q_OBJECT",
       "",
       "public:",
       "    " ++ wsName ++ "(QObject *parent = 0);",
       "    ~" ++ wsName ++ "();",
       "",
       "    QStringList getMethodNames();" ]
  ++ headerSendMembers flags wsdl
  ++ [ "",
       "    QUrl getHostUrl();",
       "    QString getHost();",
       "    bool isErrorState();" ]
  ++ headerReplyGetters flags wsdl
  ++ [ "",
       "protected slots:" ]
  ++ headerReplySlots flags wsdl
  ++ [ "protected:",
       "    void init();",
       "",
       "    bool errorState;",
       "    QUrl hostUrl;",
       "    QString hostname;" ]
  ++ headerMessageMembers flags wsdl
  ++ [ "\x7d;",
       "",
       "#endif // " ++ toUpper wsName ++ "_H" ]

/-- Lines 793-819 of `createServiceSource`: the include and the constructor with its `connect`
statements. -/
def sourceServiceConstructor (flags : Flags) (baseClassName : String) (wsdl : QWsdl) :
    List String :=
  let wsName := wsName baseClassName wsdl
  let tempMap := wsdl.methods
  [ "#include \"../headers/" ++ wsName ++ ".h\"",
    "",
    "" ++ wsName ++ "::" ++ wsName ++ "(QObject *parent)",
    "    : QObject(parent)",
    "\x7b" ]
  ++ (if flags.synchronousness = Flags.Synchronousness.asynchronous then
        tempMap.keys.map fun s =>
          "    connect(&" ++ toLower s ++ ", SIGNAL(replyReady(QString)), this, SLOT("
            ++ (if flags.mode = Flags.Mode.compactMode then ""
                else if flags.mode = Flags.Mode.fullMode ∨ flags.mode = Flags.Mode.debugMode then
                  s ++ "Reply(QString)"
                else "")
            ++ "));"
      else [])
  ++ [ "    errorState = false;",
       "    isErrorState();",
       "\x7d",
       "" ]

/-- Lines 820-836 of `createServiceSource`: the destructor and `getMethodNames`. -/
def sourceGetMethodNames (baseClassName : String) (wsdl : QWsdl) : List String :=
  let wsName := wsName baseClassName wsdl
  let tempMap := wsdl.methods
  [ "" ++ wsName ++ "::~" ++ wsName ++ "()",
    "\x7b",
    "\x7d",
    "",
    "QStringList " ++ wsName ++ "::getMethodNames()",
    "\x7b",
    "    QStringList result;" ]
  ++ (tempMap.keys.map fun s =>
        let m := tempMap.value s
        "    result.append(\"" ++ m.messageName ++ "\");")
  ++ [ "    return result;",
       "\x7d",
       "" ]

/-- Lines 837-881 of `createServiceSource`: the body of the `Send` member of each operation. -/
def sourceSendMembers (flags : Flags) (baseClassName : String) (wsdl : QWsdl) : List String :=
  let wsName := wsName baseClassName wsdl
  let tempMap := wsdl.methods
  tempMap.keys.flatMap fun s =>
    let m := tempMap.value s
    let tmpP := msgParameters m
    let tmpPN := paramNames m
    if flags.synchronousness = Flags.Synchronousness.synchronous then
      [ "QString " ++ wsName ++ "::" ++ s ++ "Send(" ++ tmpP ++ ")",
        "\x7b",
        "    return " ++ m.messageName ++ "::sendMessage(this"
          ++ (if tmpPN ≠ "" then ", " ++ tmpPN ++ ");" else ");"),
        "\x7d",
        "" ]
    else if flags.synchronousness = Flags.Synchronousness.asynchronous then
      [ "void " ++ wsName ++ "::" ++ s ++ "Send(" ++ tmpP ++ ")",
        "\x7b",
        "    " ++ toLower s ++ ".sendMessage(" ++ tmpPN ++ ");",
        "\x7d",
        "" ]
    else []

/-- Lines 883-909 of `createServiceSource`: the reply getters. -/
def sourceReplyGetters (flags : Flags) (baseClassName : String) (wsdl : QWsdl) : List String :=
  let wsName := wsName baseClassName wsdl
  let tempMap := wsdl.methods
  if flags.synchronousness = Flags.Synchronousness.asynchronous then
    [ "    // Method reply getters: " ]
    ++ (tempMap.keys.flatMap fun s =>
          if flags.mode = Flags.Mode.compactMode then []
          else if flags.mode = Flags.Mode.fullMode ∨ flags.mode = Flags.Mode.debugMode then
            let m := tempMap.value s
            [ tmpReturn m ++ " " ++ wsName ++ "::" ++ s ++ "ReplyRead()",
              "\x7b",
              "    return " ++ s ++ "Result;",
              "\x7d",
              "" ]
          else [])
    ++ [ "" ]
  else []

/-- Lines 911-938 of `createServiceSource`: the stubs of the reply slots. -/
def sourceReplySlots (flags : Flags) (baseClassName : String) (wsdl : QWsdl) : List String :=
  let wsName := wsName baseClassName wsdl
  let tempMap := wsdl.methods
  if flags.synchronousness = Flags.Synchronousness.asynchronous
      ∧ (flags.mode = Flags.Mode.fullMode ∨ flags.mode = Flags.Mode.debugMode) then
    tempMap.keys.flatMap fun s =>
      [ "void " ++ wsName ++ "::" ++ s ++ "Reply(QString result)",
        "\x7b",
        "    // TODO: Add your own data handling here!",
        "    //" ++ s ++ "Result = your_new_value;",
        "\x7d",
        "" ]
  else []

/-- Lines 939-960 of `createServiceSource`: the remaining members. -/
def sourceServiceTail (baseClassName : String) (wsdl : QWsdl) : List String :=
  let wsName := wsName baseClassName wsdl
  [ "QUrl " ++ wsName ++ "::getHostUrl()",
    "\x7b",
    "    return hostUrl;",
    "\x7d",
    "",
    "QString " ++ wsName ++ "::getHost()",
    "\x7b",
    "    return hostname;",
    "\x7d",
    "",
    "bool " ++ wsName ++ "::isErrorState()",
    "\x7b",
    "    return errorState;",
    "\x7d",
    "",
    "void " ++ wsName ++ "::init()",
    "\x7b",
    "    errorState = false;",
    "",
    "    if (isErrorState())",
    "        return;",
    "\x7d" ]

/-- The lines `createServiceSource` writes to the facade source (lines 793-960). -/
def createServiceSourceOut (flags : Flags) (baseClassName : String) (wsdl : QWsdl) :
    List String :=
  sourceServiceConstructor flags baseClassName wsdl
  ++ sourceGetMethodNames baseClassName wsdl
  ++ sourceSendMembers flags baseClassName wsdl
  ++ sourceReplyGetters flags baseClassName wsdl
  ++ sourceReplySlots flags baseClassName wsdl
  ++ sourceServiceTail baseClassName wsdl

/-! ## The emitted constructors and `setParams` at run time -/

/-- A message object when the body of a constructor starts: the members of class type
(`hostname`, `messageName`, `targetNamespace`, `reply`, `data`) are default-constructed, that
is empty; the members of built-in type (`replyReceived`, `protocol`, parameters of built-in
type) are not initialised, and hold what they hold in `raw`. -/
def uninitialised (raw : Message) : Message :=
  { raw with hostname := [], messageName := [], targetNamespace := [], reply := [], data := [] }

/-- The value of the protocol literal that the generator writes into the constructors (lines
292-300, 318-325). -/
def protocolOf (flags : Flags) : Protocol :=
  match flags.protocol with
  | QSoapMessage.Protocol.http => Protocol.http
  | QSoapMessage.Protocol.soap10 => Protocol.soap10
  | QSoapMessage.Protocol.soap12 => Protocol.soap12

/-- The assignments `this-><name> = <name>;` that the generator writes for all parameters (lines
311-315, 342-346): each parameter member, in the order of the keys of the parameter map, gets
the argument at its position. -/
def assignParameters (msg : QSoapMessage) (args : List QString) : List (QString × QString) :=
  (msg.parameterNamesTypes.keys.map String.data).zip args

/-- The emitted default constructor (lines 285-304), for a target namespace and a message name
that read as themselves inside a C++ string literal.  The statement `hostUrl.setHost(hostname)`
sets the member `hostUrl`, which is not among the members kept here. -/
def defaultConstructor (flags : Flags) (msg : QSoapMessage) (raw : Message) : Message :=
  let m := uninitialised raw
  let m := { m with hostname := msg.targetNamespace.data }
  let m := { m with messageName := msg.messageName.data }
  let m := { m with protocol := protocolOf flags }
  m

/-- The emitted constructor that takes the parameters (lines 305-331): it assigns the parameters
and the protocol; its last statement is `hostUrl.setHost(hostname + messageName)`, and no
statement assigns `hostname` or `messageName`. -/
def parameterizedConstructor (flags : Flags) (msg : QSoapMessage) (raw : Message)
    (args : List QString) : Message :=
  let m := uninitialised raw
  let m := { m with parameters := assignParameters msg args }
  let m := { m with protocol := protocolOf flags }
  m

/-- The emitted `setParams` (lines 339-348). -/
def setParams (msg : QSoapMessage) (m : Message) (args : List QString) : Message :=
  { m with parameters := assignParameters msg args }

/-! ## The generation run: directories, files and the error state -/

/-- A `QDir` as the generator uses it: the path it was created with and the names of the
directories entered below it since.  `mkdir` and `cd` are taken to succeed; `cdUp` leaves the
directory entered last (the run calls it only after a `cd`). -/
structure QDir where
  base : String
  entered : List String
  deriving DecidableEq, Repr

/-- The call `dir.path()`. -/
def QDir.path (d : QDir) : String :=
  d.entered.foldl (fun p dirName => p ++ "/" ++ dirName) d.base

/-- The call `dir.cd(dirName)`. -/
def QDir.cd (d : QDir) (dirName : String) : QDir :=
  { d with entered := d.entered ++ [dirName] }

/-- The call `dir.cdUp()`. -/
def QDir.cdUp (d : QDir) : QDir :=
  { d with entered := d.entered.dropLast }

/-- What the run reads from its surroundings: whether `QFile::open` succeeds for the file of a
given path, and the text of `QDateTime::currentDateTime().toString("yyyy.MM.dd hh:mm:ss")`. -/
structure FileSystem where
  canOpen : String → Bool
  currentDateTime : String

/-- A `QTextStream` on an open file: the lines ended by `endl` so far and the text written since
the last `endl`. -/
structure QTextStream where
  lines : List String
  current : String
  deriving DecidableEq, Repr

/-- The statement `out << text`. -/
def QTextStream.write (out : QTextStream) (text : String) : QTextStream :=
  { out with current := out.current ++ text }

/-- The statement `out << endl`. -/
def QTextStream.endl (out : QTextStream) : QTextStream :=
  { lines := out.lines ++ [out.current], current := "" }

/-- The lines of the file when it is closed; a last line without `endl` is kept as it is. -/
def QTextStream.close (out : QTextStream) : List String :=
  out.lines ++ (if out.current = "" then [] else [out.current])

/-- The data members of a `StandardPath` object (`errorState`, `errorMessage`, `baseClassName`,
`flags`, `workingDir`, `wsdl`, `messages`), and the files the object has written so far, each
with its path and its lines, in the order of writing (a file written twice appears twice, the
later text being the one that stays). -/
structure Converter where
  errorState : Bool
  errorMessage : String
  baseClassName : String
  flags : Flags
  workingDir : QDir
  wsdl : QWsdl
  messages : QMap QSoapMessage
  files : List (String × List String)

/-- The member `enterErrorState` (lines 40-47); the value returned is always `false`. -/
def enterErrorState (obj : Converter) (errMessage : String) : Bool × Converter :=
  (false, { obj with errorState := true,
                     errorMessage := obj.errorMessage ++ (errMessage ++ " ") })

/-- The member `prepare` (lines 53-59). -/
def prepare (obj : Converter) : Converter :=
  { obj with messages := obj.wsdl.methods }

/-- The member `createMessageHeader` (lines 120-245): opens the file and writes the header, or
enters the error state when the file cannot be opened. -/
def createMessageHeader (fs : FileSystem) (obj : Converter) (msg : QSoapMessage) :
    Bool × Converter :=
  let msgName := msg.messageName
  let file := obj.workingDir.path ++ "/" ++ msgName ++ ".h"
  if !fs.canOpen file then
    enterErrorState obj "Error: could not open message header file for writing."
  else
    (true, { obj with files := obj.files ++ [(file, createMessageHeaderOut obj.flags msg)] })

/-- The member `createMessageSource` (lines 251-573). -/
def createMessageSource (fs : FileSystem) (obj : Converter) (msg : QSoapMessage) :
    Bool × Converter :=
  let msgName := msg.messageName
  let file := obj.workingDir.path ++ "/" ++ msgName ++ ".cpp"
  if !fs.canOpen file then
    enterErrorState obj "Error: could not open message source file for writing."
  else
    (true, { obj with files := obj.files ++ [(file, createMessageSourceOut obj.flags msg)] })

/-- The member `createMainCpp` (lines 582-600). -/
def createMainCpp (fs : FileSystem) (obj : Converter) : Bool × Converter :=
  let file := obj.workingDir.path ++ "/main.cpp"
  if !fs.canOpen file then
    enterErrorState obj "Error: could not open Web Service header file for writing."
  else
    (true, { obj with files := obj.files ++ [(file,
      [ "/*Creates a dummy main.cpp file. It\x27s needed only for successful compilation of freshly generated code. It is NOT NEEDED for any other reason. You can safely delete it fo your project (just remember to remove it from .pro file, too). */",
        "#include \"../headers/band_ws.h\"",
        "int main() \x7breturn 0;\x7d" ])] })

/-- The first loop of `createMessages` (lines 95-100) over the keys that are left; a header that
cannot be created ends the loop and `createMessages`. -/
def createMessageHeaders (fs : FileSystem) : List String → Converter → Bool × Converter
  | [], obj => (true, obj)
  | s :: rest, obj =>
    let m := obj.messages.value s
    let r := createMessageHeader fs obj m
    if !r.1 then
      enterErrorState r.2 ("Creating header for message \"" ++ m.messageName ++ "\" failed!")
    else createMessageHeaders fs rest r.2

/-- The second loop of `createMessages` (lines 104-109) over the keys that are left. -/
def createMessageSources (fs : FileSystem) : List String → Converter → Bool × Converter
  | [], obj => (true, obj)
  | s :: rest, obj =>
    let n := obj.messages.value s
    let r := createMessageSource fs obj n
    if !r.1 then
      enterErrorState r.2 ("Creating source for message \"" ++ n.messageName ++ "\" failed!")
    else createMessageSources fs rest r.2

/-- The member `createMessages` (lines 92-114).  The value of `createMainCpp()` is not looked at
(line 110). -/
def createMessages (fs : FileSystem) (obj : Converter) : Bool × Converter :=
  let obj := { obj with workingDir := obj.workingDir.cd "headers" }
  let r := createMessageHeaders fs obj.messages.keys obj
  if !r.1 then r
  else
    let obj := r.2
    let obj := { obj with workingDir := obj.workingDir.cdUp }
    let obj := { obj with workingDir := obj.workingDir.cd "sources" }
    let r := createMessageSources fs obj.messages.keys obj
    if !r.1 then r
    else
      let obj := r.2
      let obj := (createMainCpp fs obj).2
      let obj := { obj with workingDir := obj.workingDir.cdUp }
      (true, obj)

/-- The member `createServiceHeader` (lines 625-770). -/
def createServiceHeader (fs : FileSystem) (obj : Converter) : Bool × Converter :=
  let wsName := wsName obj.baseClassName obj.wsdl
  let file := obj.workingDir.path ++ "/" ++ wsName ++ ".h"
  if !fs.canOpen file then
    enterErrorState obj "Error: could not open Web Service header file for writing."
  else
    (true, { obj with files := obj.files
      ++ [(file, createServiceHeaderOut obj.flags obj.baseClassName obj.wsdl)] })

/-- The member `createServiceSource` (lines 776-966). -/
def createServiceSource (fs : FileSystem) (obj : Converter) : Bool × Converter :=
  let wsName := wsName obj.baseClassName obj.wsdl
  let file := obj.workingDir.path ++ "/" ++ wsName ++ ".cpp"
  if !fs.canOpen file then
    enterErrorState obj "Error: could not open Web Service source file for writing."
  else
    (true, { obj with files := obj.files
      ++ [(file, createServiceSourceOut obj.flags obj.baseClassName obj.wsdl)] })

/-- The member `createService` (lines 606-619). -/
def createService (fs : FileSystem) (obj : Converter) : Bool × Converter :=
  let obj := { obj with workingDir := obj.workingDir.cd "headers" }
  let r := createServiceHeader fs obj
  if !r.1 then
    enterErrorState r.2
      ("Creating header for Web Service \"" ++ obj.wsdl.webServiceName ++ "\" failed!")
  else
    let obj := r.2
    let obj := { obj with workingDir := obj.workingDir.cdUp }
    let obj := { obj with workingDir := obj.workingDir.cd "sources" }
    let r := createServiceSource fs obj
    if !r.1 then
      enterErrorState r.2
        ("Creating source for Web Service \"" ++ obj.wsdl.webServiceName ++ "\" failed!")
    else
      let obj := r.2
      let obj := { obj with workingDir := obj.workingDir.cdUp }
      (true, obj)

/-- One of the two loops of `createQMakeProject` (lines 1019-1026 and 1031-1038): one item per
method name, each but the one at the last index followed by ` \` and `endl`. -/
def writeProjectItems (dir ext : String) (tempMap : List String) (out : QTextStream) :
    QTextStream :=
  tempMap.foldl
    (fun out s =>
      let out := out.write ("    " ++ dir ++ "/" ++ s ++ ext)
      if (tempMap.indexOf s : Int) ≠ (tempMap.length : Int) - 1 then
        (out.write " \\").endl
      else out)
    out

/-- The lines `createQMakeProject` writes to the project file (lines 999-1039). -/
def createQMakeProjectOut (fs : FileSystem) (baseClassName : String) (wsdl : QWsdl) :
    List String :=
  let wsName := wsName baseClassName wsdl
  let out : QTextStream := ⟨[], ""⟩
  let out := (out.write "#-------------------------------------------------").endl
  let out := (out.write "#").endl
  let out := out.write "# Project generated from WSDL by qtWsdlConverter "
  let out := (out.write fs.currentDateTime).endl
  let out := (out.write "#-------------------------------------------------").endl
  let out := out.endl
  let out := (out.write "QT += core network").endl
  let out := (out.write "QT -= gui").endl
  let out := out.endl
  let out := (out.write ("TARGET = " ++ wsName)).endl
  let out := out.endl
  let out := (out.write "TEMPLATE = app").endl
  let out := out.endl
  let out := (out.write ("SOURCES += sources/" ++ wsName ++ ".cpp \\")).endl
  let out := (out.write "    sources/main.cpp \\").endl
  let out := writeProjectItems "sources" ".cpp" wsdl.methodNames out
  let out := out.endl
  let out := out.endl
  let out := (out.write ("HEADERS += headers/" ++ wsName ++ ".h \\")).endl
  let out := writeProjectItems "headers" ".h" wsdl.methodNames out
  out.close

/-- The member `createQMakeProject` (lines 986-1046). -/
def createQMakeProject (fs : FileSystem) (obj : Converter) : Bool × Converter :=
  let wsName := wsName obj.baseClassName obj.wsdl
  let file := obj.workingDir.path ++ "/" ++ wsName ++ ".pro"
  if !fs.canOpen file then
    enterErrorState obj "Error: could not open Web Service .pro file for writing."
  else
    (true, { obj with files := obj.files
      ++ [(file, createQMakeProjectOut fs obj.baseClassName obj.wsdl)] })

/-- The member `createBuildSystemFile` (lines 972-980). -/
def createBuildSystemFile (fs : FileSystem) (obj : Converter) : Bool × Converter :=
  if obj.flags.buildSystem = Flags.BuildSystem.qmake then createQMakeProject fs obj
  else if obj.flags.buildSystem = Flags.BuildSystem.noBuildSystem then (true, obj)
  else (true, obj)

/-- The static member `create` (lines 70-86).  Besides the value it returns, the object it worked
on is given, with the files written and the error state at the end of the run. -/
def create (fs : FileSystem) (w : QWsdl) (wrkDir : QDir) (flgs : Flags) (bsClsNme : String) :
    Bool × Converter :=
  let obj : Converter :=
    { errorState := false, errorMessage := "", baseClassName := "", flags := flgs,
      workingDir := wrkDir, wsdl := w, messages := QMap.empty, files := [] }
  let obj := { obj with baseClassName := bsClsNme }
  let obj := { obj with flags := flgs }
  let obj := { obj with workingDir := wrkDir }
  let obj := { obj with wsdl := w }
  let obj := prepare obj
  let r := createMessages fs obj
  if !r.1 then (false, r.2)
  else
    let r := createService fs r.2
    if !r.1 then (false, r.2)
    else
      let r := createBuildSystemFile fs r.2
      if !r.1 then (false, r.2)
      else (true, r.2)

/-! ## Predicates on lines and names, and example inputs -/

/-- Whether the line `s` starts with the text `p`. -/
def startsWith (s p : String) : Bool :=
  p.data.isPrefixOf s.data

/-- Whether the line `s` ends with the text `p`. -/
def endsWith (s p : String) : Bool :=
  p.data.isSuffixOf s.data

/-- Whether the text `p` occurs in the line `s`. -/
def containsText (s p : String) : Bool :=
  QString.contains s.data p.data

/-- Whether a facade header line has the form of the declaration of a reply handler,
`    void <op>Reply(QString result);`. -/
def isReplySlotDeclaration (line : String) : Bool :=
  startsWith line "    void " && endsWith line "Reply(QString result);"

/-- Whether a facade source line has the form of the head of the definition of a reply handler,
`void <wsName>::<op>Reply(QString result)`. -/
def isReplySlotDefinition (wsName line : String) : Bool :=
  startsWith line ("void " ++ wsName ++ "::") && endsWith line "Reply(QString result)"

/-- Whether a facade source line has the form of a `connect` statement of the constructor: it
starts with `    connect(` and ends with `);`. -/
def isConnectStatement (line : String) : Bool :=
  startsWith line "    connect(" && endsWith line ");"

/-- Whether a source line is an assignment to the member `protocol`: it starts with
`    protocol = ` and ends with `;`. -/
def isProtocolAssignment (line : String) : Bool :=
  startsWith line "    protocol = " && endsWith line ";"

/-- Whether a source line assigns one of the three protocol literals to the member `protocol`. -/
def isProtocolLiteralAssignment (line : String) : Bool :=
  decide (line ∈ ["    protocol = http;", "    protocol = soap10;", "    protocol = soap12;"])

/-- The parameters of the message as `type name` items separated by `, `, in the order in which the
parameter map enumerates them (used to state what the generator writes). -/
def orderedParameterList (msg : QSoapMessage) : String :=
  ", ".intercalate (msg.parameterNamesTypes.entries.map fun e => e.2.typeName ++ " " ++ e.1)

/-- The parameter names of the message separated by `, `, in the order in which the parameter map
enumerates them (used to state what the generator writes). -/
def orderedParameterNames (msg : QSoapMessage) : String :=
  ", ".intercalate (msg.parameterNamesTypes.entries.map fun e => e.1)

/-- No parameter name and no parameter type name of the message contains `(`. -/
def QSoapMessage.plainParameters (msg : QSoapMessage) : Prop :=
  ∀ e ∈ msg.parameterNamesTypes.entries, '(' ∉ e.1.data ∧ '(' ∉ e.2.typeName.data

instance (msg : QSoapMessage) : Decidable msg.plainParameters := by
  unfold QSoapMessage.plainParameters; infer_instance

/-- No return value name and no return type name of the message contains `(`. -/
def QSoapMessage.plainReturn (msg : QSoapMessage) : Prop :=
  (∀ r ∈ msg.returnValueName, '(' ∉ r.data)
    ∧ ∀ e ∈ msg.returnValueNameType.entries, '(' ∉ e.2.typeName.data

instance (msg : QSoapMessage) : Decidable msg.plainReturn := by
  unfold QSoapMessage.plainReturn; infer_instance

/-- No operation name of the service contains `(`, and every operation has plain parameters. -/
def QWsdl.plainOperations (wsdl : QWsdl) : Prop :=
  ∀ e ∈ wsdl.methods.entries, '(' ∉ e.1.data ∧ e.2.plainParameters

instance (wsdl : QWsdl) : Decidable wsdl.plainOperations := by
  unfold QWsdl.plainOperations; infer_instance

/-- An instance of the emitted class `getX` with protocol `soap12`, target namespace
`example.org` and the parameter member `a` bound to 1. -/
def exampleGetX : Message :=
  { protocol := Protocol.soap12, hostname := "example.org".toList,
    messageName := "getX".toList, targetNamespace := "example.org".toList,
    parameters := [("a".toList, "1".toList)], replyReceived := false, reply := [], data := [] }

/-- The `QVariant` of an `int` parameter. -/
def intVariant : QVariant := ⟨"int", "0"⟩

/-- The `QVariant` of a `QString` value. -/
def stringVariant : QVariant := ⟨"QString", ""⟩

/-- The operation `getBandName(id : int) -> string`. -/
def getBandName : QSoapMessage :=
  { messageName := "getBandName", targetNamespace := "http://example.org/",
    returnValueName := ["getBandNameResult"],
    returnValueNameType := QMap.ofList [("getBandNameResult", stringVariant)],
    parameterNamesTypes := QMap.ofList [("id", intVariant)],
    returnValueName_ne := List.cons_ne_nil _ _ }

/-- The operation `getBandsList() -> string`. -/
def getBandsList : QSoapMessage :=
  { messageName := "getBandsList", targetNamespace := "http://example.org/",
    returnValueName := ["getBandsListResult"],
    returnValueNameType := QMap.ofList [("getBandsListResult", stringVariant)],
    parameterNamesTypes := QMap.ofList [],
    returnValueName_ne := List.cons_ne_nil _ _ }

/-- The service with the two operations `getBandName` and `getBandsList`. -/
def bandService : QWsdl :=
  { webServiceName := "band_ws",
    methods := QMap.ofList [("getBandName", getBandName), ("getBandsList", getBandsList)],
    methodNames := ["getBandName", "getBandsList"] }

/-- The configuration synchronous + full + soap1.2. -/
def syncFullSoap12 : Flags :=
  ⟨Flags.Mode.fullMode, Flags.Synchronousness.synchronous, QSoapMessage.Protocol.soap12,
    Flags.BuildSystem.noBuildSystem⟩

/-- An operation declared with the parameters `(b : int, a : int)`, in this order. -/
def declaredBA : QSoapMessage :=
  { messageName := "getX", targetNamespace := "example.org",
    returnValueName := ["getXResult"],
    returnValueNameType := QMap.ofList [("getXResult", stringVariant)],
    parameterNamesTypes := QMap.ofList [("b", intVariant), ("a", intVariant)],
    returnValueName_ne := List.cons_ne_nil _ _ }

/-- The operation `getX()` without parameters. -/
def getXNoParams : QSoapMessage :=
  { messageName := "getX", targetNamespace := "example.org",
    returnValueName := ["getXResult"],
    returnValueNameType := QMap.ofList [("getXResult", stringVariant)],
    parameterNamesTypes := QMap.ofList [],
    returnValueName_ne := List.cons_ne_nil _ _ }

/-- A service whose only operation is `getX()`. -/
def getXService : QWsdl :=
  { webServiceName := "x_ws",
    methods := QMap.ofList [("getX", getXNoParams)],
    methodNames := ["getX"] }

/-- The configuration asynchronous + compact + soap1.2. -/
def asyncCompactSoap12 : Flags :=
  ⟨Flags.Mode.compactMode, Flags.Synchronousness.asynchronous, QSoapMessage.Protocol.soap12,
    Flags.BuildSystem.noBuildSystem⟩

/-- The configuration asynchronous + full + soap1.2. -/
def asyncFullSoap12 : Flags :=
  ⟨Flags.Mode.fullMode, Flags.Synchronousness.asynchronous, QSoapMessage.Protocol.soap12,
    Flags.BuildSystem.noBuildSystem⟩

/-- A file system in which every file can be opened for writing. -/
def openFileSystem : FileSystem :=
  { canOpen := fun _ => true, currentDateTime := "2012.01.01 12:00:00" }

/-- A file system in which every file but `out/sources/main.cpp` can be opened for writing. -/
def mainCppLocked : FileSystem :=
  { canOpen := fun file => decide (file ≠ "out/sources/main.cpp"),
    currentDateTime := "2012.01.01 12:00:00" }

/-- The working directory `out`. -/
def outDir : QDir := ⟨"out", []⟩

/-- A service definition in which the operation name `getX` appears twice: twice in the list of
method names, and as the name of the messages of two entries of the operation map. -/
def getXTwiceService : QWsdl :=
  { webServiceName := "x_ws",
    methods := QMap.ofList [("getX", getXNoParams), ("getX_2", getXNoParams)],
    methodNames := ["getX", "getX"] }

/-- An operation whose name is empty. -/
def emptyNameMessage : QSoapMessage :=
  { messageName := "", targetNamespace := "example.org",
    returnValueName := ["Result"],
    returnValueNameType := QMap.ofList [("Result", stringVariant)],
    parameterNamesTypes := QMap.ofList [],
    returnValueName_ne := List.cons_ne_nil _ _ }

/-- The configuration synchronous + full + soap1.2 with a qmake project file. -/
def syncFullSoap12QMake : Flags :=
  ⟨Flags.Mode.fullMode, Flags.Synchronousness.synchronous, QSoapMessage.Protocol.soap12,
    Flags.BuildSystem.qmake⟩

/-- A service definition in which `getX` is listed twice and inserted twice into the operation
map, which keeps one entry per key. -/
def getXListedTwice : QWsdl :=
  { webServiceName := "x_ws",
    methods := QMap.ofList [("getX", getXNoParams), ("getX", getXNoParams)],
    methodNames := ["getX", "getX"] }

/-- A service whose only operation has the empty name. -/
def emptyNameService : QWsdl :=
  { webServiceName := "x_ws",
    methods := QMap.ofList [("", emptyNameMessage)],
    methodNames := [""] }

/-- A `StandardPath` object set up for the service `w` the way `create` sets it up, with the
working directory `out` and the configuration synchronous + full + soap1.2. -/
def exampleConverter (w : QWsdl) : Converter :=
  prepare
    { errorState := false, errorMessage := "", baseClassName := "", flags := syncFullSoap12,
      workingDir := outDir, wsdl := w, messages := QMap.empty, files := [] }

/-- The operation `GetX()` without parameters. -/
def getXCapital : QSoapMessage :=
  { messageName := "GetX", targetNamespace := "example.org",
    returnValueName := ["GetXResult"],
    returnValueNameType := QMap.ofList [("GetXResult", stringVariant)],
    parameterNamesTypes := QMap.ofList [],
    returnValueName_ne := List.cons_ne_nil _ _ }

/-- A service with the two operations `GetX` and `getX`, whose names differ in letter case
only. -/
def caseService : QWsdl :=
  { webServiceName := "x_ws",
    methods := QMap.ofList [("GetX", getXCapital), ("getX", getXNoParams)],
    methodNames := ["GetX", "getX"] }

/-- The configuration synchronous + full + soap1.0. -/
def syncFullSoap10 : Flags :=
  ⟨Flags.Mode.fullMode, Flags.Synchronousness.synchronous, QSoapMessage.Protocol.soap10,
    Flags.BuildSystem.noBuildSystem⟩

/-! # Theorems -/

/-! ## Facts about the Qt string operations -/

section StringFacts

/-- A text without an occurrence of `before` is left as it is by the replacement scan. -/
theorem replaceFrom_of_absent (before after : QString) :
    ∀ s : QString, ¬ before <:+: s → replaceFrom before after 0 s = s := by
  intro s
  induction s with
  | nil => intro _; rfl
  | cons c t ih =>
    intro h
    have hp : before.isPrefixOf (c :: t) = false := by
      cases hb : before.isPrefixOf (c :: t) with
      | false => rfl
      | true => exact absurd (List.isPrefixOf_iff_prefix.1 hb).isInfix h
    have ht : ¬ before <:+: t := fun h2 => h (h2.trans (List.suffix_cons c t).isInfix)
    simp only [replaceFrom, hp, Bool.false_eq_true, if_false, ih ht]

/-- The call `replace` changes nothing when the text to replace does not occur. -/
theorem replace_of_absent (s before after : QString) (h : ¬ before <:+: s) :
    s.replace before after = s :=
  replaceFrom_of_absent before after s h

/-- A text with neither entity is returned unchanged by `convertReplyToUtf`. -/
theorem convertReplyToUtf_of_no_entity (s : QString)
    (hlt : ¬ "&lt;".toList <:+: s) (hgt : ¬ "&gt;".toList <:+: s) :
    convertReplyToUtf s = s := by
  unfold convertReplyToUtf
  simp only []
  rw [replace_of_absent s _ _ hlt, replace_of_absent s _ _ hgt]

/-- A tag whose first character does not occur again in it cannot start inside a non-empty text
`p` and fit `p ++ tag ++ rest` unless it lies within `p`. -/
theorem prefix_of_overlap (a : Char) (t p rest : QString) (ha : a ∉ t)
    (h : (a :: t) <+: p ++ ((a :: t) ++ rest)) (hp : p ≠ []) : (a :: t) <+: p := by
  rcases List.prefix_or_prefix_of_prefix h (List.prefix_append p _) with h1 | h1
  · exact h1
  · obtain ⟨u, hu⟩ := h1
    have h2 : u <+: (a :: t) ++ rest := by
      conv at h => lhs; rw [← hu]
      exact (List.prefix_append_right_inj p).1 h
    cases u with
    | nil =>
      rw [List.append_nil] at hu
      rw [hu]
    | cons b u2 =>
      exfalso
      cases p with
      | nil => exact hp rfl
      | cons c p2 =>
        obtain ⟨w, hw⟩ := h2
        simp only [List.cons_append, List.cons.injEq] at hw hu
        apply ha
        rw [← hu.2, hw.1]
        simp

/-- The first occurrence of a tag in `pre ++ tag ++ rest` is the one after `pre`, when `pre` holds
no occurrence and the first character of the tag does not occur again in it. -/
theorem findFirst_append (a : Char) (t rest : QString) (ha : a ∉ t) :
    ∀ pre : QString, ¬ (a :: t) <:+: pre →
      findFirst (a :: t) (pre ++ ((a :: t) ++ rest)) = some pre.length := by
  intro pre
  induction pre with
  | nil =>
    intro _
    have hp : (a :: t).isPrefixOf (a :: (t ++ rest)) = true :=
      List.isPrefixOf_iff_prefix.2 ⟨rest, rfl⟩
    rw [List.nil_append, List.cons_append, findFirst, if_pos hp, List.length_nil]
  | cons c p ih =>
    intro h
    have hp : (a :: t).isPrefixOf (c :: (p ++ ((a :: t) ++ rest))) = false := by
      cases hb : (a :: t).isPrefixOf (c :: (p ++ ((a :: t) ++ rest))) with
      | false => rfl
      | true =>
        have h1 : (a :: t) <+: (c :: p) ++ ((a :: t) ++ rest) := List.isPrefixOf_iff_prefix.1 hb
        exact absurd (prefix_of_overlap a t (c :: p) rest ha h1 (List.cons_ne_nil _ _)).isInfix h
    have ht : ¬ (a :: t) <:+: p := fun h2 => h (h2.trans (List.suffix_cons c p).isInfix)
    rw [List.cons_append, findFirst, hp]
    simp only [Bool.false_eq_true, if_false, ih ht, Option.map_some', List.length_cons]

/-- The call `indexOf` from a position `k` inside the text looks at the text after `k`. -/
theorem indexOf_of_findFirst (s needle : QString) (k j : Nat)
    (hk : needle.length + k ≤ s.length) (hj : findFirst needle (s.drop k) = some j) :
    s.indexOf needle (k : Int) = ((k + j : Nat) : Int) := by
  unfold QString.indexOf
  have h1 : ¬ ((k : Int) < 0) := by omega
  have h2 : ¬ (False ∨ (needle.length : Int) + (k : Int) > (s.length : Int)) := by
    rintro (h | h)
    · exact h
    · omega
  simp only [h1, if_false, Int.toNat_ofNat, hj]
  rw [if_neg h2]
  push_cast
  rfl

/-- The call `mid` with a range that lies within the text is `drop` followed by `take`. -/
theorem mid_of_le (s : QString) (k n : Nat) (hk : k < s.length) (hn : k + n ≤ s.length) :
    s.mid (k : Int) (n : Int) = (s.drop k).take n := by
  unfold QString.mid
  have h1 : ¬ ((k : Int) ≥ (s.length : Int)) := by omega
  have h2 : ¬ ((n : Int) < 0) := by omega
  have h3 : ¬ ((k : Int) < 0) := by omega
  have h4 : ¬ ((n : Int) + (k : Int) > (s.length : Int)) := by omega
  simp only [h1, h2, h3, h4, if_false, Int.toNat_ofNat]

end StringFacts

/-! ## Reply extraction -/

section ReplyExtraction

/-- The opening tag starts with `<`, which does not occur in the rest of it when the message name
has none. -/
theorem tempBegin_eq_cons (n : QString) :
    tempBegin n = '<' :: (n ++ "Result>".toList) := rfl

/-- The closing tag starts with `<`, followed by `/`, the message name and `Result>`. -/
theorem tempFinish_eq_cons (n : QString) :
    tempFinish n = '<' :: ('/' :: (n ++ "Result>".toList)) := rfl

/-- The emitted `replyFinished` adds the length of the opening tag to `replyBeginIndex` before it
compares `replyBeginIndex` with `-1`, and the branch of that comparison assigns `replyBytes`. -/
theorem replyFinished_text (flags : Flags) (msg : QSoapMessage) :
    [ "    replyBeginIndex += tempBegin.length();",
      "",
      "    QString tempFinish = \"</\" + messageName + \"Result>\";",
      "    int replyFinishIndex = replyString.indexOf(tempFinish, replyBeginIndex, Qt::CaseSensitive);",
      "",
      "    if (replyBeginIndex == -1)",
      "        replyBytes = 0;" ]
      <:+: createMessageSourceOut flags msg := by
  have h : [ "    replyBeginIndex += tempBegin.length();",
      "",
      "    QString tempFinish = \"</\" + messageName + \"Result>\";",
      "    int replyFinishIndex = replyString.indexOf(tempFinish, replyBeginIndex, Qt::CaseSensitive);",
      "",
      "    if (replyBeginIndex == -1)",
      "        replyBytes = 0;" ]
      <:+: sourceReplyFinished msg :=
    ⟨(sourceReplyFinished msg).take 10, (sourceReplyFinished msg).drop 17, rfl⟩
  unfold createMessageSourceOut
  exact (h.trans (List.infix_append _ _ _)).trans (List.prefix_append _ _).isInfix

/-- C1 (the code at the failing input): for the message `getX` and the reply body
`<html>Service Unavailable</html>`, which holds no opening tag `<getXResult>`, the emitted
`replyFinished` stores the non-empty text `ce Unavailable</html>`: the body from index 11 (the
length of the opening tag minus one) to its end. -/
theorem replyFinished_without_opening_tag :
    ¬ tempBegin "getX".toList <:+: "<html>Service Unavailable</html>".toList ∧
    (replyFinished
        { protocol := Protocol.soap12, hostname := [], messageName := "getX".toList,
          targetNamespace := [], parameters := [], replyReceived := false, reply := [],
          data := [] }
        "<html>Service Unavailable</html>".toList).reply
      = "ce Unavailable</html>".toList ∧
    (replyFinished
        { protocol := Protocol.soap12, hostname := [], messageName := "getX".toList,
          targetNamespace := [], parameters := [], replyReceived := false, reply := [],
          data := [] }
        "<html>Service Unavailable</html>".toList).reply ≠ [] := by
  decide

/-- C2: for a message name without `<` (every name of an emitted class is a C++ identifier) and a
reply body `pre ++ <NResult> ++ mid ++ </NResult> ++ post` that holds neither `&lt;` nor `&gt;`,
with no opening tag in `pre` and no closing tag in `mid`, the emitted `replyFinished` stores
exactly `mid`. -/
theorem replyFinished_extracts_result (m : Message) (pre mid post : QString)
    (hname : '<' ∉ m.messageName)
    (hlt : ¬ "&lt;".toList <:+:
      pre ++ tempBegin m.messageName ++ mid ++ tempFinish m.messageName ++ post)
    (hgt : ¬ "&gt;".toList <:+:
      pre ++ tempBegin m.messageName ++ mid ++ tempFinish m.messageName ++ post)
    (hpre : ¬ tempBegin m.messageName <:+: pre)
    (hmid : ¬ tempFinish m.messageName <:+: mid) :
    (replyFinished m
      (pre ++ tempBegin m.messageName ++ mid ++ tempFinish m.messageName ++ post)).reply
      = mid := by
  have hB : '<' ∉ m.messageName ++ "Result>".toList := by
    intro h
    rcases List.mem_append.1 h with h1 | h1
    · exact hname h1
    · revert h1; decide
  have hF : '<' ∉ '/' :: (m.messageName ++ "Result>".toList) := by
    intro h
    rcases List.mem_cons.1 h with h1 | h1
    · revert h1; decide
    · exact hB h1
  have hFne : 0 < (tempFinish m.messageName).length := by
    rw [tempFinish_eq_cons]; simp
  -- the body, bracketed to the right
  have hbody : pre ++ tempBegin m.messageName ++ mid ++ tempFinish m.messageName ++ post
      = pre ++ (tempBegin m.messageName ++ (mid ++ (tempFinish m.messageName ++ post))) := by
    simp only [List.append_assoc]
  -- position of the opening tag
  have h1 : findFirst (tempBegin m.messageName)
      ((pre ++ (tempBegin m.messageName ++ (mid ++ (tempFinish m.messageName ++ post)))).drop 0)
      = some pre.length := by
    rw [List.drop_zero]
    rw [tempBegin_eq_cons] at hpre ⊢
    exact findFirst_append '<' _ _ hB pre hpre
  -- position of the closing tag
  have hdrop : (pre ++ (tempBegin m.messageName ++ (mid ++ (tempFinish m.messageName ++ post)))).drop
      (pre.length + (tempBegin m.messageName).length)
      = mid ++ (tempFinish m.messageName ++ post) := by
    rw [← List.append_assoc, ← List.length_append, List.drop_left]
  have h2 : findFirst (tempFinish m.messageName)
      ((pre ++ (tempBegin m.messageName ++ (mid ++ (tempFinish m.messageName ++ post)))).drop
        (pre.length + (tempBegin m.messageName).length))
      = some mid.length := by
    rw [hdrop]
    rw [tempFinish_eq_cons] at hmid ⊢
    exact findFirst_append '<' _ _ hF mid hmid
  have hlen : (pre ++ (tempBegin m.messageName ++ (mid ++ (tempFinish m.messageName ++ post)))).length
      = pre.length + (tempBegin m.messageName).length + mid.length
        + (tempFinish m.messageName).length + post.length := by
    simp only [List.length_append]; omega
  have i1 := indexOf_of_findFirst _ (tempBegin m.messageName) 0 pre.length
    (by rw [hlen]; omega) h1
  have i2 := indexOf_of_findFirst _ (tempFinish m.messageName)
    (pre.length + (tempBegin m.messageName).length) mid.length (by rw [hlen]; omega) h2
  unfold replyFinished
  simp only []
  rw [convertReplyToUtf_of_no_entity _ hlt hgt, hbody]
  have e0 : ((0 : Nat) : Int) = 0 := rfl
  rw [e0] at i1
  rw [i1]
  have e1 : ((0 + pre.length : Nat) : Int) + ((tempBegin m.messageName).length : Int)
      = ((pre.length + (tempBegin m.messageName).length : Nat) : Int) := by
    push_cast; omega
  rw [e1, i2]
  have e2 : ¬ (((pre.length + (tempBegin m.messageName).length + mid.length : Nat) : Int) = -1) := by
    omega
  rw [if_neg e2]
  have e3 : ((pre.length + (tempBegin m.messageName).length + mid.length : Nat) : Int)
      - ((pre.length + (tempBegin m.messageName).length : Nat) : Int) = (mid.length : Int) := by
    push_cast; omega
  rw [e3, mid_of_le _ _ _ (by rw [hlen]; omega) (by rw [hlen]; omega), hdrop, List.take_left]

/-- C2 at the body `...<getXResult>5</getXResult>...`: the stored result is exactly `5`. -/
theorem replyFinished_extracts_result_getX :
    '<' ∉ "getX".toList ∧
    ¬ "&lt;".toList <:+: "...<getXResult>5</getXResult>...".toList ∧
    ¬ "&gt;".toList <:+: "...<getXResult>5</getXResult>...".toList ∧
    ¬ tempBegin "getX".toList <:+: "...".toList ∧
    ¬ tempFinish "getX".toList <:+: "5".toList ∧
    (replyFinished
        { protocol := Protocol.soap12, hostname := [], messageName := "getX".toList,
          targetNamespace := [], parameters := [], replyReceived := false, reply := [],
          data := [] }
        "...<getXResult>5</getXResult>...".toList).reply = "5".toList :=
  ⟨by decide, by decide, by decide, by decide, by decide,
    replyFinished_extracts_result
      { protocol := Protocol.soap12, hostname := [], messageName := "getX".toList,
        targetNamespace := [], parameters := [], replyReceived := false, reply := [],
        data := [] }
      "...".toList "5".toList "...".toList (by decide) (by decide) (by decide) (by decide)
      (by decide)⟩

end ReplyExtraction

/-! ## Request construction -/

section RequestConstruction

/-- The statement that opens `body` is written to every message source with unescaped quotes
around the target namespace, and the loop over the local map `parameters` directly follows the
declaration of that map. -/
theorem prepareRequestData_text (flags : Flags) (msg : QSoapMessage) :
    [ "    body = \"\\t<\" + messageName + \" xmlns=\"\" + targetNamespace + \"\"> \\r\\n\";",
      "",
      "    QMap<QString, QVariant> parameters;",
      "    foreach (const QString currentKey, parameters.keys())" ]
      <:+: createMessageSourceOut flags msg := by
  have h : [ "    body = \"\\t<\" + messageName + \" xmlns=\"\" + targetNamespace + \"\"> \\r\\n\";",
      "",
      "    QMap<QString, QVariant> parameters;",
      "    foreach (const QString currentKey, parameters.keys())" ]
      <:+: sourcePrepareRequestData msg :=
    ⟨(sourcePrepareRequestData msg).take 12, (sourcePrepareRequestData msg).drop 16, rfl⟩
  exact h.trans (List.infix_append _ _ _)

/-- The data built by `prepareRequestData` does not depend on the bound parameters. -/
theorem prepareRequestData_data (m : Message) :
    (prepareRequestData m).data
      = (if m.protocol = Protocol.soap12 then
          "<?xml version=\"1.0\" encoding=\"utf-8\"?> \r\n <soap12:Envelope xmlns:xsi=\"http://www.w3.org/2001/XMLSchema-instance\" xmlns:xsd=\"http://www.w3.org/2001/XMLSchema\" xmlns:soap12=\"http://www.w3.org/2003/05/soap-envelope\"> \r\n <soap12:Body> \r\n".toList
         else [])
        ++ ("\t<".toList ++ m.messageName ++ " xmlns= + targetNamespace + > \r\n".toList
            ++ ("\t</".toList ++ m.messageName ++ "> \r\n".toList))
        ++ (if m.protocol = Protocol.soap12 then "</soap12:Body> \r\n</soap12:Envelope>".toList
            else []) :=
  rfl

set_option maxRecDepth 100000 in
/-- C3 (the code at the failing input): for protocol soap1.2, target namespace `example.org`,
message `getX` and the parameter `a` bound to 1, the data built by the emitted
`prepareRequestData` contains `<soap12:Envelope`, but neither `<getX xmlns="example.org">` nor
`<a>1</a>`: the opening element reads `<getX xmlns= + targetNamespace + >`. -/
theorem prepareRequestData_getX_soap12 :
    exampleGetX.protocol = Protocol.soap12 ∧
    exampleGetX.targetNamespace = "example.org".toList ∧
    exampleGetX.messageName = "getX".toList ∧
    exampleGetX.parameters = [("a".toList, "1".toList)] ∧
    "<soap12:Envelope".toList <:+: (prepareRequestData exampleGetX).data ∧
    ¬ "<getX xmlns=\"example.org\">".toList <:+: (prepareRequestData exampleGetX).data ∧
    ¬ "<a>1</a>".toList <:+: (prepareRequestData exampleGetX).data ∧
    "<getX xmlns= + targetNamespace + >".toList <:+: (prepareRequestData exampleGetX).data := by
  decide

/-- C4 (the code at the failing input): whatever parameters are bound, the data built by the
emitted `prepareRequestData` is the data built when none is bound; for the message `getX` under
protocol http with `a` bound to 1 and `b` bound to 2 the data is the opening element directly
followed by the closing element, with no child element between them. -/
theorem prepareRequestData_without_parameters :
    (∀ (m : Message) (ps : List (QString × QString)),
      (prepareRequestData { m with parameters := ps }).data
        = (prepareRequestData { m with parameters := [] }).data) ∧
    (prepareRequestData
        { exampleGetX with
          protocol := Protocol.http
          parameters := [("a".toList, "1".toList), ("b".toList, "2".toList)] }).data
      = "\t<getX xmlns= + targetNamespace + > \r\n\t</getX> \r\n".toList :=
  ⟨fun _ _ => rfl, by decide⟩

end RequestConstruction

/-! ## Facts about maps and parameter lists -/

section MapFacts

/-- In a list with strictly ascending keys, looking up the key of an entry finds that entry. -/
theorem lookup_of_mem {V : Type} (l : List (String × V))
    (hl : l.Pairwise (fun a b => a.1 < b.1)) (e : String × V) (he : e ∈ l) :
    l.lookup e.1 = some e.2 := by
  induction l with
  | nil => cases he
  | cons x rest ih =>
    obtain ⟨k, v⟩ := x
    have hhead := (List.pairwise_cons.1 hl).1
    have hrest := (List.pairwise_cons.1 hl).2
    rcases List.mem_cons.1 he with h | h
    · rw [h]; simp [List.lookup]
    · have hlt : k < e.1 := hhead e h
      have hne : (e.1 == k) = false := by
        simp only [beq_eq_false_iff_ne, ne_eq]
        exact fun h2 => (ne_of_lt hlt) h2.symm
      simp only [List.lookup, hne]
      exact ih hrest h

/-- The call `value` on the key of an entry of the map yields the value of that entry. -/
theorem QMap.value_of_mem {V : Type} [Inhabited V] (m : QMap V) (e : String × V)
    (he : e ∈ m.entries) : m.value e.1 = e.2 := by
  unfold QMap.value
  rw [lookup_of_mem m.entries m.ascending e he]

/-- A loop over `keys()` that reads `value(key)` visits the entries of the map in order. -/
theorem QMap.map_keys {V β : Type} [Inhabited V] (m : QMap V) (f : String → V → β) :
    m.keys.map (fun s => f s (m.value s)) = m.entries.map (fun e => f e.1 e.2) := by
  unfold QMap.keys
  rw [List.map_map]
  apply List.map_congr_left
  intro e he
  simp only [Function.comp_apply, m.value_of_mem e he]

/-- A loop over `keys()` that writes several lines per key visits the entries in order. -/
theorem QMap.flatMap_keys {V β : Type} [Inhabited V] (m : QMap V) (f : String → V → List β) :
    m.keys.flatMap (fun s => f s (m.value s)) = m.entries.flatMap (fun e => f e.1 e.2) := by
  rw [List.flatMap_def, List.flatMap_def, m.map_keys f]

/-- An accumulating loop over `keys()` appends one item per entry, in order. -/
theorem QMap.foldl_keys {V : Type} [Inhabited V] (m : QMap V) (f : String → V → String)
    (init : String) :
    m.keys.foldl (fun acc s => acc ++ f s (m.value s)) init
      = (m.entries.map (fun e => f e.1 e.2)).foldl (fun acc x => acc ++ x) init := by
  rw [← m.map_keys f, List.foldl_map]

/-- Chopping a separator that was just appended gives back the text before it. -/
theorem chop_append (x sep : String) : chop (x ++ sep) sep.data.length = x := by
  unfold chop
  apply String.ext
  simp

/-- An accumulating loop that appends `item, ` per item, followed by `chop`, is `intercalate`. -/
theorem chop_foldl_go (sep : String) (xs : List String) (acc : String) :
    chop ((xs.map (fun x => x ++ sep)).foldl (fun a x => a ++ x) (acc ++ sep)) sep.data.length
      = String.intercalate.go acc sep xs := by
  induction xs generalizing acc with
  | nil => simp only [List.map_nil, List.foldl_nil, chop_append, String.intercalate.go]
  | cons b bs ih =>
    simp only [List.map_cons, List.foldl_cons, String.intercalate.go]
    rw [← ih (acc ++ sep ++ b)]
    simp only [String.append_assoc]

/-- The comma separated list built by append-and-chop is the items joined by `, `. -/
theorem chop_foldl (xs : List String) :
    chop ((xs.map (fun x => x ++ ", ")).foldl (fun a x => a ++ x) "") 2
      = ", ".intercalate xs := by
  cases xs with
  | nil => rfl
  | cons a as =>
    simp only [List.map_cons, List.foldl_cons, String.intercalate]
    have h := chop_foldl_go ", " as a
    rw [← h]
    have e : ("" : String) ++ (a ++ ", ") = a ++ ", " := by
      apply String.ext; simp
    rw [e]
    rfl

/-- The parameter list `msgParameters`: the items `type name` of the entries of the parameter
map, in map order, separated by `, `. -/
theorem msgParameters_eq (msg : QSoapMessage) :
    msgParameters msg
      = ", ".intercalate (msg.parameterNamesTypes.entries.map fun e => e.2.typeName ++ " " ++ e.1) := by
  unfold msgParameters
  simp only []
  rw [QMap.foldl_keys msg.parameterNamesTypes (fun s v => v.typeName ++ " " ++ s ++ ", ")]
  rw [← chop_foldl, List.map_map]
  rfl

/-- The argument list `paramNames`: the names of the entries of the parameter map, in map order,
separated by `, `. -/
theorem paramNames_eq (msg : QSoapMessage) :
    paramNames msg = ", ".intercalate (msg.parameterNamesTypes.entries.map fun e => e.1) := by
  unfold paramNames
  simp only []
  have h := QMap.foldl_keys msg.parameterNamesTypes (fun s _ => s ++ ", ") ""
  simp only [] at h
  rw [h, ← chop_foldl, List.map_map]
  rfl

end MapFacts


section ParamFacts

/-- Characters of the text built by `intercalate`: the first item, then separator and item for
each further item. -/
theorem intercalate_go_data (acc sep : String) (xs : List String) :
    (String.intercalate.go acc sep xs).data
      = acc.data ++ (xs.flatMap fun x => sep.data ++ x.data) := by
  induction xs generalizing acc with
  | nil => simp [String.intercalate.go]
  | cons b bs ih =>
    simp only [String.intercalate.go, ih, String.data_append, List.flatMap_cons,
      List.append_assoc]

/-- The parameter list is empty exactly when the operation has no parameter. -/
theorem msgParameters_eq_empty_iff (msg : QSoapMessage) :
    msgParameters msg = "" ↔ msg.parameterNamesTypes.entries = [] := by
  rw [msgParameters_eq]
  constructor
  · intro h
    cases hE : msg.parameterNamesTypes.entries with
    | nil => rfl
    | cons e es =>
      exfalso
      rw [hE] at h
      have h2 := congrArg String.data h
      simp [String.intercalate, intercalate_go_data] at h2
  · intro h
    rw [h]
    rfl

/-- A character of the parameter list is a comma, a blank, or a character of a parameter name or
of a parameter type name. -/
theorem mem_msgParameters (msg : QSoapMessage) (c : Char)
    (hc : c ∈ (msgParameters msg).data) :
    c = ',' ∨ c = ' ' ∨ ∃ e ∈ msg.parameterNamesTypes.entries,
      c ∈ e.1.data ∨ c ∈ e.2.typeName.data := by
  rw [msgParameters_eq] at hc
  cases hE : msg.parameterNamesTypes.entries with
  | nil =>
    rw [hE] at hc
    simp [String.intercalate] at hc
  | cons e es =>
    rw [hE] at hc
    simp only [List.map_cons, String.intercalate, intercalate_go_data, List.mem_append,
      List.mem_flatMap, List.mem_map, String.data_append] at hc
    rcases hc with h | ⟨x, ⟨e2, he2, hx⟩, h⟩
    · have : c ∈ e.2.typeName.data ∨ c ∈ " ".data ∨ c ∈ e.1.data := by
        simpa [or_assoc] using h
      rcases this with h1 | h1 | h1
      · exact Or.inr (Or.inr ⟨e, List.mem_cons_self _ _, Or.inr h1⟩)
      · right; left
        simpa using h1
      · exact Or.inr (Or.inr ⟨e, List.mem_cons_self _ _, Or.inl h1⟩)
    · subst hx
      have : c ∈ ", ".data ∨ c ∈ e2.2.typeName.data ∨ c ∈ " ".data ∨ c ∈ e2.1.data := by
        simpa [or_assoc] using h
      rcases this with h1 | h1 | h1 | h1
      · have : c = ',' ∨ c = ' ' := by simpa using h1
        rcases this with h2 | h2
        · exact Or.inl h2
        · exact Or.inr (Or.inl h2)
      · exact Or.inr (Or.inr ⟨e2, List.mem_cons_of_mem _ he2, Or.inr h1⟩)
      · right; left
        simpa using h1
      · exact Or.inr (Or.inr ⟨e2, List.mem_cons_of_mem _ he2, Or.inl h1⟩)

/-- With plain parameters the parameter list holds no `(`. -/
theorem paren_not_mem_msgParameters (msg : QSoapMessage) (h : msg.plainParameters) :
    '(' ∉ (msgParameters msg).data := by
  intro hc
  rcases mem_msgParameters msg '(' hc with h1 | h1 | ⟨e, he, h1⟩
  · revert h1; decide
  · revert h1; decide
  · rcases h1 with h2 | h2
    · exact (h e he).1 h2
    · exact (h e he).2 h2

end ParamFacts

section LineFacts

/-- A text that holds a character which the line does not hold is not a start of the line. -/
theorem not_prefix_of_not_mem (c : Char) (p l : List Char) (hp : c ∈ p) (hl : c ∉ l) :
    ¬ p <+: l :=
  fun h => hl (h.subset hp)

/-- Two texts cut at the first occurrence of a character agree before the cut. -/
theorem append_cons_left_eq (c : Char) :
    ∀ (a b x y : List Char), c ∉ a → c ∉ b → a ++ c :: x = b ++ c :: y → a = b := by
  intro a
  induction a with
  | nil =>
    intro b x y _ hb h
    cases b with
    | nil => rfl
    | cons d b2 =>
      exfalso
      simp only [List.nil_append, List.cons_append, List.cons.injEq] at h
      exact hb (by rw [h.1]; exact List.mem_cons_self _ _)
  | cons d a2 ih =>
    intro b x y ha hb h
    cases b with
    | nil =>
      exfalso
      simp only [List.nil_append, List.cons_append, List.cons.injEq] at h
      exact ha (by rw [← h.1]; exact List.mem_cons_self _ _)
    | cons e b2 =>
      simp only [List.cons_append, List.cons.injEq] at h
      rw [h.1, ih b2 x y (fun h2 => ha (List.mem_cons_of_mem _ h2))
        (fun h2 => hb (List.mem_cons_of_mem _ h2)) h.2]

/-- A line that starts with a name without `:` followed by `:` does not start with `bool `,
that name and `:`. -/
theorem not_prefix_bool (n x y : List Char) (hn : ':' ∉ n) :
    ¬ ('b' :: 'o' :: 'o' :: 'l' :: ' ' :: (n ++ ':' :: x)) <+: n ++ ':' :: y := by
  rintro ⟨t, ht⟩
  have h1 : ('b' :: 'o' :: 'o' :: 'l' :: ' ' :: n) ++ ':' :: (x ++ t) = n ++ ':' :: y := by
    simpa using ht
  have h2 : ':' ∉ ('b' :: 'o' :: 'o' :: 'l' :: ' ' :: n) := by
    simp only [List.mem_cons, not_or]
    exact ⟨by decide, by decide, by decide, by decide, by decide, hn⟩
  have h3 := append_cons_left_eq ':' _ _ _ _ h2 hn h1
  have h4 := congrArg List.length h3
  simp only [List.length_cons] at h4
  omega

/-- The name of the return value holds no `(` when the return names are plain. -/
theorem paren_not_mem_msgReplyName (msg : QSoapMessage) (h : msg.plainReturn) :
    '(' ∉ (msgReplyName msg).data :=
  h.1 _ (List.head_mem _)

/-- The type name of the return value holds no `(` when the return names are plain. -/
theorem paren_not_mem_msgReplyType (msg : QSoapMessage) (h : msg.plainReturn) :
    '(' ∉ (msgReplyType msg).data := by
  unfold msgReplyType QMap.keys
  cases hE : msg.returnValueNameType.entries with
  | nil => simp
  | cons e es =>
    have he : e ∈ msg.returnValueNameType.entries := by rw [hE]; exact List.mem_cons_self _ _
    simp only [List.map_cons, String.empty_append]
    rw [msg.returnValueNameType.value_of_mem e he]
    exact h.2 e he

end LineFacts

section SendMessage

/-- With no parameter, the only header line that starts like a non-static `sendMessage`
declaration is the one without arguments. -/
theorem header_sendMessage_only (flags : Flags) (msg : QSoapMessage)
    (h0 : msg.parameterNamesTypes.entries = []) (hret : msg.plainReturn) :
    (createMessageHeaderOut flags msg).filter (startsWith · "    bool sendMessage(")
      = ["    bool sendMessage();"] := by
  have hP : msgParameters msg = "" := (msgParameters_eq_empty_iff msg).2 h0
  have hK : msg.parameterNamesTypes.keys = [] := by unfold QMap.keys; rw [h0]; rfl
  have hT := paren_not_mem_msgReplyType msg hret
  have hR := paren_not_mem_msgReplyName msg hret
  cases hmode : flags.mode <;>
    simp [createMessageHeaderOut, hP, hK, hmode, startsWith, List.filter_cons] <;>
    exact not_prefix_of_not_mem '(' _ _ (by decide) (by simp [hT, hR])

set_option maxRecDepth 100000 in
/-- With no parameter, the only source line that starts like a definition of a non-static
`sendMessage` is the one without arguments. -/
theorem source_sendMessage_only (flags : Flags) (msg : QSoapMessage)
    (h0 : msg.parameterNamesTypes.entries = []) (hname : ':' ∉ msg.messageName.data) :
    (createMessageSourceOut flags msg).filter
        (startsWith · ("bool " ++ msg.messageName ++ "::sendMessage("))
      = ["bool " ++ msg.messageName ++ "::sendMessage()"] := by
  have hP : msgParameters msg = "" := (msgParameters_eq_empty_iff msg).2 h0
  have hK : msg.parameterNamesTypes.keys = [] := by unfold QMap.keys; rw [h0]; rfl
  cases hmode : flags.mode <;>
    simp [createMessageSourceOut, sourceDefaultConstructor, sourceParamConstructor,
      sourceSetParams, sourceSetProtocol, sourceSendMessage, sourceSendMessageParams,
      sourceStaticSendMessage, sourceGetters, sourceReplyFinished, sourcePrepareRequestData,
      sourceConvertReplyToUtf, assignAllParameters, insertAllParameters, hP, hK, hmode,
      startsWith, List.filter_cons, not_prefix_bool _ _ _ hname]

end SendMessage


/-- C5: every emitted message declares and defines the `bool sendMessage()` without arguments;
with at least one parameter it also declares and defines `bool sendMessage(<params>)`, where
`<params>` lists the parameters as `type name` separated by `, `; with no parameter (and names
that are C++ identifiers: no `(` in the return names, no `:` in the message name) the line
without arguments is the only header line that starts with `    bool sendMessage(` and the only
source line that starts with `bool <name>::sendMessage(`. -/
theorem sendMessage_overloads (flags : Flags) (msg : QSoapMessage) :
    ("    bool sendMessage();" ∈ createMessageHeaderOut flags msg
      ∧ "bool " ++ msg.messageName ++ "::sendMessage()" ∈ createMessageSourceOut flags msg)
    ∧ (msg.parameterNamesTypes.entries ≠ [] →
        "    bool sendMessage("
            ++ ", ".intercalate
                (msg.parameterNamesTypes.entries.map fun e => e.2.typeName ++ " " ++ e.1)
            ++ ");" ∈ createMessageHeaderOut flags msg
        ∧ "bool " ++ msg.messageName ++ "::sendMessage("
            ++ ", ".intercalate
                (msg.parameterNamesTypes.entries.map fun e => e.2.typeName ++ " " ++ e.1)
            ++ ")" ∈ createMessageSourceOut flags msg)
    ∧ (msg.parameterNamesTypes.entries = [] → msg.plainReturn → ':' ∉ msg.messageName.data →
        (createMessageHeaderOut flags msg).filter (startsWith · "    bool sendMessage(")
            = ["    bool sendMessage();"]
        ∧ (createMessageSourceOut flags msg).filter
              (startsWith · ("bool " ++ msg.messageName ++ "::sendMessage("))
            = ["bool " ++ msg.messageName ++ "::sendMessage()"]) := by
  refine ⟨⟨?_, ?_⟩, ?_, ?_⟩
  · simp [createMessageHeaderOut]
  · simp [createMessageSourceOut, sourceSendMessage]
  · intro hK
    have hP : msgParameters msg ≠ "" := fun h => hK ((msgParameters_eq_empty_iff msg).1 h)
    rw [← msgParameters_eq]
    constructor
    · simp [createMessageHeaderOut, hP]
    · simp [createMessageSourceOut, sourceSendMessageParams, hP]
  · intro h0 hret hname
    exact ⟨header_sendMessage_only flags msg h0 hret,
      source_sendMessage_only flags msg h0 hname⟩

set_option maxRecDepth 100000 in
/-- C5 at the operation `getX()` without parameters (one `sendMessage` overload) and at
`getBandName(int id)` (two overloads). -/
theorem sendMessage_overloads_examples :
    (getXNoParams.parameterNamesTypes.entries = [] ∧ getXNoParams.plainReturn
      ∧ ':' ∉ getXNoParams.messageName.data
      ∧ (createMessageHeaderOut syncFullSoap12 getXNoParams).filter
            (startsWith · "    bool sendMessage(")
          = ["    bool sendMessage();"]
      ∧ (createMessageSourceOut syncFullSoap12 getXNoParams).filter
            (startsWith · "bool getX::sendMessage(")
          = ["bool getX::sendMessage()"])
    ∧ (getBandName.parameterNamesTypes.entries ≠ []
      ∧ "    bool sendMessage(int id);" ∈ createMessageHeaderOut syncFullSoap12 getBandName
      ∧ "bool getBandName::sendMessage(int id)"
          ∈ createMessageSourceOut syncFullSoap12 getBandName) :=
  ⟨⟨by decide, by decide, by decide,
      ((sendMessage_overloads syncFullSoap12 getXNoParams).2.2 (by decide) (by decide)
        (by decide)).1,
      ((sendMessage_overloads syncFullSoap12 getXNoParams).2.2 (by decide) (by decide)
        (by decide)).2⟩,
    ⟨by decide,
      ((sendMessage_overloads syncFullSoap12 getBandName).2.1 (by decide)).1,
      ((sendMessage_overloads syncFullSoap12 getBandName).2.1 (by decide)).2⟩⟩

section SetProtocol

/-- A key of a map is the key of one of its entries, whose value `value` returns. -/
theorem QMap.exists_of_mem_keys {V : Type} [Inhabited V] (m : QMap V) (s : String)
    (hs : s ∈ m.keys) : ∃ e ∈ m.entries, e.1 = s ∧ m.value s = e.2 := by
  unfold QMap.keys at hs
  obtain ⟨e, he, h⟩ := List.mem_map.1 hs
  exact ⟨e, he, h, by rw [← h]; exact m.value_of_mem e he⟩

/-- A text that holds a character differs from every text that does not hold it. -/
theorem ne_of_mem_of_not_mem (c : Char) (a b : List Char) (ha : c ∈ a) (hb : c ∉ b) :
    a ≠ b :=
  fun h => hb (h ▸ ha)

/-- In compact mode no header line is the declaration of `setProtocol`, when the names of the
message hold no `(`. -/
theorem header_setProtocol_absent (flags : Flags) (msg : QSoapMessage)
    (hmode : flags.mode = Flags.Mode.compactMode)
    (hparams : msg.plainParameters) (hret : msg.plainReturn) :
    "    void setProtocol(Protocol protocol);" ∉ createMessageHeaderOut flags msg := by
  have hT := paren_not_mem_msgReplyType msg hret
  have hR := paren_not_mem_msgReplyName msg hret
  have hdecl : ∀ x ∈ msg.parameterNamesTypes.keys,
      '(' ∉ (msg.parameterNamesTypes.value x).typeName.data ++ ' ' :: (x.data ++ [';']) := by
    intro x hx
    obtain ⟨e, he, h1, h2⟩ := msg.parameterNamesTypes.exists_of_mem_keys x hx
    have h3 := hparams e he
    rw [h2, ← h1]
    simp [h3.1, h3.2]
  by_cases hP : msgParameters msg = "" <;>
    simp [createMessageHeaderOut, hmode, hP, String.ext_iff]
  · refine ⟨?_, ?_⟩
    · intro x hx h
      exact hdecl x hx (by rw [h]; decide)
    · exact ne_of_mem_of_not_mem '(' _ _ (by decide) (by simp [hT, hR])
  · refine ⟨?_, ?_, ?_⟩
    · intro h
      have h2 := congrArg List.reverse h
      simp at h2
    · intro x hx h
      exact hdecl x hx (by rw [h]; decide)
    · exact ne_of_mem_of_not_mem '(' _ _ (by decide) (by simp [hT, hR])

set_option maxRecDepth 100000 in
/-- In compact mode no source line is the head of a definition of `setProtocol`. -/
theorem source_setProtocol_absent (flags : Flags) (msg : QSoapMessage)
    (hmode : flags.mode = Flags.Mode.compactMode) :
    "void " ++ msg.messageName ++ "::setProtocol(Protocol prot)"
      ∉ createMessageSourceOut flags msg := by
  simp [createMessageSourceOut, sourceDefaultConstructor, sourceParamConstructor,
      sourceSetParams, sourceSetProtocol, sourceSendMessage, sourceSendMessageParams,
      sourceStaticSendMessage, sourceGetters, sourceReplyFinished, sourcePrepareRequestData,
      sourceConvertReplyToUtf, assignAllParameters, insertAllParameters, hmode, String.ext_iff]
  refine ⟨?_, ?_, ?_⟩ <;> intros <;> intro h <;> have h2 := congrArg List.reverse h <;>
    simp at h2

end SetProtocol

/-- C6: for a message whose parameter and return names and type names hold no `(` (they are C++
identifiers and type names), the header holds the declaration `void setProtocol(Protocol
protocol);` if and only if the mode is not compact, and the source holds the definition head
`void <name>::setProtocol(Protocol prot)` if and only if the mode is not compact. -/
theorem setProtocol_iff_not_compact (flags : Flags) (msg : QSoapMessage)
    (hparams : msg.plainParameters) (hret : msg.plainReturn) :
    ("    void setProtocol(Protocol protocol);" ∈ createMessageHeaderOut flags msg
        ↔ flags.mode ≠ Flags.Mode.compactMode)
    ∧ ("void " ++ msg.messageName ++ "::setProtocol(Protocol prot)"
          ∈ createMessageSourceOut flags msg
        ↔ flags.mode ≠ Flags.Mode.compactMode) := by
  by_cases hmode : flags.mode = Flags.Mode.compactMode
  · refine ⟨⟨fun h => ?_, fun h => absurd hmode h⟩, ⟨fun h => ?_, fun h => absurd hmode h⟩⟩
    · exact absurd h (header_setProtocol_absent flags msg hmode hparams hret)
    · exact absurd h (source_setProtocol_absent flags msg hmode)
  · refine ⟨⟨fun _ => hmode, fun _ => ?_⟩, ⟨fun _ => hmode, fun _ => ?_⟩⟩
    · simp [createMessageHeaderOut, hmode]
    · simp [createMessageSourceOut, sourceSetProtocol, hmode]

/-- C6 at the operation `getBandName(int id)`: declared and defined in full mode, absent in
compact mode. -/
theorem setProtocol_iff_not_compact_getBandName :
    getBandName.plainParameters ∧ getBandName.plainReturn
    ∧ "    void setProtocol(Protocol protocol);"
        ∈ createMessageHeaderOut syncFullSoap12 getBandName
    ∧ "void getBandName::setProtocol(Protocol prot)"
        ∈ createMessageSourceOut syncFullSoap12 getBandName
    ∧ "    void setProtocol(Protocol protocol);"
        ∉ createMessageHeaderOut asyncCompactSoap12 getBandName
    ∧ "void getBandName::setProtocol(Protocol prot)"
        ∉ createMessageSourceOut asyncCompactSoap12 getBandName :=
  ⟨by decide, by decide,
    (setProtocol_iff_not_compact syncFullSoap12 getBandName (by decide) (by decide)).1.2
      (by decide),
    (setProtocol_iff_not_compact syncFullSoap12 getBandName (by decide) (by decide)).2.2
      (by decide),
    fun h => (setProtocol_iff_not_compact asyncCompactSoap12 getBandName (by decide)
      (by decide)).1.1 h rfl,
    fun h => (setProtocol_iff_not_compact asyncCompactSoap12 getBandName (by decide)
      (by decide)).2.1 h rfl⟩


/-! ## The facade: reply handlers -/

section ReplySlots

/-- Filtering the lines written by a loop, given what is kept of the lines of each round. -/
theorem filter_flatMap_eq {α β : Type} (p : β → Bool) (l : List α) (f g : α → List β)
    (h : ∀ x ∈ l, (f x).filter p = g x) : (l.flatMap f).filter p = l.flatMap g := by
  induction l with
  | nil => rfl
  | cons a l ih =>
    simp only [List.flatMap_cons, List.filter_append]
    rw [h a (List.mem_cons_self _ _), ih (fun x hx => h x (List.mem_cons_of_mem _ hx))]

/-- Filtering a loop that writes one line per round, none of which is kept. -/
theorem filter_map_eq_nil {α β : Type} (p : β → Bool) (l : List α) (f : α → β)
    (h : ∀ x ∈ l, p (f x) = false) : (l.map f).filter p = [] := by
  rw [List.filter_eq_nil_iff]
  intro b hb
  obtain ⟨x, hx, rfl⟩ := List.mem_map.1 hb
  simp [h x hx]

/-- Lowering a character does not produce `(` from another character. -/
theorem toLower_eq_paren (c : Char) (h : c.toLower = '(') : c = '(' := by
  unfold Char.toLower at h
  simp only [] at h
  split_ifs at h with h1
  · exfalso
    have h2 := congrArg Char.toNat h
    have h3 : (Char.ofNat (c.toNat + 32)).toNat = c.toNat + 32 := by
      unfold Char.ofNat
      have hv : (c.toNat + 32).isValidChar := by
        left; omega
      simp only [hv, dite_true]
      rfl
    rw [h3] at h2
    have : '('.toNat = 40 := by decide
    omega
  · exact h

/-- A name without `(` has no `(` after lowering. -/
theorem paren_not_mem_toLower (s : List Char) (h : '(' ∉ s) : '(' ∉ s.map Char.toLower := by
  intro h2
  obtain ⟨c, hc, h3⟩ := List.mem_map.1 h2
  exact h (toLower_eq_paren c h3 ▸ hc)

/-- Two texts cut at the first `(` that start alike up to the cut continue alike: a text `q ( y`
starts `p ( x` only if `y` starts `x`. -/
theorem not_prefix_paren (q y p x : List Char) (hq : '(' ∉ q) (hp : '(' ∉ p)
    (hxy : ¬ y <+: x) : ¬ (q ++ '(' :: y) <+: p ++ '(' :: x := by
  rintro ⟨t, ht⟩
  have h1 : q ++ '(' :: (y ++ t) = p ++ '(' :: x := by simpa using ht
  have h2 := append_cons_left_eq '(' _ _ _ _ hq hp h1
  rw [h2] at h1
  have h3 := List.append_cancel_left h1
  simp only [List.cons.injEq, true_and] at h3
  exact hxy ⟨t, h3⟩

/-- With plain operations, the parameter list of every operation of the map holds no `(`. -/
theorem paren_not_mem_of_key (wsdl : QWsdl) (hplain : wsdl.plainOperations) (s : String)
    (hs : s ∈ wsdl.methods.keys) :
    '(' ∉ s.data ∧ '(' ∉ (msgParameters (wsdl.methods.value s)).data := by
  obtain ⟨e, he, h1, h2⟩ := wsdl.methods.exists_of_mem_keys s hs
  rw [h2, ← h1]
  exact ⟨(hplain e he).1, paren_not_mem_msgParameters e.2 (hplain e he).2⟩

/-- The boolean test for a start of a text fails when the text does not start so. -/
theorem isPrefixOf_eq_false {a b : List Char} (h : ¬ a <+: b) : a.isPrefixOf b = false := by
  cases hb : a.isPrefixOf b with
  | false => rfl
  | true => exact absurd (List.isPrefixOf_iff_prefix.1 hb) h

/-- A line without `(` does not end with a text that holds one. -/
theorem endsWith_eq_false_of_paren (line p : String) (hp : '(' ∈ p.data)
    (hl : '(' ∉ line.data) : endsWith line p = false := by
  unfold endsWith
  cases h : p.data.isSuffixOf line.data with
  | false => rfl
  | true => exact absurd ((List.isSuffixOf_iff_suffix.1 h).subset hp) hl

variable (flags : Flags) (baseClassName : String) (wsdl : QWsdl)

/-- No `Send` member of an asynchronous facade header has the form of a reply handler. -/
theorem headerSendMembers_filter
    (hasync : flags.synchronousness = Flags.Synchronousness.asynchronous)
    (hplain : wsdl.plainOperations) :
    (headerSendMembers flags wsdl).filter isReplySlotDeclaration = [] := by
  unfold headerSendMembers
  apply filter_map_eq_nil
  intro s hs
  have hP := (paren_not_mem_of_key wsdl hplain s hs).2
  simp [hasync, isReplySlotDeclaration, startsWith, endsWith, List.isSuffixOf]
  apply isPrefixOf_eq_false
  refine not_prefix_paren "tluser gnirtSQ".data "ylpeR".data _ _ (by decide) ?_ ?_
  · simpa using hP
  · simp

/-- No reply getter of the facade header has the form of a reply handler. -/
theorem headerReplyGetters_filter :
    (headerReplyGetters flags wsdl).filter isReplySlotDeclaration = [] := by
  have h : ∀ s ∈ wsdl.methods.keys,
      (if flags.mode = Flags.Mode.compactMode then []
        else if flags.mode = Flags.Mode.fullMode ∨ flags.mode = Flags.Mode.debugMode then
          [ "    " ++ tmpReturn (wsdl.methods.value s) ++ " " ++ s ++ "ReplyRead();" ]
        else []).filter isReplySlotDeclaration = [] := by
    intro s _
    split_ifs <;>
      simp [isReplySlotDeclaration, startsWith, endsWith, List.isSuffixOf]
  by_cases hs : flags.synchronousness = Flags.Synchronousness.asynchronous
  · simp only [headerReplyGetters, hs, if_true, List.filter_append, filter_flatMap_eq _ _ _ _ h]
    simp [isReplySlotDeclaration, startsWith, endsWith, List.isSuffixOf]
  · simp only [headerReplyGetters, hs, if_false, List.filter_nil]

/-- The reply handlers declared in the header of an asynchronous facade: one per operation, in
the order of the keys of the operation map, unless the mode is compact. -/
theorem headerReplySlots_filter
    (hasync : flags.synchronousness = Flags.Synchronousness.asynchronous) :
    (headerReplySlots flags wsdl).filter isReplySlotDeclaration
      = if flags.mode = Flags.Mode.compactMode then []
        else wsdl.methods.keys.map fun s => "    void " ++ s ++ "Reply(QString result);" := by
  have h : ∀ s ∈ wsdl.methods.keys,
      (if flags.mode = Flags.Mode.compactMode then []
        else if flags.mode = Flags.Mode.fullMode ∨ flags.mode = Flags.Mode.debugMode then
          [ "    void " ++ s ++ "Reply(QString result);" ]
        else []).filter isReplySlotDeclaration
      = if flags.mode = Flags.Mode.compactMode then []
        else [ "    void " ++ s ++ "Reply(QString result);" ] := by
    intro s _
    cases hmode : flags.mode <;>
      simp [isReplySlotDeclaration, startsWith, endsWith, List.isSuffixOf]
  simp only [headerReplySlots, hasync, if_true, List.filter_append, filter_flatMap_eq _ _ _ _ h]
  cases hmode : flags.mode <;>
    simp [isReplySlotDeclaration, startsWith, endsWith, List.isSuffixOf, List.map_eq_flatMap]

/-- No reply variable and no message instance of the facade header has the form of a reply
handler. -/
theorem headerMessageMembers_filter (hplain : wsdl.plainOperations) :
    (headerMessageMembers flags wsdl).filter isReplySlotDeclaration = [] := by
  by_cases hc : flags.synchronousness = Flags.Synchronousness.asynchronous
      ∧ (flags.mode = Flags.Mode.fullMode ∨ flags.mode = Flags.Mode.debugMode)
  · simp only [headerMessageMembers, hc, and_self, if_true, List.filter_append]
    rw [filter_map_eq_nil, filter_map_eq_nil]
    · simp [isReplySlotDeclaration, startsWith, endsWith, List.isSuffixOf]
    · intro s hs
      have hs1 := (paren_not_mem_of_key wsdl hplain s hs).1
      have hs2 := paren_not_mem_toLower s.data hs1
      simp only [isReplySlotDeclaration, Bool.and_eq_false_imp]
      intro _
      exact endsWith_eq_false_of_paren _ _ (by decide) (by simp [toLower, hs1, hs2])
    · intro s _
      simp [isReplySlotDeclaration, startsWith, endsWith, List.isSuffixOf,
        List.isPrefixOf_cons₂]
  · simp only [headerMessageMembers, hc, if_false, List.filter_nil]

end ReplySlots


section ReplySlotsSource

variable (flags : Flags) (baseClassName : String) (wsdl : QWsdl)

/-- No line of the facade constructor has the form of the head of a reply handler. -/
theorem sourceServiceConstructor_filter :
    (sourceServiceConstructor flags baseClassName wsdl).filter
      (isReplySlotDefinition (wsName baseClassName wsdl)) = [] := by
  simp only [sourceServiceConstructor, List.filter_append]
  have h : ((if flags.synchronousness = Flags.Synchronousness.asynchronous then
        wsdl.methods.keys.map fun s =>
          "    connect(&" ++ toLower s ++ ", SIGNAL(replyReady(QString)), this, SLOT("
            ++ (if flags.mode = Flags.Mode.compactMode then ""
                else if flags.mode = Flags.Mode.fullMode ∨ flags.mode = Flags.Mode.debugMode then
                  s ++ "Reply(QString)"
                else "")
            ++ "));"
      else []).filter (isReplySlotDefinition (wsName baseClassName wsdl))) = [] := by
    split_ifs
    all_goals first
      | rfl
      | (apply filter_map_eq_nil
         intro s _
         simp [isReplySlotDefinition, startsWith])
  rw [h]
  simp [isReplySlotDefinition, startsWith, endsWith, List.isSuffixOf]

/-- No line of the destructor or of `getMethodNames` has the form of the head of a reply
handler. -/
theorem sourceGetMethodNames_filter :
    (sourceGetMethodNames baseClassName wsdl).filter
      (isReplySlotDefinition (wsName baseClassName wsdl)) = [] := by
  simp only [sourceGetMethodNames, List.filter_append]
  rw [filter_map_eq_nil]
  · simp [isReplySlotDefinition, startsWith, endsWith, List.isSuffixOf]
  · intro s _
    simp [isReplySlotDefinition, startsWith]

/-- No line of a `Send` member of an asynchronous facade has the form of the head of a reply
handler. -/
theorem sourceSendMembers_filter
    (hasync : flags.synchronousness = Flags.Synchronousness.asynchronous)
    (hplain : wsdl.plainOperations) :
    (sourceSendMembers flags baseClassName wsdl).filter
      (isReplySlotDefinition (wsName baseClassName wsdl)) = [] := by
  simp only [sourceSendMembers]
  rw [filter_flatMap_eq _ _ _ (fun _ => [])]
  · simp
  · intro s hs
    have hP := (paren_not_mem_of_key wsdl hplain s hs).2
    have hsuffix : endsWith
        ("void " ++ wsName baseClassName wsdl ++ "::" ++ s ++ "Send("
          ++ msgParameters (wsdl.methods.value s) ++ ")") "Reply(QString result)" = false := by
      simp only [endsWith, List.isSuffixOf]
      apply isPrefixOf_eq_false
      have h2 : ¬ ("tluser gnirtSQ".data ++ '(' :: "ylpeR".data)
          <+: (msgParameters (wsdl.methods.value s)).data.reverse
            ++ '(' :: ("dneS".data ++ (s.data.reverse
              ++ ("::".data ++ ((wsName baseClassName wsdl).data.reverse ++ " diov".data)))) :=
        not_prefix_paren _ _ _ _ (by decide) (by simpa using hP) (by simp)
      simpa using h2
    simp [hasync, isReplySlotDefinition, hsuffix, startsWith]

/-- No line of a reply getter has the form of the head of a reply handler. -/
theorem sourceReplyGetters_filter :
    (sourceReplyGetters flags baseClassName wsdl).filter
      (isReplySlotDefinition (wsName baseClassName wsdl)) = [] := by
  by_cases hs : flags.synchronousness = Flags.Synchronousness.asynchronous
  · simp only [sourceReplyGetters, hs, if_true, List.filter_append]
    rw [filter_flatMap_eq _ _ _ (fun _ => [])]
    · simp [isReplySlotDefinition, startsWith]
    · intro s _
      split_ifs <;>
        simp [isReplySlotDefinition, startsWith, endsWith, List.isSuffixOf,
          List.isPrefixOf_cons₂]
  · simp only [sourceReplyGetters, hs, if_false, List.filter_nil]

/-- The heads of the reply handlers defined in the source of an asynchronous facade: one per
operation, in the order of the keys of the operation map, unless the mode is compact. -/
theorem sourceReplySlots_filter
    (hasync : flags.synchronousness = Flags.Synchronousness.asynchronous) :
    (sourceReplySlots flags baseClassName wsdl).filter
        (isReplySlotDefinition (wsName baseClassName wsdl))
      = if flags.mode = Flags.Mode.compactMode then []
        else wsdl.methods.keys.map fun s =>
          "void " ++ wsName baseClassName wsdl ++ "::" ++ s ++ "Reply(QString result)" := by
  cases hmode : flags.mode
  · simp only [sourceReplySlots, hasync, hmode, true_or, and_self, if_true]
    rw [filter_flatMap_eq _ _ _ (fun s =>
      [ "void " ++ wsName baseClassName wsdl ++ "::" ++ s ++ "Reply(QString result)" ])]
    · simp [List.map_eq_flatMap]
    · intro s _
      simp [isReplySlotDefinition, startsWith, endsWith, List.isSuffixOf]
  · simp only [sourceReplySlots, hasync, hmode, or_true, and_self, if_true]
    rw [filter_flatMap_eq _ _ _ (fun s =>
      [ "void " ++ wsName baseClassName wsdl ++ "::" ++ s ++ "Reply(QString result)" ])]
    · simp [List.map_eq_flatMap]
    · intro s _
      simp [isReplySlotDefinition, startsWith, endsWith, List.isSuffixOf]
  · simp [sourceReplySlots, hasync, hmode]

/-- No line of the remaining members has the form of the head of a reply handler. -/
theorem sourceServiceTail_filter :
    (sourceServiceTail baseClassName wsdl).filter
      (isReplySlotDefinition (wsName baseClassName wsdl)) = [] := by
  simp [sourceServiceTail, isReplySlotDefinition, startsWith, endsWith, List.isSuffixOf,
    List.isPrefixOf_cons₂]

end ReplySlotsSource


section ReplySlotsFacade

variable (flags : Flags) (baseClassName : String) (wsdl : QWsdl)

set_option maxRecDepth 100000 in
/-- The header lines of an asynchronous facade that have the form of a reply handler
declaration. -/
theorem createServiceHeaderOut_filter
    (hasync : flags.synchronousness = Flags.Synchronousness.asynchronous)
    (hplain : wsdl.plainOperations) :
    (createServiceHeaderOut flags baseClassName wsdl).filter isReplySlotDeclaration
      = if flags.mode = Flags.Mode.compactMode then []
        else wsdl.methods.keys.map fun s => "    void " ++ s ++ "Reply(QString result);" := by
  have hincl : (wsdl.methodNames.map fun s => "#include \"" ++ s ++ ".h\"").filter
      isReplySlotDeclaration = [] := by
    apply filter_map_eq_nil
    intro s _
    simp [isReplySlotDeclaration, startsWith]
  simp only [createServiceHeaderOut, List.filter_append, hincl,
    headerSendMembers_filter flags wsdl hasync hplain, headerReplyGetters_filter flags wsdl,
    headerReplySlots_filter flags wsdl hasync, headerMessageMembers_filter flags wsdl hplain]
  simp [isReplySlotDeclaration, startsWith, endsWith, List.isSuffixOf, List.isPrefixOf_cons₂]

/-- The source lines of an asynchronous facade that have the form of the head of the definition
of a reply handler. -/
theorem createServiceSourceOut_filter
    (hasync : flags.synchronousness = Flags.Synchronousness.asynchronous)
    (hplain : wsdl.plainOperations) :
    (createServiceSourceOut flags baseClassName wsdl).filter
        (isReplySlotDefinition (wsName baseClassName wsdl))
      = if flags.mode = Flags.Mode.compactMode then []
        else wsdl.methods.keys.map fun s =>
          "void " ++ wsName baseClassName wsdl ++ "::" ++ s ++ "Reply(QString result)" := by
  simp only [createServiceSourceOut, List.filter_append,
    sourceServiceConstructor_filter, sourceGetMethodNames_filter,
    sourceSendMembers_filter flags baseClassName wsdl hasync hplain,
    sourceReplyGetters_filter, sourceReplySlots_filter flags baseClassName wsdl hasync,
    sourceServiceTail_filter, List.nil_append, List.append_nil]

end ReplySlotsFacade

set_option maxRecDepth 100000 in
/-- C7 fails for compact mode: the facade emitted for the service with the single operation
`getX` under asynchronous + compact declares no reply handler and defines none. -/
theorem reply_stubs_compact_counterexample :
    asyncCompactSoap12.synchronousness = Flags.Synchronousness.asynchronous
    ∧ getXService.methods.keys = ["getX"]
    ∧ "    void getXReply(QString result);"
        ∉ createServiceHeaderOut asyncCompactSoap12 "" getXService
    ∧ "void x_ws::getXReply(QString result)"
        ∉ createServiceSourceOut asyncCompactSoap12 "" getXService
    ∧ (createServiceHeaderOut asyncCompactSoap12 "" getXService).filter
        (fun line => containsText line "Reply(") = []
    ∧ (createServiceSourceOut asyncCompactSoap12 "" getXService).filter
        (fun line => containsText line "Reply(") = [] := by
  decide

/-- C7 as amended: for an asynchronous configuration and a service whose operation names and
parameter names and types hold no `(`, the facade header lines of the form
`    void <op>Reply(QString result);` and the facade source lines of the form
`void <wsName>::<op>Reply(QString result)` are, when the mode is full or debug, exactly one per
operation, in the order in which the operation map enumerates the operations; when the mode is
compact there is none. -/
theorem reply_stubs (flags : Flags) (baseClassName : String) (wsdl : QWsdl)
    (hasync : flags.synchronousness = Flags.Synchronousness.asynchronous)
    (hplain : wsdl.plainOperations) :
    (flags.mode = Flags.Mode.fullMode ∨ flags.mode = Flags.Mode.debugMode →
      (createServiceHeaderOut flags baseClassName wsdl).filter isReplySlotDeclaration
          = wsdl.methods.keys.map (fun s => "    void " ++ s ++ "Reply(QString result);")
      ∧ (createServiceSourceOut flags baseClassName wsdl).filter
            (isReplySlotDefinition (wsName baseClassName wsdl))
          = wsdl.methods.keys.map (fun s =>
              "void " ++ wsName baseClassName wsdl ++ "::" ++ s ++ "Reply(QString result)"))
    ∧ (flags.mode = Flags.Mode.compactMode →
      (createServiceHeaderOut flags baseClassName wsdl).filter isReplySlotDeclaration = []
      ∧ (createServiceSourceOut flags baseClassName wsdl).filter
            (isReplySlotDefinition (wsName baseClassName wsdl)) = []) := by
  have hH := createServiceHeaderOut_filter flags baseClassName wsdl hasync hplain
  have hS := createServiceSourceOut_filter flags baseClassName wsdl hasync hplain
  constructor
  · intro hmode
    have hc : ¬ flags.mode = Flags.Mode.compactMode := by
      rcases hmode with h | h <;> rw [h] <;> decide
    rw [hH, hS, if_neg hc, if_neg hc]
    exact ⟨rfl, rfl⟩
  · intro hmode
    rw [hH, hS, if_pos hmode, if_pos hmode]
    exact ⟨rfl, rfl⟩

/-- C7 as amended, at the band service under asynchronous + full: the two reply handlers
`getBandNameReply` and `getBandsListReply`, in this order, in the header and in the source. -/
theorem reply_stubs_bandService :
    asyncFullSoap12.synchronousness = Flags.Synchronousness.asynchronous
    ∧ bandService.plainOperations
    ∧ (asyncFullSoap12.mode = Flags.Mode.fullMode ∨ asyncFullSoap12.mode = Flags.Mode.debugMode)
    ∧ (createServiceHeaderOut asyncFullSoap12 "" bandService).filter isReplySlotDeclaration
        = [ "    void getBandNameReply(QString result);",
            "    void getBandsListReply(QString result);" ]
    ∧ (createServiceSourceOut asyncFullSoap12 "" bandService).filter
          (isReplySlotDefinition "band_ws")
        = [ "void band_ws::getBandNameReply(QString result)",
            "void band_ws::getBandsListReply(QString result)" ] :=
  ⟨by decide, by decide, by decide,
    ((reply_stubs asyncFullSoap12 "" bandService (by decide) (by decide)).1 (by decide)).1,
    ((reply_stubs asyncFullSoap12 "" bandService (by decide) (by decide)).1 (by decide)).2⟩


/-! ## The facade: the `Send` members -/

section SendMembers

/-- The lines written in the round of an element are a contiguous part of what the loop writes. -/
theorem infix_flatMap_of_mem {α β : Type} (l : List α) (f : α → List β) (x : α) (hx : x ∈ l) :
    f x <:+: l.flatMap f := by
  induction l with
  | nil => cases hx
  | cons a l ih =>
    rw [List.flatMap_cons]
    rcases List.mem_cons.1 hx with h | h
    · rw [h]
      exact (List.prefix_append _ _).isInfix
    · exact (ih h).trans (List.suffix_append _ _).isInfix

/-- The block of the `Send` members is a contiguous part of the facade source. -/
theorem sourceSendMembers_part (flags : Flags) (baseClassName : String) (wsdl : QWsdl) :
    sourceSendMembers flags baseClassName wsdl
      <:+: createServiceSourceOut flags baseClassName wsdl := by
  unfold createServiceSourceOut
  exact ((List.infix_append _ _ _).trans (List.prefix_append _ _).isInfix).trans
    (List.prefix_append _ _).isInfix

/-- The declaration of the `Send` member of every operation is a line of the facade header. -/
theorem headerSendMembers_mem (flags : Flags) (baseClassName : String) (wsdl : QWsdl)
    (e : String × QSoapMessage) (he : e ∈ wsdl.methods.entries) :
    (if flags.synchronousness = Flags.Synchronousness.synchronous then "    QString "
      else "    void ") ++ e.1 ++ "Send(" ++ orderedParameterList e.2 ++ ");"
      ∈ createServiceHeaderOut flags baseClassName wsdl := by
  have h : (if flags.synchronousness = Flags.Synchronousness.synchronous then "    QString "
      else "    void ") ++ e.1 ++ "Send(" ++ orderedParameterList e.2 ++ ");"
      ∈ headerSendMembers flags wsdl := by
    unfold headerSendMembers orderedParameterList
    simp only []
    rw [QMap.map_keys wsdl.methods (fun s m =>
      (if flags.synchronousness = Flags.Synchronousness.synchronous then "    QString "
        else "    void ") ++ s ++ "Send(" ++ msgParameters m ++ ");")]
    rw [← msgParameters_eq]
    exact List.mem_map.2 ⟨e, he, rfl⟩
  simp [createServiceHeaderOut, h]

/-- C8: under every synchronous configuration, for every operation of the service, the facade
header declares the member `QString <op>Send(<params>);` and the facade source defines it with
the single statement `return <messageName>::sendMessage(this, <names>);` (just `this` when the
text of the names is empty); and for the service with `getBandName(id : int)` and
`getBandsList()` under synchronous + full + soap1.2 the header lines that hold `Send(` are
exactly `QString getBandNameSend(int id);` and `QString getBandsListSend();`. -/
theorem synchronous_send_members :
    (∀ (flags : Flags) (baseClassName : String) (wsdl : QWsdl),
      flags.synchronousness = Flags.Synchronousness.synchronous →
      ∀ e ∈ wsdl.methods.entries,
        "    QString " ++ e.1 ++ "Send(" ++ orderedParameterList e.2 ++ ");"
            ∈ createServiceHeaderOut flags baseClassName wsdl
        ∧ [ "QString " ++ wsName baseClassName wsdl ++ "::" ++ e.1 ++ "Send("
              ++ orderedParameterList e.2 ++ ")",
            "\x7b",
            "    return " ++ e.2.messageName ++ "::sendMessage(this"
              ++ (if orderedParameterNames e.2 ≠ "" then ", " ++ orderedParameterNames e.2 ++ ");"
                  else ");"),
            "\x7d",
            "" ] <:+: createServiceSourceOut flags baseClassName wsdl)
    ∧ (createServiceHeaderOut syncFullSoap12 "" bandService).filter
          (fun line => containsText line "Send(")
        = [ "    QString getBandNameSend(int id);", "    QString getBandsListSend();" ] := by
  refine ⟨?_, by decide⟩
  intro flags baseClassName wsdl hsync e he
  constructor
  · have h := headerSendMembers_mem flags baseClassName wsdl e he
    rw [if_pos hsync] at h
    exact h
  · refine List.IsInfix.trans ?_ (sourceSendMembers_part flags baseClassName wsdl)
    unfold sourceSendMembers
    simp only []
    rw [QMap.flatMap_keys wsdl.methods (fun s m =>
      if flags.synchronousness = Flags.Synchronousness.synchronous then
        [ "QString " ++ wsName baseClassName wsdl ++ "::" ++ s ++ "Send(" ++ msgParameters m ++ ")",
          "\x7b",
          "    return " ++ m.messageName ++ "::sendMessage(this"
            ++ (if paramNames m ≠ "" then ", " ++ paramNames m ++ ");" else ");"),
          "\x7d",
          "" ]
      else if flags.synchronousness = Flags.Synchronousness.asynchronous then
        [ "void " ++ wsName baseClassName wsdl ++ "::" ++ s ++ "Send(" ++ msgParameters m ++ ")",
          "\x7b",
          "    " ++ toLower s ++ ".sendMessage(" ++ paramNames m ++ ");",
          "\x7d",
          "" ]
      else [])]
    simp only [hsync, if_true]
    unfold orderedParameterList orderedParameterNames
    rw [← msgParameters_eq, ← paramNames_eq]
    exact infix_flatMap_of_mem wsdl.methods.entries (fun e : String × QSoapMessage =>
      [ "QString " ++ wsName baseClassName wsdl ++ "::" ++ e.1 ++ "Send("
          ++ msgParameters e.2 ++ ")",
        "\x7b",
        "    return " ++ e.2.messageName ++ "::sendMessage(this"
          ++ (if paramNames e.2 ≠ "" then ", " ++ paramNames e.2 ++ ");" else ");"),
        "\x7d",
        "" ]) e he

/-- The entries of the operation map of the band service. -/
theorem bandService_entries :
    bandService.methods.entries
      = [("getBandName", getBandName), ("getBandsList", getBandsList)] :=
  rfl

set_option maxRecDepth 100000 in
/-- C8 at the band service under synchronous + full + soap1.2: the two members and their
bodies. -/
theorem synchronous_send_members_bandService :
    syncFullSoap12.synchronousness = Flags.Synchronousness.synchronous
    ∧ bandService.methods.entries = [("getBandName", getBandName), ("getBandsList", getBandsList)]
    ∧ "    QString getBandNameSend(int id);" ∈ createServiceHeaderOut syncFullSoap12 "" bandService
    ∧ [ "QString band_ws::getBandNameSend(int id)",
        "\x7b",
        "    return getBandName::sendMessage(this, id);",
        "\x7d",
        "" ] <:+: createServiceSourceOut syncFullSoap12 "" bandService
    ∧ "    QString getBandsListSend();" ∈ createServiceHeaderOut syncFullSoap12 "" bandService
    ∧ [ "QString band_ws::getBandsListSend()",
        "\x7b",
        "    return getBandsList::sendMessage(this);",
        "\x7d",
        "" ] <:+: createServiceSourceOut syncFullSoap12 "" bandService :=
  ⟨rfl, bandService_entries,
    (synchronous_send_members.1 syncFullSoap12 "" bandService rfl
      ("getBandName", getBandName) (by rw [bandService_entries]; simp)).1,
    (synchronous_send_members.1 syncFullSoap12 "" bandService rfl
      ("getBandName", getBandName) (by rw [bandService_entries]; simp)).2,
    (synchronous_send_members.1 syncFullSoap12 "" bandService rfl
      ("getBandsList", getBandsList) (by rw [bandService_entries]; simp)).1,
    (synchronous_send_members.1 syncFullSoap12 "" bandService rfl
      ("getBandsList", getBandsList) (by rw [bandService_entries]; simp)).2⟩

end SendMembers


set_option maxRecDepth 100000 in
/-- C9 (the code at the failing input): for the service with the single operation `getX` under
asynchronous + compact, the facade header declares `void getXSend();` and the facade source
forwards to an instance, `getx.sendMessage();`, and connects it in the constructor, but no header
line declares that instance (no header line mentions `getx`); under asynchronous + full the
header does declare it, `getX getx;`. -/
theorem asynchronous_compact_instance_missing :
    asyncCompactSoap12.synchronousness = Flags.Synchronousness.asynchronous
    ∧ "    void getXSend();" ∈ createServiceHeaderOut asyncCompactSoap12 "" getXService
    ∧ [ "void x_ws::getXSend()",
        "\x7b",
        "    getx.sendMessage();",
        "\x7d",
        "" ] <:+: createServiceSourceOut asyncCompactSoap12 "" getXService
    ∧ "    connect(&getx, SIGNAL(replyReady(QString)), this, SLOT());"
        ∈ createServiceSourceOut asyncCompactSoap12 "" getXService
    ∧ "    getX getx;" ∉ createServiceHeaderOut asyncCompactSoap12 "" getXService
    ∧ (createServiceHeaderOut asyncCompactSoap12 "" getXService).filter
        (fun line => containsText line "getx") = []
    ∧ "    getX getx;" ∈ createServiceHeaderOut asyncFullSoap12 "" getXService := by
  decide

/-! ## Parameter order -/

set_option maxRecDepth 100000 in
/-- C10 fails for an operation declared with the parameters `(b : int, a : int)`: its parameter
map enumerates `a` before `b`, and the emitted parameter lists read `int a, int b`; no emitted
line holds `int b, int a`. -/
theorem parameter_order_counterexample :
    declaredBA.parameterNamesTypes.entries = [("a", intVariant), ("b", intVariant)]
    ∧ "    getX(int a, int b, QObject *parent = 0);"
        ∈ createMessageHeaderOut syncFullSoap12 declaredBA
    ∧ "    void setParams(int a, int b);" ∈ createMessageHeaderOut syncFullSoap12 declaredBA
    ∧ "    bool sendMessage(int a, int b);" ∈ createMessageHeaderOut syncFullSoap12 declaredBA
    ∧ "QString getX::sendMessage(QObject *parent, int a, int b)"
        ∈ createMessageSourceOut syncFullSoap12 declaredBA
    ∧ (createMessageHeaderOut syncFullSoap12 declaredBA).filter
        (fun line => containsText line "int b, int a") = []
    ∧ (createMessageSourceOut syncFullSoap12 declaredBA).filter
        (fun line => containsText line "int b, int a") = [] := by
  decide

/-- C10 as amended: the parameter map of an operation enumerates the parameters in strictly
ascending order of their names, and the emitted declarations and definitions of `setParams`, of
the static `sendMessage` and, when there is a parameter, of the parameterized constructor and of
the parameterized `sendMessage` all list the parameters as `type name` in that order. -/
theorem parameter_order (flags : Flags) (msg : QSoapMessage) :
    msg.parameterNamesTypes.entries.Pairwise (fun a b => a.1 < b.1)
    ∧ "    void setParams(" ++ orderedParameterList msg ++ ");"
        ∈ createMessageHeaderOut flags msg
    ∧ "void " ++ msg.messageName ++ "::setParams(" ++ orderedParameterList msg ++ ")"
        ∈ createMessageSourceOut flags msg
    ∧ "QString " ++ msg.messageName ++ "::sendMessage(QObject *parent"
          ++ (if orderedParameterList msg ≠ "" then ", " ++ orderedParameterList msg else "")
          ++ ")"
        ∈ createMessageSourceOut flags msg
    ∧ (msg.parameterNamesTypes.entries ≠ [] →
        "    " ++ msg.messageName ++ "(" ++ orderedParameterList msg ++ ", QObject *parent = 0);"
            ∈ createMessageHeaderOut flags msg
        ∧ msg.messageName ++ "::" ++ msg.messageName ++ "(" ++ orderedParameterList msg
              ++ ", QObject *parent) :"
            ∈ createMessageSourceOut flags msg
        ∧ "    bool sendMessage(" ++ orderedParameterList msg ++ ");"
            ∈ createMessageHeaderOut flags msg
        ∧ "bool " ++ msg.messageName ++ "::sendMessage(" ++ orderedParameterList msg ++ ")"
            ∈ createMessageSourceOut flags msg
        ∧ [ "    QString static sendMessage(QObject *parent,",
            "                                " ++ orderedParameterList msg ++ ");" ]
            <:+: createMessageHeaderOut flags msg) := by
  have hl : orderedParameterList msg = msgParameters msg := (msgParameters_eq msg).symm
  rw [hl]
  refine ⟨msg.parameterNamesTypes.ascending, ?_, ?_, ?_, ?_⟩
  · simp [createMessageHeaderOut]
  · simp [createMessageSourceOut, sourceSetParams]
  · simp [createMessageSourceOut, sourceStaticSendMessage]
  · intro hK
    have hP : msgParameters msg ≠ "" := fun h => hK ((msgParameters_eq_empty_iff msg).1 h)
    refine ⟨?_, ?_, ?_, ?_, ?_⟩
    · simp [createMessageHeaderOut, hP]
    · simp [createMessageSourceOut, sourceParamConstructor, hP]
    · simp [createMessageHeaderOut, hP]
    · simp [createMessageSourceOut, sourceSendMessageParams, hP]
    · unfold createMessageHeaderOut
      simp only [hP, ne_eq, not_false_eq_true, if_true]
      exact ((List.infix_append _ _ _).trans (List.prefix_append _ _).isInfix).trans
        (List.prefix_append _ _).isInfix

set_option maxRecDepth 100000 in
/-- C10 as amended, at the operation declared with `(b : int, a : int)`: the emitted lists read
`int a, int b`. -/
theorem parameter_order_declaredBA :
    declaredBA.parameterNamesTypes.entries ≠ []
    ∧ orderedParameterList declaredBA = "int a, int b"
    ∧ "    void setParams(int a, int b);" ∈ createMessageHeaderOut syncFullSoap12 declaredBA
    ∧ "getX::getX(int a, int b, QObject *parent) :"
        ∈ createMessageSourceOut syncFullSoap12 declaredBA
    ∧ "bool getX::sendMessage(int a, int b)"
        ∈ createMessageSourceOut syncFullSoap12 declaredBA :=
  ⟨by decide, by decide,
    (parameter_order syncFullSoap12 declaredBA).2.1,
    ((parameter_order syncFullSoap12 declaredBA).2.2.2.2 (by decide)).2.1,
    ((parameter_order syncFullSoap12 declaredBA).2.2.2.2 (by decide)).2.2.2.1⟩

/-! ## Reply extraction without a closing tag -/

section MissingClosingTag

/-- A text without an occurrence of the tag: `findFirst` returns nothing. -/
theorem findFirst_eq_none (needle : QString) :
    ∀ s : QString, ¬ needle <:+: s → findFirst needle s = none := by
  intro s
  induction s with
  | nil =>
    intro h
    have hp : needle.isPrefixOf [] = false := by
      cases hb : needle.isPrefixOf [] with
      | false => rfl
      | true => exact absurd (List.isPrefixOf_iff_prefix.1 hb).isInfix h
    simp only [findFirst, hp, Bool.false_eq_true, if_false]
  | cons c t ih =>
    intro h
    have hp : needle.isPrefixOf (c :: t) = false := by
      cases hb : needle.isPrefixOf (c :: t) with
      | false => rfl
      | true => exact absurd (List.isPrefixOf_iff_prefix.1 hb).isInfix h
    have ht : ¬ needle <:+: t := fun h2 => h (h2.trans (List.suffix_cons c t).isInfix)
    simp only [findFirst, hp, Bool.false_eq_true, if_false, ih ht, Option.map_none']

/-- The call `indexOf` from a position after which the tag does not occur yields `-1`. -/
theorem indexOf_of_none (s needle : QString) (k : Nat)
    (h : findFirst needle (s.drop k) = none) : s.indexOf needle (k : Int) = -1 := by
  unfold QString.indexOf
  have h1 : ¬ ((k : Int) < 0) := by omega
  simp only [h1, if_false, Int.toNat_ofNat, h]
  split_ifs <;> rfl

end MissingClosingTag


/-! ## Entity unescaping -/

section Unescape

/-- Passing over `k` characters of a match is dropping them. -/
theorem replaceFrom_skip (before after : QString) :
    ∀ (k : Nat) (s : QString),
      replaceFrom before after k s = replaceFrom before after 0 (s.drop k) := by
  intro k
  induction k with
  | zero => intro s; rfl
  | succ k ih =>
    intro s
    cases s with
    | nil => rfl
    | cons c t => rw [replaceFrom, ih t, List.drop_succ_cons]

/-- The call `replace` at a text that starts with the text to replace. -/
theorem replace_append (before after rest : QString) (hb : before ≠ []) :
    QString.replace (before ++ rest) before after = after ++ QString.replace rest before after := by
  cases before with
  | nil => exact absurd rfl hb
  | cons b bs =>
    have hp : (b :: bs).isPrefixOf (b :: (bs ++ rest)) = true :=
      List.isPrefixOf_iff_prefix.2 ⟨rest, rfl⟩
    unfold QString.replace
    rw [List.cons_append, replaceFrom, if_pos hp, replaceFrom_skip]
    simp

/-- The call `replace` at a text that does not start with the text to replace. -/
theorem replace_cons (before after : QString) (c : Char) (rest : QString)
    (h : ¬ before <+: c :: rest) :
    QString.replace (c :: rest) before after = c :: QString.replace rest before after := by
  have hp : before.isPrefixOf (c :: rest) = false := isPrefixOf_eq_false h
  unfold QString.replace
  rw [replaceFrom, hp]
  simp

/-- A character other than `<` at the head of a text in which `&lt;` was replaced stood at the
head of the text before. -/
theorem head_of_replace_lt (x : Char) (hx : x ≠ '<') (t z : QString)
    (h : QString.replace t "&lt;".toList "<".toList = x :: z) :
    ∃ t2, t = x :: t2 ∧ z = QString.replace t2 "&lt;".toList "<".toList := by
  cases t with
  | nil => cases h
  | cons d t2 =>
    by_cases hp : "&lt;".toList <+: d :: t2
    · exfalso
      obtain ⟨r, hr⟩ := hp
      rw [← hr, replace_append _ _ _ (by decide)] at h
      simp only [String.toList, List.cons_append, List.nil_append, List.cons.injEq] at h
      exact hx h.1.symm
    · rw [replace_cons _ _ _ _ hp] at h
      simp only [List.cons.injEq] at h
      exact ⟨t2, by rw [h.1], h.2.symm⟩

/-- The two replacements of `convertReplyToUtf`, one after the other, do what one pass that
replaces both entities does. -/
theorem convertReplyToUtf_eq_unescapeEntities (s : QString) :
    convertReplyToUtf s = unescapeEntities s := by
  unfold convertReplyToUtf
  simp only []
  induction s using unescapeEntities.induct with
  | case1 rest ih =>
    have e1 : ('&' :: 'l' :: 't' :: ';' :: rest) = "&lt;".toList ++ rest := rfl
    rw [e1, replace_append _ _ _ (by decide)]
    have e2 : "<".toList ++ QString.replace rest "&lt;".toList "<".toList
        = '<' :: QString.replace rest "&lt;".toList "<".toList := rfl
    rw [e2, replace_cons _ _ _ _ (by simp), ih]
    rfl
  | case2 rest ih =>
    have e1 : QString.replace ('&' :: 'g' :: 't' :: ';' :: rest) "&lt;".toList "<".toList
        = "&gt;".toList ++ QString.replace rest "&lt;".toList "<".toList := by
      rw [replace_cons _ _ _ _ (by simp), replace_cons _ _ _ _ (by simp),
        replace_cons _ _ _ _ (by simp), replace_cons _ _ _ _ (by simp)]
      rfl
    rw [e1, replace_append _ _ _ (by decide), ih]
    rfl
  | case3 c rest h1 h2 ih =>
    have hn1 : ¬ "&lt;".toList <+: c :: rest := by
      rintro ⟨r, hr⟩
      simp only [String.toList, List.cons_append, List.nil_append, List.cons.injEq] at hr
      exact h1 r hr.1.symm hr.2.symm
    rw [replace_cons _ _ _ _ hn1]
    have hn2 : ¬ "&gt;".toList <+: c :: QString.replace rest "&lt;".toList "<".toList := by
      rintro ⟨r, hr⟩
      simp only [String.toList, List.cons_append, List.nil_append, List.cons.injEq] at hr
      obtain ⟨hc, hr⟩ := hr
      obtain ⟨t1, ht1, hz1⟩ := head_of_replace_lt 'g' (by decide) _ _ hr.symm
      obtain ⟨t2, ht2, hz2⟩ := head_of_replace_lt 't' (by decide) _ _ hz1.symm
      obtain ⟨t3, ht3, _⟩ := head_of_replace_lt ';' (by decide) _ _ hz2.symm
      exact h2 t3 hc.symm (by rw [ht1, ht2, ht3])
    rw [replace_cons _ _ _ _ hn2, ih]
    rw [unescapeEntities]
    · exact h1
    · exact h2
  | case4 => rfl

/-- C12: the emitted `convertReplyToUtf` does what one pass that replaces every `&lt;` by `<` and
every `&gt;` by `>` and copies every other character does; `&lt;b&gt;` becomes `<b>`; a text that
holds neither `&lt;` nor `&gt;` is returned unchanged, for instance texts with `&amp;`, `&quot;`
or a numeric entity. -/
theorem convertReplyToUtf_two_entities :
    (∀ s : QString, convertReplyToUtf s = unescapeEntities s)
    ∧ convertReplyToUtf "&lt;b&gt;".toList = "<b>".toList
    ∧ (∀ s : QString, ¬ "&lt;".toList <:+: s → ¬ "&gt;".toList <:+: s →
        convertReplyToUtf s = s)
    ∧ convertReplyToUtf "a &amp; b &quot;c&quot; &#60; &apos;".toList
        = "a &amp; b &quot;c&quot; &#60; &apos;".toList :=
  ⟨convertReplyToUtf_eq_unescapeEntities, by decide,
    fun s hlt hgt => convertReplyToUtf_of_no_entity s hlt hgt, by decide⟩

/-- C12 at texts with and without the two entities. -/
theorem convertReplyToUtf_two_entities_examples :
    convertReplyToUtf "x &lt; y &gt; z &amp; &lt;&gt;".toList = "x < y > z &amp; <>".toList
    ∧ ¬ "&lt;".toList <:+: "1 &amp; 2".toList
    ∧ ¬ "&gt;".toList <:+: "1 &amp; 2".toList
    ∧ convertReplyToUtf "1 &amp; 2".toList = "1 &amp; 2".toList :=
  ⟨(convertReplyToUtf_two_entities.1 _).trans (by decide), by decide, by decide,
    convertReplyToUtf_two_entities.2.2.1 _ (by decide) (by decide)⟩

end Unescape

/-! ## The request of `sendMessage()` -/

section RequestHeaders

/-- The bytes of a text are null exactly when the text is empty. -/
theorem toAscii_eq_none (text : QString) : toAscii text = none ↔ text = [] := by
  unfold toAscii
  split_ifs with h
  · exact Iff.intro (fun _ => h) (fun _ => rfl)
  · exact Iff.intro (fun h2 => by cases h2) (fun h2 => absurd h2 h)

/-- The headers of the request that the emitted `sendMessage()` builds: the content type, and
the header `SOAPAction` when the protocol is `soap10` and the text of the host URL is not
empty. -/
theorem sendMessage_rawHeaders (url : QUrlForm) (manager : Pointer) (m : Message) :
    (sendMessage url manager m).2.request.rawHeaders
      = ("Content-Type".toList, "application/soap+xml; charset=utf-8".toList)
        :: (if m.protocol = Protocol.soap10 then
              match toAscii (url.toString m.hostname) with
              | none => []
              | some v => [("SOAPAction".toList, v)]
            else []) := by
  have hct : toAscii "application/soap+xml; charset=utf-8".toList
      = some "application/soap+xml; charset=utf-8".toList := by decide
  unfold sendMessage
  simp only [QNetworkRequest.setContentTypeHeader, hct, QNetworkRequest.setRawHeader,
    List.filter_nil, List.nil_append]
  have hf : List.filter
      (fun h : QString × QString =>
        decide (h.1.map Char.toLower ≠ "SOAPAction".toList.map Char.toLower))
      [("Content-Type".toList, "application/soap+xml; charset=utf-8".toList)]
      = [("Content-Type".toList, "application/soap+xml; charset=utf-8".toList)] := by
    decide
  by_cases hp : m.protocol = Protocol.soap10
  · simp only [hp, if_true]
    cases toAscii (url.toString m.hostname) with
    | none => simp only [hf]
    | some v => simp only [hf]; rfl
  · simp only [hp, if_false]

end RequestHeaders

set_option maxRecDepth 100000 in
/-- C13 (the code at the failing input): the request that the emitted `sendMessage()` builds
always holds the content type header `application/soap+xml; charset=utf-8`, and it holds a
`SOAPAction` header exactly when the protocol is `soap10` and the text of the host URL is not
empty.  For an instance of `getBandName` made by the emitted constructor that takes the
parameters under soap1.0, whose `hostname` is empty, the protocol is `soap10` and the request
holds the content type header alone; and the call `manager->post` goes through the pointer
`manager`, which no line of the emitted class assigns. -/
theorem sendMessage_soap_action :
    (∀ (url : QUrlForm) (manager : Pointer) (m : Message),
      ("Content-Type".toList, "application/soap+xml; charset=utf-8".toList)
          ∈ (sendMessage url manager m).2.request.rawHeaders
      ∧ ((∃ v, ("SOAPAction".toList, v) ∈ (sendMessage url manager m).2.request.rawHeaders)
          ↔ m.protocol = Protocol.soap10 ∧ url.toString m.hostname ≠ []))
    ∧ (∀ (url : QUrlForm) (raw : Message) (args : List QString),
      (parameterizedConstructor syncFullSoap10 getBandName raw args).protocol = Protocol.soap10
      ∧ (parameterizedConstructor syncFullSoap10 getBandName raw args).hostname = []
      ∧ (sendMessage url Pointer.uninitialised
          (parameterizedConstructor syncFullSoap10 getBandName raw args)).2.manager
          = Pointer.uninitialised
      ∧ (sendMessage url Pointer.uninitialised
          (parameterizedConstructor syncFullSoap10 getBandName raw args)).2.request.rawHeaders
          = [("Content-Type".toList, "application/soap+xml; charset=utf-8".toList)])
    ∧ (createMessageSourceOut syncFullSoap10 getBandName).filter
        (fun line => containsText line "manager")
        = ["    delete manager;", "    manager->post(request, data);"]
    ∧ (createMessageHeaderOut syncFullSoap10 getBandName).filter
        (fun line => containsText line "manager")
        = ["    QNetworkAccessManager *manager;"] := by
  refine ⟨?_, ?_, by decide, by decide⟩
  · intro url manager m
    rw [sendMessage_rawHeaders]
    refine ⟨List.mem_cons_self _ _, ?_⟩
    by_cases hp : m.protocol = Protocol.soap10
    · simp only [hp, if_true, true_and]
      cases hv : toAscii (url.toString m.hostname) with
      | none =>
        have hn := (toAscii_eq_none _).1 hv
        simp [hn]
      | some v =>
        have hn : url.toString m.hostname ≠ [] := fun h => by
          rw [(toAscii_eq_none _).2 h] at hv; cases hv
        simp [hn]
    · simp [hp]
  · intro url raw args
    refine ⟨rfl, rfl, rfl, ?_⟩
    rw [sendMessage_rawHeaders]
    have hh : (parameterizedConstructor syncFullSoap10 getBandName raw args).hostname = [] := rfl
    rw [hh, url.toString_nil]
    rfl

/-! ## The protocol literal of the constructors -/

section ProtocolLiteral

/-- A line whose last character is not `;` is not an assignment to `protocol`. -/
theorem isProtocolAssignment_append (a : String) (b : List Char) (c : Char) (hc : c ≠ ';') :
    isProtocolAssignment (a ++ ⟨b ++ [c]⟩) = false := by
  have h : ¬ [';'] <:+ a.data ++ (b ++ [c]) := by
    rintro ⟨t, ht⟩
    have h2 := congrArg List.reverse ht
    simp at h2
    exact hc h2.1.symm
  have h3 : [';'].isSuffixOf (a.data ++ (b ++ [c])) = false := by
    cases hb : [';'].isSuffixOf (a.data ++ (b ++ [c])) with
    | false => rfl
    | true => exact absurd (List.isSuffixOf_iff_suffix.1 hb) h
  simp [isProtocolAssignment, endsWith, h3]

/-- The default constructor holds one assignment to `protocol`, the one of the configured
literal. -/
theorem sourceDefaultConstructor_filter (flags : Flags) (msg : QSoapMessage) :
    (sourceDefaultConstructor flags msg).filter isProtocolAssignment
      = ["    protocol = " ++ protocolLiteral flags ++ ";"] := by
  have h1 := isProtocolAssignment_append (msg.messageName ++ "::" ++ msg.messageName)
    "(QObject *parent) ".data ':' (by decide)
  have h2 : isProtocolAssignment ("    protocol = " ++ protocolLiteral flags ++ ";") = true := by
    cases hp : flags.protocol <;> simp [protocolLiteral, hp] <;> decide
  have e1 : (⟨"(QObject *parent) ".data ++ [':']⟩ : String) = "(QObject *parent) :" := rfl
  rw [e1] at h1
  simp [sourceDefaultConstructor, List.filter_cons, h1, h2]
  simp [isProtocolAssignment, startsWith, endsWith]

/-- The constructor that takes the parameters, when emitted, holds one assignment to `protocol`,
the one of the configured literal. -/
theorem sourceParamConstructor_filter (flags : Flags) (msg : QSoapMessage) :
    (sourceParamConstructor flags msg).filter isProtocolAssignment
      = if msgParameters msg ≠ "" then ["    protocol = " ++ protocolLiteral flags ++ ";"]
        else [] := by
  have h1 := isProtocolAssignment_append
    (msg.messageName ++ "::" ++ msg.messageName ++ "(" ++ msgParameters msg)
    ", QObject *parent) ".data ':' (by decide)
  have h2 : isProtocolAssignment ("    protocol = " ++ protocolLiteral flags ++ ";") = true := by
    cases hp : flags.protocol <;> simp [protocolLiteral, hp] <;> decide
  have e1 : (⟨", QObject *parent) ".data ++ [':']⟩ : String) = ", QObject *parent) :" := rfl
  rw [e1] at h1
  have h3 : (assignAllParameters msg).filter isProtocolAssignment = [] := by
    unfold assignAllParameters
    apply filter_map_eq_nil
    intro s _
    simp [isProtocolAssignment, startsWith, String.append_assoc]
  by_cases hP : msgParameters msg = ""
  · simp [sourceParamConstructor, hP]
  · simp [sourceParamConstructor, hP, List.filter_cons, h1, h2, h3]
    simp [isProtocolAssignment, startsWith, endsWith]

set_option maxRecDepth 100000 in
/-- The lines of the message source that assign a protocol literal are those of the two
constructors. -/
theorem createMessageSourceOut_filter (flags : Flags) (msg : QSoapMessage) :
    (createMessageSourceOut flags msg).filter isProtocolLiteralAssignment
      = (sourceDefaultConstructor flags msg).filter isProtocolLiteralAssignment
        ++ (sourceParamConstructor flags msg).filter isProtocolLiteralAssignment := by
  have hrest : (sourceSetParams msg ++ sourceSetProtocol flags msg ++ sourceSendMessage flags msg
      ++ sourceSendMessageParams msg ++ sourceStaticSendMessage msg ++ sourceGetters msg
      ++ sourceReplyFinished msg ++ sourcePrepareRequestData msg
      ++ sourceConvertReplyToUtf msg).filter isProtocolLiteralAssignment = [] := by
    have key : ∀ lit ∈ ["    protocol = http;", "    protocol = soap10;",
        "    protocol = soap12;"],
        lit ∉ sourceSetParams msg ++ sourceSetProtocol flags msg ++ sourceSendMessage flags msg
          ++ sourceSendMessageParams msg ++ sourceStaticSendMessage msg ++ sourceGetters msg
          ++ sourceReplyFinished msg ++ sourcePrepareRequestData msg
          ++ sourceConvertReplyToUtf msg := by
      intro lit hlit
      simp only [List.mem_cons, List.mem_singleton, List.not_mem_nil, or_false] at hlit
      rcases hlit with rfl | rfl | rfl <;>
        simp [sourceSetParams, sourceSetProtocol, sourceSendMessage, sourceSendMessageParams,
          sourceStaticSendMessage, sourceGetters, sourceReplyFinished, sourcePrepareRequestData,
          sourceConvertReplyToUtf, assignAllParameters, insertAllParameters, String.ext_iff]
      all_goals
        refine ⟨?_, ?_⟩ <;> intro h <;> have h2 := congrArg List.reverse h <;> simp at h2
    rw [List.filter_eq_nil_iff]
    intro line hline hlit
    simp only [isProtocolLiteralAssignment, decide_eq_true_eq] at hlit
    exact key line hlit hline
  unfold createMessageSourceOut
  simp only [List.append_assoc] at hrest ⊢
  rw [List.filter_append, List.filter_append, hrest, List.append_nil]

/-- The lines of a block that assign a protocol literal are among its assignments to
`protocol`. -/
theorem literal_of_assignment (l : List String) (x : String)
    (h : l.filter isProtocolAssignment = [x]) (hx : isProtocolLiteralAssignment x = true) :
    l.filter isProtocolLiteralAssignment = [x] := by
  have himp : ∀ a, isProtocolLiteralAssignment a = true → isProtocolAssignment a = true := by
    intro a ha
    simp only [isProtocolLiteralAssignment, decide_eq_true_eq, List.mem_cons, List.mem_singleton,
      List.not_mem_nil, or_false] at ha
    rcases ha with rfl | rfl | rfl <;> decide
  have h2 : l.filter isProtocolLiteralAssignment
      = (l.filter isProtocolAssignment).filter isProtocolLiteralAssignment := by
    rw [List.filter_filter]
    congr 1
    funext a
    cases hb : isProtocolLiteralAssignment a with
    | false => simp
    | true => simp [himp a hb]
  rw [h2, h]
  simp [hx]

end ProtocolLiteral

/-- C18: in the source of every message and for each of the three protocol settings, the default
constructor holds exactly one assignment to `protocol`, the constructor that takes the
parameters holds exactly one when it is emitted (the message has parameters) and none
otherwise, and each of them assigns the literal that matches the configured protocol (`http`,
`soap10`, `soap12`); the lines of the whole source that assign a protocol literal are these one
or two lines, so that no source mixes two literals. -/
theorem constructors_protocol_literal (flags : Flags) (msg : QSoapMessage) :
    let line : String := "    protocol = "
      ++ (match flags.protocol with
          | QSoapMessage.Protocol.http => "http"
          | QSoapMessage.Protocol.soap10 => "soap10"
          | QSoapMessage.Protocol.soap12 => "soap12")
      ++ ";"
    (sourceDefaultConstructor flags msg).filter isProtocolAssignment = [line]
    ∧ (sourceParamConstructor flags msg).filter isProtocolAssignment
        = (if msgParameters msg ≠ "" then [line] else [])
    ∧ (createMessageSourceOut flags msg).filter isProtocolLiteralAssignment
        = (if msgParameters msg ≠ "" then [line, line] else [line]) := by
  intro line
  have hl : "    protocol = " ++ protocolLiteral flags ++ ";" = line := by
    cases hp : flags.protocol <;> simp [line, protocolLiteral, hp]
  have hlit : isProtocolLiteralAssignment line = true := by
    cases hp : flags.protocol <;> simp [line, hp] <;> decide
  have h1 := sourceDefaultConstructor_filter flags msg
  have h2 := sourceParamConstructor_filter flags msg
  rw [hl] at h1 h2
  refine ⟨h1, h2, ?_⟩
  rw [createMessageSourceOut_filter, literal_of_assignment _ _ h1 hlit]
  by_cases hP : msgParameters msg = ""
  · simp [sourceParamConstructor, hP]
  · simp only [ne_eq, hP, not_false_eq_true, if_true] at h2 ⊢
    rw [literal_of_assignment _ _ h2 hlit]
    rfl

/-- C18 at the operations `getBandName(int id)` (two constructors) and `getBandsList()` (one
constructor) with the protocol soap1.2. -/
theorem constructors_protocol_literal_examples :
    (createMessageSourceOut syncFullSoap12 getBandName).filter isProtocolLiteralAssignment
        = ["    protocol = soap12;", "    protocol = soap12;"]
    ∧ (createMessageSourceOut syncFullSoap12 getBandsList).filter isProtocolLiteralAssignment
        = ["    protocol = soap12;"] :=
  ⟨(constructors_protocol_literal syncFullSoap12 getBandName).2.2.trans (by decide),
    (constructors_protocol_literal syncFullSoap12 getBandsList).2.2.trans (by decide)⟩

/-! ## The request dump of `sendMessage()` -/

set_option maxRecDepth 100000 in
set_option maxHeartbeats 2000000 in
/-- Outside debug mode no line of the message source is a line of the request dump. -/
theorem source_dump_absent (flags : Flags) (msg : QSoapMessage)
    (hmode : flags.mode ≠ Flags.Mode.debugMode) :
    "    qDebug() << request.rawHeaderList() << \" \" << request.url().toString();"
        ∉ createMessageSourceOut flags msg
    ∧ "    qDebug() << \"*************************\";" ∉ createMessageSourceOut flags msg := by
  constructor <;>
    simp [createMessageSourceOut, sourceDefaultConstructor, sourceParamConstructor,
      sourceSetParams, sourceSetProtocol, sourceSendMessage, sourceSendMessageParams,
      sourceStaticSendMessage, sourceGetters, sourceReplyFinished, sourcePrepareRequestData,
      sourceConvertReplyToUtf, assignAllParameters, insertAllParameters, hmode,
      String.ext_iff]
  all_goals
    refine ⟨?_, ?_, ?_, ?_⟩ <;> intros <;> intro h <;>
      have h2 := congrArg List.reverse h <;> simp at h2


set_option maxRecDepth 100000 in
/-- C19: the lines of the emitted `sendMessage()` that start with `    qDebug()` are the two lines
of the request dump when the mode is debug, and there is none in the other modes; the same holds
of the whole source for the two dump lines; and in every mode the emitted `sendMessage()` is the
one of compact mode with the dump (the two lines and a blank line) put after its first eleven
lines when the mode is debug, and with nothing put there otherwise. -/
theorem sendMessage_debug_dump (flags : Flags) (msg : QSoapMessage) :
    let dump : List String :=
      [ "    qDebug() << request.rawHeaderList() << \" \" << request.url().toString();",
        "    qDebug() << \"*************************\";" ]
    let compact : Flags := { flags with mode := Flags.Mode.compactMode }
    (sourceSendMessage flags msg).filter (startsWith · "    qDebug()")
        = (if flags.mode = Flags.Mode.debugMode then dump else [])
    ∧ (∀ line ∈ dump, line ∈ createMessageSourceOut flags msg
        ↔ flags.mode = Flags.Mode.debugMode)
    ∧ sourceSendMessage flags msg
        = (sourceSendMessage compact msg).take 11
          ++ (if flags.mode = Flags.Mode.debugMode then dump ++ [""] else [])
          ++ (sourceSendMessage compact msg).drop 11 := by
  intro dump compact
  refine ⟨?_, ?_, ?_⟩
  · cases hmode : flags.mode <;>
      simp [sourceSendMessage, hmode, startsWith, List.filter_cons, dump]
  · intro line hline
    simp only [dump, List.mem_cons, List.mem_singleton, List.not_mem_nil, or_false] at hline
    by_cases hmode : flags.mode = Flags.Mode.debugMode
    · rcases hline with rfl | rfl <;>
        simp [createMessageSourceOut, sourceSendMessage, hmode]
    · exact ⟨fun h => absurd h (by
        rcases hline with rfl | rfl
        · exact (source_dump_absent flags msg hmode).1
        · exact (source_dump_absent flags msg hmode).2), fun h => absurd h hmode⟩
  · cases hmode : flags.mode <;> simp [sourceSendMessage, hmode, compact, dump]

/-- C19 at the operation `getBandName` in debug mode and in full mode. -/
theorem sendMessage_debug_dump_getBandName :
    (sourceSendMessage ⟨Flags.Mode.debugMode, Flags.Synchronousness.synchronous,
        QSoapMessage.Protocol.soap12, Flags.BuildSystem.noBuildSystem⟩ getBandName).filter
          (startsWith · "    qDebug()")
      = [ "    qDebug() << request.rawHeaderList() << \" \" << request.url().toString();",
          "    qDebug() << \"*************************\";" ]
    ∧ (sourceSendMessage syncFullSoap12 getBandName).filter (startsWith · "    qDebug()") = []
    ∧ "    qDebug() << \"*************************\";"
        ∈ createMessageSourceOut ⟨Flags.Mode.debugMode, Flags.Synchronousness.synchronous,
            QSoapMessage.Protocol.soap12, Flags.BuildSystem.noBuildSystem⟩ getBandName
    ∧ "    qDebug() << \"*************************\";"
        ∉ createMessageSourceOut syncFullSoap12 getBandName :=
  ⟨(sendMessage_debug_dump _ getBandName).1, (sendMessage_debug_dump _ getBandName).1,
    ((sendMessage_debug_dump _ getBandName).2.1 _
      (List.mem_cons_of_mem _ (List.mem_cons_self _ _))).2 rfl,
    fun h => absurd (((sendMessage_debug_dump syncFullSoap12 getBandName).2.1 _
      (List.mem_cons_of_mem _ (List.mem_cons_self _ _))).1 h) (by decide)⟩

/-! ## The facade: the reply getters -/

section ReplyGetters

/-- Two texts cut at the last occurrence of a character agree before the cut. -/
theorem append_cons_right_eq (c : Char) (a b x y : List Char) (hx : c ∉ x) (hy : c ∉ y)
    (h : a ++ c :: x = b ++ c :: y) : a = b := by
  have h2 := congrArg List.reverse h
  simp only [List.reverse_append, List.reverse_cons, List.append_assoc, List.singleton_append]
    at h2
  have h3 := append_cons_left_eq c x.reverse y.reverse a.reverse b.reverse
    (by simpa using hx) (by simpa using hy) h2
  have h4 : x = y := by simpa using h3
  rw [h4] at h
  exact List.append_cancel_right h

variable (flags : Flags) (baseClassName : String) (wsdl : QWsdl)

/-- The configurations other than asynchronous with full or debug mode. -/
theorem not_asynchronous_full_cases
    (hcond : ¬ (flags.synchronousness = Flags.Synchronousness.asynchronous
      ∧ (flags.mode = Flags.Mode.fullMode ∨ flags.mode = Flags.Mode.debugMode))) :
    flags.synchronousness = Flags.Synchronousness.synchronous
      ∨ (flags.synchronousness = Flags.Synchronousness.asynchronous
        ∧ flags.mode = Flags.Mode.compactMode) := by
  cases hs : flags.synchronousness <;> cases hm : flags.mode <;> simp_all

set_option maxRecDepth 100000 in
set_option maxHeartbeats 2000000 in
/-- Without the asynchronous full or debug configuration, the facade header holds the declaration
of no reply getter. -/
theorem header_getter_absent (hplain : wsdl.plainOperations)
    (hws : ' ' ∉ (wsName baseClassName wsdl).data)
    (hcond : ¬ (flags.synchronousness = Flags.Synchronousness.asynchronous
      ∧ (flags.mode = Flags.Mode.fullMode ∨ flags.mode = Flags.Mode.debugMode)))
    (t s : String) :
    "    " ++ t ++ " " ++ s ++ "ReplyRead();" ∉ createServiceHeaderOut flags baseClassName wsdl := by
  have hsend : ∀ (p : List Char), '(' ∉ p → ∀ (x : String) (v : List Char),
      ¬ v ++ (x.data ++ 'S' :: 'e' :: 'n' :: 'd' :: '(' :: (p ++ [')', ';']))
        = t.data ++ ' ' :: (s.data ++ ['R', 'e', 'p', 'l', 'y', 'R', 'e', 'a', 'd', '(', ')', ';']) := by
    intro p hp x v h
    have h2 := append_cons_right_eq '(' (v ++ (x.data ++ ['S', 'e', 'n', 'd']))
      (t.data ++ ' ' :: (s.data ++ ['R', 'e', 'p', 'l', 'y', 'R', 'e', 'a', 'd']))
      (p ++ [')', ';']) [')', ';'] (by simp [hp]) (by decide) (by simpa using h)
    have h3 := congrArg List.reverse h2
    simp at h3
  have htilde : ¬ t.data ++ ' ' :: (s.data ++ ['R', 'e', 'p', 'l', 'y', 'R', 'e', 'a', 'd', '(', ')', ';'])
      = '~' :: ((wsName baseClassName wsdl).data ++ ['(', ')', ';']) := by
    intro h
    have h3 : ' ' ∈ '~' :: ((wsName baseClassName wsdl).data ++ ['(', ')', ';']) := by
      rw [← h]; simp
    simp at h3
    exact hws h3
  rcases not_asynchronous_full_cases flags hcond with hs | ⟨hs, hm⟩
  · simp [createServiceHeaderOut, headerSendMembers, headerReplyGetters, headerReplySlots,
      headerMessageMembers, hs, String.ext_iff]
    repeat' apply And.intro
    all_goals first
      | exact htilde
      | (intro x hx
         exact hsend _ (paren_not_mem_of_key wsdl hplain x hx).2 x "QString ".data)
      | (intro h
         have h2 := congrArg List.reverse h
         simp at h2)
  · simp [createServiceHeaderOut, headerSendMembers, headerReplyGetters, headerReplySlots,
      headerMessageMembers, hs, hm, String.ext_iff]
    repeat' apply And.intro
    all_goals first
      | exact htilde
      | (intro x hx
         exact hsend _ (paren_not_mem_of_key wsdl hplain x hx).2 x "void ".data)
      | (intro h
         have h2 := congrArg List.reverse h
         simp at h2)

set_option maxRecDepth 100000 in
set_option maxHeartbeats 2000000 in
/-- Without the asynchronous full or debug configuration, the facade source holds no head of a
reply getter. -/
theorem source_getter_absent (hplain : wsdl.plainOperations)
    (hws : ' ' ∉ (wsName baseClassName wsdl).data)
    (hcond : ¬ (flags.synchronousness = Flags.Synchronousness.asynchronous
      ∧ (flags.mode = Flags.Mode.fullMode ∨ flags.mode = Flags.Mode.debugMode)))
    (t s : String) :
    t ++ " " ++ wsName baseClassName wsdl ++ "::" ++ s ++ "ReplyRead()"
      ∉ createServiceSourceOut flags baseClassName wsdl := by
  have hsend : ∀ (p : List Char), '(' ∉ p → ∀ (x : String) (v : List Char),
      ¬ t.data ++ ' ' :: ((wsName baseClassName wsdl).data ++ ':' :: ':' ::
          (s.data ++ ['R', 'e', 'p', 'l', 'y', 'R', 'e', 'a', 'd', '(', ')']))
        = v ++ (x.data ++ 'S' :: 'e' :: 'n' :: 'd' :: '(' :: (p ++ [')'])) := by
    intro p hp x v h
    have h2 := append_cons_right_eq '('
      (t.data ++ ' ' :: ((wsName baseClassName wsdl).data ++ ':' :: ':' ::
        (s.data ++ ['R', 'e', 'p', 'l', 'y', 'R', 'e', 'a', 'd'])))
      (v ++ (x.data ++ ['S', 'e', 'n', 'd']))
      [')'] (p ++ [')']) (by decide) (by simp [hp]) (by simpa using h)
    have h3 := congrArg List.reverse h2
    simp at h3
  have htilde : ¬ t.data ++ ' ' :: ((wsName baseClassName wsdl).data ++ ':' :: ':' ::
        (s.data ++ ['R', 'e', 'p', 'l', 'y', 'R', 'e', 'a', 'd', '(', ')']))
      = (wsName baseClassName wsdl).data ++ ':' :: ':' :: '~' ::
          ((wsName baseClassName wsdl).data ++ ['(', ')']) := by
    intro h
    have h3 : ' ' ∈ (wsName baseClassName wsdl).data ++ ':' :: ':' :: '~' ::
        ((wsName baseClassName wsdl).data ++ ['(', ')']) := by
      rw [← h]; simp
    simp [hws] at h3
  rcases not_asynchronous_full_cases flags hcond with hs | ⟨hs, hm⟩
  · simp [createServiceSourceOut, sourceServiceConstructor, sourceGetMethodNames,
      sourceSendMembers, sourceReplyGetters, sourceReplySlots, sourceServiceTail, hs,
      String.ext_iff]
    repeat' apply And.intro
    all_goals first
      | exact htilde
      | (intro h
         have h2 := congrArg List.reverse h
         simp at h2)
      | (intro x hx
         repeat' apply And.intro
         all_goals first
           | (intro h
              exact hsend _ (paren_not_mem_of_key wsdl hplain x hx).2 x
                ("QString ".data ++ (wsName baseClassName wsdl).data ++ "::".data)
                (by simpa using h))
           | (intro h
              have h2 := congrArg List.reverse h
              simp at h2
              done)
           | (intro h
              split_ifs at h <;> have h2 := congrArg List.reverse h <;> simp at h2))
  · simp [createServiceSourceOut, sourceServiceConstructor, sourceGetMethodNames,
      sourceSendMembers, sourceReplyGetters, sourceReplySlots, sourceServiceTail, hs, hm,
      String.ext_iff]
    repeat' apply And.intro
    all_goals first
      | exact htilde
      | (intro h
         have h2 := congrArg List.reverse h
         simp at h2)
      | (intro x hx
         repeat' apply And.intro
         all_goals first
           | (intro h
              exact hsend _ (paren_not_mem_of_key wsdl hplain x hx).2 x
                ("void ".data ++ (wsName baseClassName wsdl).data ++ "::".data)
                (by simpa using h))
           | (intro h
              have h2 := congrArg List.reverse h
              simp at h2))

/-- With the asynchronous full or debug configuration, the facade header declares the reply
getter of every operation of the map and the facade source defines it. -/
theorem getter_present
    (hcond : flags.synchronousness = Flags.Synchronousness.asynchronous
      ∧ (flags.mode = Flags.Mode.fullMode ∨ flags.mode = Flags.Mode.debugMode))
    (e : String × QSoapMessage) (he : e ∈ wsdl.methods.entries) :
    "    " ++ tmpReturn e.2 ++ " " ++ e.1 ++ "ReplyRead();"
        ∈ createServiceHeaderOut flags baseClassName wsdl
    ∧ tmpReturn e.2 ++ " " ++ wsName baseClassName wsdl ++ "::" ++ e.1 ++ "ReplyRead()"
        ∈ createServiceSourceOut flags baseClassName wsdl := by
  have hk : e.1 ∈ wsdl.methods.keys := List.mem_map_of_mem _ he
  have hv : wsdl.methods.value e.1 = e.2 := wsdl.methods.value_of_mem e he
  have hm : flags.mode ≠ Flags.Mode.compactMode := by
    rcases hcond.2 with h | h <;> rw [h] <;> decide
  have h1 : "    " ++ tmpReturn e.2 ++ " " ++ e.1 ++ "ReplyRead();"
      ∈ headerReplyGetters flags wsdl := by
    simp only [headerReplyGetters, hcond.1, if_true, List.mem_append, List.mem_flatMap]
    exact Or.inl (Or.inr ⟨e.1, hk, by simp [hm, hcond.2, hv]⟩)
  have h2 : tmpReturn e.2 ++ " " ++ wsName baseClassName wsdl ++ "::" ++ e.1 ++ "ReplyRead()"
      ∈ sourceReplyGetters flags baseClassName wsdl := by
    simp only [sourceReplyGetters, hcond.1, if_true, List.mem_append, List.mem_flatMap]
    exact Or.inl (Or.inr ⟨e.1, hk, by simp [hm, hcond.2, hv]⟩)
  constructor
  · simp only [createServiceHeaderOut, List.mem_append]
    tauto
  · simp only [createServiceSourceOut, List.mem_append]
    tauto

end ReplyGetters

/-- C14: for a service whose operation names and parameter names and types hold no `(` and
whose class name holds no blank, and for every operation of the operation map, the facade header
holds the declaration `    <type> <op>ReplyRead();` of the reply getter of the operation if and
only if the synchronousness is asynchronous and the mode is full or debug, and the facade source
holds the head `<type> <wsName>::<op>ReplyRead()` of its definition under the same condition;
asynchronous + compact and every synchronous configuration emit neither. -/
theorem reply_getters (flags : Flags) (baseClassName : String) (wsdl : QWsdl)
    (hplain : wsdl.plainOperations) (hws : ' ' ∉ (wsName baseClassName wsdl).data)
    (e : String × QSoapMessage) (he : e ∈ wsdl.methods.entries) :
    ("    " ++ tmpReturn e.2 ++ " " ++ e.1 ++ "ReplyRead();"
        ∈ createServiceHeaderOut flags baseClassName wsdl
      ↔ flags.synchronousness = Flags.Synchronousness.asynchronous
        ∧ (flags.mode = Flags.Mode.fullMode ∨ flags.mode = Flags.Mode.debugMode))
    ∧ (tmpReturn e.2 ++ " " ++ wsName baseClassName wsdl ++ "::" ++ e.1 ++ "ReplyRead()"
        ∈ createServiceSourceOut flags baseClassName wsdl
      ↔ flags.synchronousness = Flags.Synchronousness.asynchronous
        ∧ (flags.mode = Flags.Mode.fullMode ∨ flags.mode = Flags.Mode.debugMode)) := by
  by_cases hcond : flags.synchronousness = Flags.Synchronousness.asynchronous
      ∧ (flags.mode = Flags.Mode.fullMode ∨ flags.mode = Flags.Mode.debugMode)
  · exact ⟨⟨fun _ => hcond, fun _ => (getter_present flags baseClassName wsdl hcond e he).1⟩,
      ⟨fun _ => hcond, fun _ => (getter_present flags baseClassName wsdl hcond e he).2⟩⟩
  · exact ⟨⟨fun h => absurd h
        (header_getter_absent flags baseClassName wsdl hplain hws hcond _ _),
        fun h => absurd h hcond⟩,
      ⟨fun h => absurd h
        (source_getter_absent flags baseClassName wsdl hplain hws hcond _ _),
        fun h => absurd h hcond⟩⟩

/-- C14 at the operation `getBandName` of the band service: the getter is declared and defined
under asynchronous + full, and neither under asynchronous + compact nor under synchronous +
full. -/
theorem reply_getters_bandService :
    bandService.plainOperations ∧ ' ' ∉ (wsName "" bandService).data
    ∧ ("getBandName", getBandName) ∈ bandService.methods.entries
    ∧ "    QString getBandNameReplyRead();" ∈ createServiceHeaderOut asyncFullSoap12 "" bandService
    ∧ "QString band_ws::getBandNameReplyRead()"
        ∈ createServiceSourceOut asyncFullSoap12 "" bandService
    ∧ "    QString getBandNameReplyRead();"
        ∉ createServiceHeaderOut asyncCompactSoap12 "" bandService
    ∧ "QString band_ws::getBandNameReplyRead()"
        ∉ createServiceSourceOut syncFullSoap12 "" bandService :=
  ⟨by decide, by decide, by rw [bandService_entries]; simp,
    (reply_getters asyncFullSoap12 "" bandService (by decide) (by decide)
      ("getBandName", getBandName) (by rw [bandService_entries]; simp)).1.2 (by decide),
    (reply_getters asyncFullSoap12 "" bandService (by decide) (by decide)
      ("getBandName", getBandName) (by rw [bandService_entries]; simp)).2.2 (by decide),
    fun h => absurd ((reply_getters asyncCompactSoap12 "" bandService (by decide) (by decide)
      ("getBandName", getBandName) (by rw [bandService_entries]; simp)).1.1 h) (by decide),
    fun h => absurd ((reply_getters syncFullSoap12 "" bandService (by decide) (by decide)
      ("getBandName", getBandName) (by rw [bandService_entries]; simp)).2.1 h) (by decide)⟩

/-! ## The facade: the `connect` statements of the constructor -/

section Connects

variable (flags : Flags) (baseClassName : String) (wsdl : QWsdl)

/-- The `connect` statements of the constructor of an asynchronous facade: one per operation, in
the order of the keys of the operation map; the slot is the reply handler of the operation
unless the mode is compact, where it is empty. -/
theorem sourceServiceConstructor_connects
    (hasync : flags.synchronousness = Flags.Synchronousness.asynchronous) :
    (sourceServiceConstructor flags baseClassName wsdl).filter isConnectStatement
      = wsdl.methods.keys.map fun s =>
          "    connect(&" ++ toLower s ++ ", SIGNAL(replyReady(QString)), this, SLOT("
            ++ (if flags.mode = Flags.Mode.compactMode then "" else s ++ "Reply(QString)")
            ++ "));" := by
  have hmap : ∀ (f : String → String), (∀ s, isConnectStatement (f s) = true) →
      (wsdl.methods.keys.map f).filter isConnectStatement = wsdl.methods.keys.map f := by
    intro f hf
    rw [List.filter_eq_self]
    intro a ha
    obtain ⟨s, _, rfl⟩ := List.mem_map.1 ha
    exact hf s
  simp only [sourceServiceConstructor, hasync, if_true, List.filter_append]
  cases hmode : flags.mode
  · rw [hmap]
    · simp [isConnectStatement, startsWith, endsWith, List.isSuffixOf]
    · intro s
      simp [isConnectStatement, startsWith, endsWith, List.isSuffixOf]
  · rw [hmap]
    · simp [isConnectStatement, startsWith, endsWith, List.isSuffixOf]
    · intro s
      simp [isConnectStatement, startsWith, endsWith, List.isSuffixOf]
  · rw [hmap]
    · simp [isConnectStatement, startsWith, endsWith, List.isSuffixOf]
    · intro s
      simp [isConnectStatement, startsWith, endsWith, List.isSuffixOf]

end Connects

section Run

/-- The path of a directory entered with `cd`. -/
theorem QDir.path_cd (d : QDir) (dirName : String) :
    (d.cd dirName).path = d.path ++ "/" ++ dirName := by
  simp [QDir.path, QDir.cd, List.foldl_append]

/-- Leaving a directory that was entered with `cd` gives the directory back. -/
theorem QDir.cdUp_cd (d : QDir) (dirName : String) : (d.cd dirName).cdUp = d := by
  simp [QDir.cd, QDir.cdUp, List.dropLast_concat]

variable (fs : FileSystem)

/-- The first loop of `createMessages` when every header file can be opened: all headers are
written, in the order of the keys, and nothing else changes. -/
theorem createMessageHeaders_ok :
    ∀ (ks : List String) (obj : Converter),
      (∀ s ∈ ks, fs.canOpen
        (obj.workingDir.path ++ "/" ++ (obj.messages.value s).messageName ++ ".h") = true) →
      createMessageHeaders fs ks obj
        = (true, { obj with files := obj.files ++ ks.map fun s =>
            (obj.workingDir.path ++ "/" ++ (obj.messages.value s).messageName ++ ".h",
              createMessageHeaderOut obj.flags (obj.messages.value s)) }) := by
  intro ks
  induction ks with
  | nil => intro obj _; simp [createMessageHeaders]
  | cons s rest ih =>
    intro obj h
    have hs := h s (List.mem_cons_self _ _)
    rw [createMessageHeaders]
    simp only [createMessageHeader, hs, Bool.not_true, Bool.false_eq_true, if_false]
    rw [ih]
    · simp
    · intro x hx
      exact h x (List.mem_cons_of_mem _ hx)

/-- The second loop of `createMessages` when every source file can be opened. -/
theorem createMessageSources_ok :
    ∀ (ks : List String) (obj : Converter),
      (∀ s ∈ ks, fs.canOpen
        (obj.workingDir.path ++ "/" ++ (obj.messages.value s).messageName ++ ".cpp") = true) →
      createMessageSources fs ks obj
        = (true, { obj with files := obj.files ++ ks.map fun s =>
            (obj.workingDir.path ++ "/" ++ (obj.messages.value s).messageName ++ ".cpp",
              createMessageSourceOut obj.flags (obj.messages.value s)) }) := by
  intro ks
  induction ks with
  | nil => intro obj _; simp [createMessageSources]
  | cons s rest ih =>
    intro obj h
    have hs := h s (List.mem_cons_self _ _)
    rw [createMessageSources]
    simp only [createMessageSource, hs, Bool.not_true, Bool.false_eq_true, if_false]
    rw [ih]
    · simp
    · intro x hx
      exact h x (List.mem_cons_of_mem _ hx)

/-- The first loop of `createMessages` when a header file cannot be opened: the loop returns
`false`. -/
theorem createMessageHeaders_fail :
    ∀ (ks : List String) (obj : Converter),
      (∃ s ∈ ks, fs.canOpen
        (obj.workingDir.path ++ "/" ++ (obj.messages.value s).messageName ++ ".h") = false) →
      (createMessageHeaders fs ks obj).1 = false := by
  intro ks
  induction ks with
  | nil => intro obj h; obtain ⟨s, hs, _⟩ := h; cases hs
  | cons s rest ih =>
    intro obj h
    rw [createMessageHeaders]
    cases hs : fs.canOpen
        (obj.workingDir.path ++ "/" ++ (obj.messages.value s).messageName ++ ".h") with
    | false => simp [createMessageHeader, hs, enterErrorState]
    | true =>
      simp only [createMessageHeader, hs, Bool.not_true, Bool.false_eq_true, if_false]
      apply ih
      obtain ⟨x, hx, hx2⟩ := h
      rcases List.mem_cons.1 hx with h3 | h3
      · rw [h3, hs] at hx2; cases hx2
      · exact ⟨x, h3, hx2⟩

/-- The second loop of `createMessages` when a source file cannot be opened: the loop returns
`false`. -/
theorem createMessageSources_fail :
    ∀ (ks : List String) (obj : Converter),
      (∃ s ∈ ks, fs.canOpen
        (obj.workingDir.path ++ "/" ++ (obj.messages.value s).messageName ++ ".cpp") = false) →
      (createMessageSources fs ks obj).1 = false := by
  intro ks
  induction ks with
  | nil => intro obj h; obtain ⟨s, hs, _⟩ := h; cases hs
  | cons s rest ih =>
    intro obj h
    rw [createMessageSources]
    cases hs : fs.canOpen
        (obj.workingDir.path ++ "/" ++ (obj.messages.value s).messageName ++ ".cpp") with
    | false => simp [createMessageSource, hs, enterErrorState]
    | true =>
      simp only [createMessageSource, hs, Bool.not_true, Bool.false_eq_true, if_false]
      apply ih
      obtain ⟨x, hx, hx2⟩ := h
      rcases List.mem_cons.1 hx with h3 | h3
      · rw [h3, hs] at hx2; cases hx2
      · exact ⟨x, h3, hx2⟩

/-- The text `createMainCpp` writes. -/
theorem createMainCpp_fst (obj : Converter) :
    (createMainCpp fs obj).1 = fs.canOpen (obj.workingDir.path ++ "/main.cpp") := by
  unfold createMainCpp
  cases h : fs.canOpen (obj.workingDir.path ++ "/main.cpp") <;> simp [enterErrorState, h]

/-- The member `createMessages` returns `true` exactly when the header file and the source file
of every operation of the map can be opened; whether `main.cpp` can be opened has no part in
it. -/
theorem createMessages_eq_true_iff (obj : Converter) :
    (createMessages fs obj).1 = true
      ↔ (∀ s ∈ obj.messages.keys, fs.canOpen ((obj.workingDir.cd "headers").path ++ "/"
            ++ (obj.messages.value s).messageName ++ ".h") = true)
        ∧ (∀ s ∈ obj.messages.keys, fs.canOpen ((obj.workingDir.cd "sources").path ++ "/"
            ++ (obj.messages.value s).messageName ++ ".cpp") = true) := by
  by_cases hH : ∀ s ∈ obj.messages.keys, fs.canOpen ((obj.workingDir.cd "headers").path ++ "/"
      ++ (obj.messages.value s).messageName ++ ".h") = true
  · have h1 := createMessageHeaders_ok fs obj.messages.keys
      { obj with workingDir := obj.workingDir.cd "headers" } hH
    by_cases hS : ∀ s ∈ obj.messages.keys, fs.canOpen ((obj.workingDir.cd "sources").path
        ++ "/" ++ (obj.messages.value s).messageName ++ ".cpp") = true
    · have h2 := createMessageSources_ok fs obj.messages.keys
        { obj with workingDir := obj.workingDir.cd "sources",
                   files := obj.files ++ obj.messages.keys.map fun s =>
                     ((obj.workingDir.cd "headers").path ++ "/"
                        ++ (obj.messages.value s).messageName ++ ".h",
                      createMessageHeaderOut obj.flags (obj.messages.value s)) } hS
      simp only [createMessages, h1, QDir.cdUp_cd, h2, Bool.not_true, Bool.false_eq_true,
        if_false]
      exact ⟨fun _ => ⟨hH, hS⟩, fun _ => trivial⟩
    · have hS2 : ∃ s ∈ obj.messages.keys, fs.canOpen ((obj.workingDir.cd "sources").path
          ++ "/" ++ (obj.messages.value s).messageName ++ ".cpp") = false := by
        by_contra hc
        apply hS
        intro s hs
        cases hv : fs.canOpen ((obj.workingDir.cd "sources").path
          ++ "/" ++ (obj.messages.value s).messageName ++ ".cpp") with
        | true => rfl
        | false => exact absurd ⟨s, hs, hv⟩ hc
      have h2 := createMessageSources_fail fs obj.messages.keys
        { obj with workingDir := obj.workingDir.cd "sources",
                   files := obj.files ++ obj.messages.keys.map fun s =>
                     ((obj.workingDir.cd "headers").path ++ "/"
                        ++ (obj.messages.value s).messageName ++ ".h",
                      createMessageHeaderOut obj.flags (obj.messages.value s)) } hS2
      simp only [createMessages, h1, QDir.cdUp_cd, h2, Bool.not_true, Bool.false_eq_true,
        if_false, Bool.not_false, if_true]
      exact ⟨fun h => absurd h (by simp), fun h => absurd h.2 hS⟩
  · have hH2 : ∃ s ∈ obj.messages.keys, fs.canOpen ((obj.workingDir.cd "headers").path
        ++ "/" ++ (obj.messages.value s).messageName ++ ".h") = false := by
      by_contra hc
      apply hH
      intro s hs
      cases hv : fs.canOpen ((obj.workingDir.cd "headers").path
        ++ "/" ++ (obj.messages.value s).messageName ++ ".h") with
      | true => rfl
      | false => exact absurd ⟨s, hs, hv⟩ hc
    have h1 := createMessageHeaders_fail fs obj.messages.keys
      { obj with workingDir := obj.workingDir.cd "headers" } hH2
    simp only [createMessages, h1, Bool.not_false, if_true]
    exact ⟨fun h => absurd h (by simp), fun h => absurd h.1 hH⟩

/-- The object after `createMessages` when the header file and the source file of every
operation can be opened: the headers, the sources and, when it can be opened, `main.cpp` have
been written, and the error state is the one `createMainCpp` leaves. -/
theorem createMessages_ok (obj : Converter)
    (hH : ∀ s ∈ obj.messages.keys, fs.canOpen ((obj.workingDir.cd "headers").path ++ "/"
      ++ (obj.messages.value s).messageName ++ ".h") = true)
    (hS : ∀ s ∈ obj.messages.keys, fs.canOpen ((obj.workingDir.cd "sources").path ++ "/"
      ++ (obj.messages.value s).messageName ++ ".cpp") = true) :
    createMessages fs obj
      = (true, { (createMainCpp fs
          { obj with
            workingDir := obj.workingDir.cd "sources",
            files := (obj.files ++ obj.messages.keys.map fun s =>
                ((obj.workingDir.cd "headers").path ++ "/"
                  ++ (obj.messages.value s).messageName ++ ".h",
                 createMessageHeaderOut obj.flags (obj.messages.value s)))
              ++ obj.messages.keys.map fun s =>
                ((obj.workingDir.cd "sources").path ++ "/"
                  ++ (obj.messages.value s).messageName ++ ".cpp",
                 createMessageSourceOut obj.flags (obj.messages.value s)) }).2
          with workingDir := obj.workingDir }) := by
  have h1 := createMessageHeaders_ok fs obj.messages.keys
    { obj with workingDir := obj.workingDir.cd "headers" } hH
  have h2 := createMessageSources_ok fs obj.messages.keys
    { obj with workingDir := obj.workingDir.cd "sources",
               files := obj.files ++ obj.messages.keys.map fun s =>
                 ((obj.workingDir.cd "headers").path ++ "/"
                    ++ (obj.messages.value s).messageName ++ ".h",
                  createMessageHeaderOut obj.flags (obj.messages.value s)) } hS
  simp only [createMessages, h1, QDir.cdUp_cd, h2, Bool.not_true, Bool.false_eq_true,
    if_false]
  cases hm : fs.canOpen ((obj.workingDir.cd "sources").path ++ "/main.cpp") <;>
    simp [createMainCpp, enterErrorState, hm, QDir.cdUp_cd]

/-- The member `createService` returns `true` exactly when the header file and the source file
of the facade can be opened. -/
theorem createService_eq_true_iff (obj : Converter) :
    (createService fs obj).1 = true
      ↔ fs.canOpen ((obj.workingDir.cd "headers").path ++ "/"
            ++ wsName obj.baseClassName obj.wsdl ++ ".h") = true
        ∧ fs.canOpen ((obj.workingDir.cd "sources").path ++ "/"
            ++ wsName obj.baseClassName obj.wsdl ++ ".cpp") = true := by
  cases h1 : fs.canOpen ((obj.workingDir.cd "headers").path ++ "/"
      ++ wsName obj.baseClassName obj.wsdl ++ ".h") <;>
    cases h2 : fs.canOpen ((obj.workingDir.cd "sources").path ++ "/"
      ++ wsName obj.baseClassName obj.wsdl ++ ".cpp") <;>
    simp [createService, createServiceHeader, createServiceSource, enterErrorState, h1, h2,
      QDir.cdUp_cd]

/-- The object after `createService` when both files of the facade can be opened. -/
theorem createService_ok (obj : Converter)
    (h1 : fs.canOpen ((obj.workingDir.cd "headers").path ++ "/"
      ++ wsName obj.baseClassName obj.wsdl ++ ".h") = true)
    (h2 : fs.canOpen ((obj.workingDir.cd "sources").path ++ "/"
      ++ wsName obj.baseClassName obj.wsdl ++ ".cpp") = true) :
    createService fs obj
      = (true, { obj with files := obj.files
          ++ [ ((obj.workingDir.cd "headers").path ++ "/"
                  ++ wsName obj.baseClassName obj.wsdl ++ ".h",
                createServiceHeaderOut obj.flags obj.baseClassName obj.wsdl),
               ((obj.workingDir.cd "sources").path ++ "/"
                  ++ wsName obj.baseClassName obj.wsdl ++ ".cpp",
                createServiceSourceOut obj.flags obj.baseClassName obj.wsdl) ] }) := by
  simp [createService, createServiceHeader, createServiceSource, h1, h2, QDir.cdUp_cd]

/-- The member `createBuildSystemFile` returns `true` exactly when no project file is asked for
or the project file can be opened. -/
theorem createBuildSystemFile_eq_true_iff (obj : Converter) :
    (createBuildSystemFile fs obj).1 = true
      ↔ (obj.flags.buildSystem = Flags.BuildSystem.qmake →
          fs.canOpen (obj.workingDir.path ++ "/" ++ wsName obj.baseClassName obj.wsdl ++ ".pro")
            = true) := by
  cases hb : obj.flags.buildSystem <;>
    cases h1 : fs.canOpen
      (obj.workingDir.path ++ "/" ++ wsName obj.baseClassName obj.wsdl ++ ".pro") <;>
    simp [createBuildSystemFile, createQMakeProject, enterErrorState, hb, h1]

/-- The member `createMainCpp` leaves the class name, the flags, the service definition and the
working directory of the object as they are. -/
theorem createMainCpp_fields (obj : Converter) :
    (createMainCpp fs obj).2.baseClassName = obj.baseClassName
    ∧ (createMainCpp fs obj).2.flags = obj.flags
    ∧ (createMainCpp fs obj).2.wsdl = obj.wsdl
    ∧ (createMainCpp fs obj).2.workingDir = obj.workingDir := by
  unfold createMainCpp
  cases h : fs.canOpen (obj.workingDir.path ++ "/main.cpp") <;> simp [enterErrorState, h]

/-- The value `create` returns is `true` when its three stages return `true`. -/
theorem create_fst (w : QWsdl) (wrkDir : QDir) (flgs : Flags) (bsClsNme : String) :
    (create fs w wrkDir flgs bsClsNme).1
      = ((createMessages fs
            { errorState := false, errorMessage := "", baseClassName := bsClsNme, flags := flgs,
              workingDir := wrkDir, wsdl := w, messages := w.methods, files := [] }).1
        && ((createService fs (createMessages fs
            { errorState := false, errorMessage := "", baseClassName := bsClsNme, flags := flgs,
              workingDir := wrkDir, wsdl := w, messages := w.methods, files := [] }).2).1
        && (createBuildSystemFile fs (createService fs (createMessages fs
            { errorState := false, errorMessage := "", baseClassName := bsClsNme, flags := flgs,
              workingDir := wrkDir, wsdl := w, messages := w.methods, files := [] }).2).2).1)) := by
  simp only [create, prepare]
  cases (createMessages fs
      { errorState := false, errorMessage := "", baseClassName := bsClsNme, flags := flgs,
        workingDir := wrkDir, wsdl := w, messages := w.methods, files := [] }).1
  · simp
  · cases (createService fs (createMessages fs
        { errorState := false, errorMessage := "", baseClassName := bsClsNme, flags := flgs,
          workingDir := wrkDir, wsdl := w, messages := w.methods, files := [] }).2).1
    · simp
    · cases (createBuildSystemFile fs (createService fs (createMessages fs
        { errorState := false, errorMessage := "", baseClassName := bsClsNme, flags := flgs,
          workingDir := wrkDir, wsdl := w, messages := w.methods, files := [] }).2).2).1 <;> simp

/-- The static member `create` returns `true` exactly when the header file and the source file
of every operation of the map, the two files of the facade and, when qmake is selected, the
project file can be opened.  The file `main.cpp` is not among them. -/
theorem create_eq_true_iff (w : QWsdl) (wrkDir : QDir) (flgs : Flags) (bsClsNme : String) :
    (create fs w wrkDir flgs bsClsNme).1 = true
      ↔ (∀ s ∈ w.methods.keys, fs.canOpen ((wrkDir.cd "headers").path ++ "/"
            ++ (w.methods.value s).messageName ++ ".h") = true)
        ∧ (∀ s ∈ w.methods.keys, fs.canOpen ((wrkDir.cd "sources").path ++ "/"
            ++ (w.methods.value s).messageName ++ ".cpp") = true)
        ∧ fs.canOpen ((wrkDir.cd "headers").path ++ "/" ++ wsName bsClsNme w ++ ".h") = true
        ∧ fs.canOpen ((wrkDir.cd "sources").path ++ "/" ++ wsName bsClsNme w ++ ".cpp") = true
        ∧ (flgs.buildSystem = Flags.BuildSystem.qmake →
            fs.canOpen (wrkDir.path ++ "/" ++ wsName bsClsNme w ++ ".pro") = true) := by
  have hM := createMessages_eq_true_iff fs
    { errorState := false, errorMessage := "", baseClassName := bsClsNme, flags := flgs,
      workingDir := wrkDir, wsdl := w, messages := w.methods, files := [] }
  by_cases hc : (createMessages fs
    { errorState := false, errorMessage := "", baseClassName := bsClsNme, flags := flgs,
      workingDir := wrkDir, wsdl := w, messages := w.methods, files := [] }).1 = true
  · obtain ⟨hH, hS⟩ := hM.1 hc
    have hok := createMessages_ok fs _ hH hS
    simp only [] at hok hH hS
    have hf := createMainCpp_fields fs
      { errorState := false, errorMessage := "", baseClassName := bsClsNme, flags := flgs,
        workingDir := wrkDir.cd "sources", wsdl := w, messages := w.methods,
        files := ([] ++ w.methods.keys.map fun s =>
            ((wrkDir.cd "headers").path ++ "/" ++ (w.methods.value s).messageName ++ ".h",
             createMessageHeaderOut flgs (w.methods.value s)))
          ++ w.methods.keys.map fun s =>
            ((wrkDir.cd "sources").path ++ "/" ++ (w.methods.value s).messageName ++ ".cpp",
             createMessageSourceOut flgs (w.methods.value s)) }
    simp only [] at hf
    rw [create_fst, hok]
    simp only [Bool.true_and, Bool.and_eq_true]
    rw [createService_eq_true_iff]
    simp only [hf.1, hf.2.2.1]
    by_cases h1 : fs.canOpen ((wrkDir.cd "headers").path ++ "/" ++ wsName bsClsNme w ++ ".h")
        = true
    · by_cases h2 : fs.canOpen ((wrkDir.cd "sources").path ++ "/" ++ wsName bsClsNme w ++ ".cpp")
          = true
      · rw [createService_ok fs _ (by simpa only [hf.1, hf.2.2.1] using h1)
          (by simpa only [hf.1, hf.2.2.1] using h2)]
        rw [createBuildSystemFile_eq_true_iff]
        simp only [hf.1, hf.2.1, hf.2.2.1]
        exact ⟨fun h => ⟨hH, hS, h.1.1, h.1.2, h.2⟩, fun h => ⟨⟨h.2.2.1, h.2.2.2.1⟩, h.2.2.2.2⟩⟩
      · exact ⟨fun h => absurd h.1.2 h2, fun h => absurd h.2.2.2.1 h2⟩
    · exact ⟨fun h => absurd h.1.1 h1, fun h => absurd h.2.2.1 h1⟩
  · have hc2 : (createMessages fs
        { errorState := false, errorMessage := "", baseClassName := bsClsNme, flags := flgs,
          workingDir := wrkDir, wsdl := w, messages := w.methods, files := [] }).1 = false := by
      simpa using hc
    have hn := fun h => hc (hM.2 h)
    rw [create_fst, hc2]
    exact ⟨fun h => absurd h (by simp), fun h => absurd ⟨h.1, h.2.1⟩ hn⟩

/-- The object `create` has worked on when every file can be opened: no error state, and the
files written are the header of every operation, the source of every operation, `main.cpp`, the
two files of the facade and, when qmake is selected, the project file. -/
theorem create_all_open (hopen : ∀ file, fs.canOpen file = true)
    (w : QWsdl) (wrkDir : QDir) (flgs : Flags) (bsClsNme : String) :
    (create fs w wrkDir flgs bsClsNme).1 = true
    ∧ (create fs w wrkDir flgs bsClsNme).2.errorState = false
    ∧ (create fs w wrkDir flgs bsClsNme).2.files.map Prod.fst
        = (w.methods.keys.map fun s =>
            (wrkDir.cd "headers").path ++ "/" ++ (w.methods.value s).messageName ++ ".h")
          ++ (w.methods.keys.map fun s =>
            (wrkDir.cd "sources").path ++ "/" ++ (w.methods.value s).messageName ++ ".cpp")
          ++ [ (wrkDir.cd "sources").path ++ "/main.cpp",
               (wrkDir.cd "headers").path ++ "/" ++ wsName bsClsNme w ++ ".h",
               (wrkDir.cd "sources").path ++ "/" ++ wsName bsClsNme w ++ ".cpp" ]
          ++ (if flgs.buildSystem = Flags.BuildSystem.qmake then
                [ wrkDir.path ++ "/" ++ wsName bsClsNme w ++ ".pro" ]
              else []) := by
  have hok := createMessages_ok fs
    { errorState := false, errorMessage := "", baseClassName := bsClsNme, flags := flgs,
      workingDir := wrkDir, wsdl := w, messages := w.methods, files := [] }
    (fun _ _ => hopen _) (fun _ _ => hopen _)
  simp only [createMainCpp, hopen, Bool.not_true, Bool.false_eq_true, if_false] at hok
  simp only [create, prepare, hok, Bool.not_true, Bool.false_eq_true, if_false]
  rw [createService_ok fs _ (hopen _) (hopen _)]
  simp only [Bool.not_true, Bool.false_eq_true, if_false]
  cases hb : flgs.buildSystem <;>
    simp [createBuildSystemFile, createQMakeProject, hopen, hb, Function.comp_def]

/-- The keys of a map are pairwise distinct. -/
theorem QMap.keys_nodup {V : Type} (m : QMap V) : m.keys.Nodup := by
  unfold QMap.keys List.Nodup
  rw [List.pairwise_map]
  exact m.ascending.imp (fun h => ne_of_lt h)

end Run

set_option maxRecDepth 100000 in
/-- C16 fails: for a service definition in which `getX` appears twice (twice in the list of
method names and as the name of two entries of the operation map, or twice in the list and put
twice into the map), `create` returns `true` when the files can be opened, the error state is
not entered, and the artifacts of `getX` are written. -/
theorem duplicate_operation_counterexample :
    getXTwiceService.methodNames = ["getX", "getX"]
    ∧ getXTwiceService.methods.keys.map
        (fun s => (getXTwiceService.methods.value s).messageName) = ["getX", "getX"]
    ∧ (create openFileSystem getXTwiceService outDir syncFullSoap12QMake "").1 = true
    ∧ (create openFileSystem getXTwiceService outDir syncFullSoap12QMake "").2.errorState = false
    ∧ (create openFileSystem getXTwiceService outDir syncFullSoap12QMake "").2.files.map Prod.fst
        = [ "out/headers/getX.h", "out/headers/getX.h", "out/sources/getX.cpp",
            "out/sources/getX.cpp", "out/sources/main.cpp", "out/headers/x_ws.h",
            "out/sources/x_ws.cpp", "out/x_ws.pro" ]
    ∧ (create openFileSystem getXListedTwice outDir syncFullSoap12QMake "").1 = true
    ∧ (create openFileSystem getXListedTwice outDir syncFullSoap12QMake "").2.files.map Prod.fst
        = [ "out/headers/getX.h", "out/sources/getX.cpp", "out/sources/main.cpp",
            "out/headers/x_ws.h", "out/sources/x_ws.cpp", "out/x_ws.pro" ] := by
  decide

/-- C16 as amended: `create` makes no check of the operation names.  Whenever every file can be
opened it returns `true` for every service definition, without entering the error state, and the
files written are the header and the source of every entry of the operation map (named after
the message of the entry), `main.cpp`, the two files of the facade and, when qmake is selected,
the project file; the keys of the operation map are pairwise distinct. -/
theorem create_without_name_check (fs : FileSystem) (hopen : ∀ file, fs.canOpen file = true)
    (w : QWsdl) (wrkDir : QDir) (flgs : Flags) (bsClsNme : String) :
    (create fs w wrkDir flgs bsClsNme).1 = true
    ∧ (create fs w wrkDir flgs bsClsNme).2.errorState = false
    ∧ (create fs w wrkDir flgs bsClsNme).2.files.map Prod.fst
        = (w.methods.keys.map fun s =>
            (wrkDir.cd "headers").path ++ "/" ++ (w.methods.value s).messageName ++ ".h")
          ++ (w.methods.keys.map fun s =>
            (wrkDir.cd "sources").path ++ "/" ++ (w.methods.value s).messageName ++ ".cpp")
          ++ [ (wrkDir.cd "sources").path ++ "/main.cpp",
               (wrkDir.cd "headers").path ++ "/" ++ wsName bsClsNme w ++ ".h",
               (wrkDir.cd "sources").path ++ "/" ++ wsName bsClsNme w ++ ".cpp" ]
          ++ (if flgs.buildSystem = Flags.BuildSystem.qmake then
                [ wrkDir.path ++ "/" ++ wsName bsClsNme w ++ ".pro" ]
              else [])
    ∧ w.methods.keys.Nodup :=
  ⟨(create_all_open fs hopen w wrkDir flgs bsClsNme).1,
    (create_all_open fs hopen w wrkDir flgs bsClsNme).2.1,
    (create_all_open fs hopen w wrkDir flgs bsClsNme).2.2, w.methods.keys_nodup⟩

/-- C16 as amended, at the service definition in which `getX` appears twice. -/
theorem create_without_name_check_getXTwice :
    (∀ file, openFileSystem.canOpen file = true)
    ∧ (create openFileSystem getXTwiceService outDir syncFullSoap12QMake "").1 = true
    ∧ (create openFileSystem getXTwiceService outDir syncFullSoap12QMake "").2.errorState
        = false :=
  ⟨fun _ => rfl,
    (create_without_name_check openFileSystem (fun _ => rfl) getXTwiceService outDir
      syncFullSoap12QMake "").1,
    (create_without_name_check openFileSystem (fun _ => rfl) getXTwiceService outDir
      syncFullSoap12QMake "").2.1⟩

set_option maxRecDepth 100000 in
/-- C17 fails for the empty name: for an operation whose name is empty, `createMessageHeader`
returns `true`, does not enter the error state and writes the file `out/headers/.h`, and
`createMessages` returns `true` for the service with this operation. -/
theorem empty_name_counterexample :
    emptyNameMessage.messageName = ""
    ∧ (createMessageHeader openFileSystem
        { exampleConverter emptyNameService with workingDir := outDir.cd "headers" }
        emptyNameMessage).1 = true
    ∧ (createMessageHeader openFileSystem
        { exampleConverter emptyNameService with workingDir := outDir.cd "headers" }
        emptyNameMessage).2.errorState = false
    ∧ (createMessageHeader openFileSystem
        { exampleConverter emptyNameService with workingDir := outDir.cd "headers" }
        emptyNameMessage).2.files.map Prod.fst = ["out/headers/.h"]
    ∧ (createMessages openFileSystem (exampleConverter emptyNameService)).1 = true
    ∧ (createMessages openFileSystem (exampleConverter emptyNameService)).2.errorState = false
    ∧ (createMessages openFileSystem (exampleConverter emptyNameService)).2.files.map Prod.fst
        = ["out/headers/.h", "out/sources/.cpp", "out/sources/main.cpp"] := by
  decide

/-- C17 as amended: `createMessageHeader` makes no check of the names of the operation.  It
returns `false` exactly when the header file cannot be opened, and then it enters the error
state and writes nothing; otherwise it writes the header and leaves the error state as it is.
`createMessages` returns `true` exactly when the header file and the source file of every
operation can be opened.  The parameter names of an operation are the keys of a map and so are
pairwise distinct. -/
theorem createMessageHeader_without_name_check (fs : FileSystem) (obj : Converter)
    (msg : QSoapMessage) :
    ((createMessageHeader fs obj msg).1 = false
      ↔ fs.canOpen (obj.workingDir.path ++ "/" ++ msg.messageName ++ ".h") = false)
    ∧ (fs.canOpen (obj.workingDir.path ++ "/" ++ msg.messageName ++ ".h") = false →
        (createMessageHeader fs obj msg).2.errorState = true
        ∧ (createMessageHeader fs obj msg).2.files = obj.files)
    ∧ (fs.canOpen (obj.workingDir.path ++ "/" ++ msg.messageName ++ ".h") = true →
        (createMessageHeader fs obj msg).2.errorState = obj.errorState
        ∧ (createMessageHeader fs obj msg).2.files
            = obj.files ++ [(obj.workingDir.path ++ "/" ++ msg.messageName ++ ".h",
                createMessageHeaderOut obj.flags msg)])
    ∧ ((createMessages fs obj).1 = true
      ↔ (∀ s ∈ obj.messages.keys, fs.canOpen ((obj.workingDir.cd "headers").path ++ "/"
            ++ (obj.messages.value s).messageName ++ ".h") = true)
        ∧ (∀ s ∈ obj.messages.keys, fs.canOpen ((obj.workingDir.cd "sources").path ++ "/"
            ++ (obj.messages.value s).messageName ++ ".cpp") = true))
    ∧ msg.parameterNamesTypes.keys.Nodup := by
  refine ⟨?_, ?_, ?_, createMessages_eq_true_iff fs obj, msg.parameterNamesTypes.keys_nodup⟩
  · cases h : fs.canOpen (obj.workingDir.path ++ "/" ++ msg.messageName ++ ".h") <;>
      simp [createMessageHeader, enterErrorState, h]
  · intro h
    simp [createMessageHeader, enterErrorState, h]
  · intro h
    simp [createMessageHeader, enterErrorState, h]

set_option maxRecDepth 100000 in
/-- C17 as amended, at the operation with the empty name: the header is written when the file
can be opened, and the error state is entered when it cannot. -/
theorem createMessageHeader_without_name_check_emptyName :
    openFileSystem.canOpen "out/headers/.h" = true
    ∧ (createMessageHeader openFileSystem
        { exampleConverter emptyNameService with workingDir := outDir.cd "headers" }
        emptyNameMessage).2.errorState = false
    ∧ (createMessageHeader ⟨fun _ => false, ""⟩
        { exampleConverter emptyNameService with workingDir := outDir.cd "headers" }
        emptyNameMessage).2.errorState = true :=
  ⟨rfl,
    ((createMessageHeader_without_name_check openFileSystem
      { exampleConverter emptyNameService with workingDir := outDir.cd "headers" }
      emptyNameMessage).2.2.1 rfl).1,
    ((createMessageHeader_without_name_check ⟨fun _ => false, ""⟩
      { exampleConverter emptyNameService with workingDir := outDir.cd "headers" }
      emptyNameMessage).2.1 rfl).1⟩

set_option maxRecDepth 100000 in
/-- C20 fails for `main.cpp`: when `out/sources/main.cpp` is the only file that cannot be opened,
`createMainCpp` enters the error state, and still `create` returns `true` and the later stages
run: the two files of the facade and the project file are written. -/
theorem create_true_without_main_cpp :
    mainCppLocked.canOpen "out/sources/main.cpp" = false
    ∧ (create mainCppLocked getXService outDir syncFullSoap12QMake "").1 = true
    ∧ (create mainCppLocked getXService outDir syncFullSoap12QMake "").2.errorState = true
    ∧ (create mainCppLocked getXService outDir syncFullSoap12QMake "").2.errorMessage
        = "Error: could not open Web Service header file for writing. "
    ∧ (create mainCppLocked getXService outDir syncFullSoap12QMake "").2.files.map Prod.fst
        = [ "out/headers/getX.h", "out/sources/getX.cpp", "out/headers/x_ws.h",
            "out/sources/x_ws.cpp", "out/x_ws.pro" ] := by
  decide

/-! ## Reply extraction in general -/

section Extraction

/-- The call `indexOf` from a position `k`, for a text to find that is not empty: the first
occurrence in the text after `k`, counted from the start, or `-1`. -/
theorem indexOf_nat (s needle : QString) (k : Nat) (hne : needle ≠ []) :
    s.indexOf needle (k : Int)
      = match findFirst needle (s.drop k) with
        | some j => ((k + j : Nat) : Int)
        | none => -1 := by
  by_cases hk : needle.length + k ≤ s.length
  · cases hj : findFirst needle (s.drop k) with
    | none => exact indexOf_of_none s needle k hj
    | some j => exact indexOf_of_findFirst s needle k j hk hj
  · have hlen : 0 < needle.length := List.length_pos.2 hne
    have hno : findFirst needle (s.drop k) = none := by
      apply findFirst_eq_none
      intro h
      have h2 := h.length_le
      rw [List.length_drop] at h2
      omega
    rw [hno]
    exact indexOf_of_none s needle k hno

/-- The call `mid` with a position and a length that are not negative is `drop` followed by
`take`. -/
theorem mid_nat (s : QString) (p n : Nat) : s.mid (p : Int) (n : Int) = (s.drop p).take n := by
  unfold QString.mid
  by_cases h1 : (p : Int) ≥ (s.length : Int)
  · rw [if_pos h1, List.drop_of_length_le (by omega), List.take_nil]
  · have h2 : ¬ ((n : Int) < 0) := by omega
    have h3 : ¬ ((p : Int) < 0) := by omega
    simp only [h1, h2, h3, if_false]
    by_cases h4 : (n : Int) + (p : Int) > (s.length : Int)
    · simp only [h4, if_true, Int.toNat_ofNat]
      have e : ((s.length : Int) - (p : Int)).toNat = s.length - p := by omega
      rw [e, List.take_of_length_le (by rw [List.length_drop]),
        List.take_of_length_le (by rw [List.length_drop]; omega)]
    · simp only [h4, if_false, Int.toNat_ofNat]

/-- The text before the first occurrence, by the offset of that occurrence. -/
theorem beforeFirst_eq (needle : QString) :
    ∀ s : QString, beforeFirst needle s
      = match findFirst needle s with
        | some j => s.take j
        | none => s := by
  intro s
  induction s with
  | nil =>
    simp only [beforeFirst, findFirst]
    split_ifs <;> rfl
  | cons c t ih =>
    simp only [beforeFirst, findFirst]
    by_cases hp : needle.isPrefixOf (c :: t) = true
    · simp only [hp, if_true, List.take_zero]
    · simp only [hp, if_false, Bool.false_eq_true]
      rw [ih]
      cases findFirst needle t with
      | none => rfl
      | some j => rfl

/-- The text after the first occurrence, by the offset of that occurrence. -/
theorem afterFirst_eq (needle : QString) :
    ∀ s : QString, afterFirst needle s
      = (findFirst needle s).map (fun i => s.drop (i + needle.length)) := by
  intro s
  induction s with
  | nil =>
    simp only [afterFirst, findFirst]
    split_ifs <;> simp
  | cons c t ih =>
    simp only [afterFirst, findFirst]
    by_cases hp : needle.isPrefixOf (c :: t) = true
    · simp only [hp, if_true, Option.map_some', Nat.zero_add]
    · simp only [hp, if_false, Bool.false_eq_true]
      rw [ih]
      cases findFirst needle t with
      | none => rfl
      | some j =>
        simp only [Option.map_some']
        have e : j + 1 + needle.length = (j + needle.length) + 1 := by omega
        rw [e, List.drop_succ_cons]

/-- A text that occurs has a first occurrence. -/
theorem findFirst_of_infix (needle : QString) :
    ∀ s : QString, needle <:+: s → ∃ i, findFirst needle s = some i := by
  intro s
  induction s with
  | nil =>
    intro h
    have hn : needle = [] := List.eq_nil_of_infix_nil h
    subst hn
    exact ⟨0, rfl⟩
  | cons c t ih =>
    intro h
    by_cases hp : needle.isPrefixOf (c :: t) = true
    · exact ⟨0, by simp only [findFirst, hp, if_true]⟩
    · have hp2 : ¬ needle <+: c :: t := fun h2 => hp (List.isPrefixOf_iff_prefix.2 h2)
      rcases List.infix_cons_iff.1 h with h2 | h2
      · exact absurd h2 hp2
      · obtain ⟨i, hi⟩ := ih h2
        exact ⟨i + 1, by simp only [findFirst, hp, if_false, Bool.false_eq_true, hi,
          Option.map_some']⟩

/-- The text before the first occurrence starts the text. -/
theorem beforeFirst_isPrefix (needle : QString) : ∀ s : QString, beforeFirst needle s <+: s := by
  intro s
  induction s with
  | nil => exact List.prefix_refl _
  | cons c t ih =>
    simp only [beforeFirst]
    split_ifs
    · exact List.nil_prefix
    · exact (List.prefix_cons_inj c).2 ih

/-- The text before the first occurrence of a text that is not empty holds no occurrence. -/
theorem not_infix_beforeFirst (needle : QString) (hne : needle ≠ []) :
    ∀ s : QString, ¬ needle <:+: beforeFirst needle s := by
  intro s
  induction s with
  | nil =>
    intro h
    exact hne (List.eq_nil_of_infix_nil h)
  | cons c t ih =>
    simp only [beforeFirst]
    by_cases hp : needle.isPrefixOf (c :: t) = true
    · simp only [hp, if_true]
      intro h
      exact hne (List.eq_nil_of_infix_nil h)
    · simp only [hp, if_false, Bool.false_eq_true]
      intro h
      rcases List.infix_cons_iff.1 h with h2 | h2
      · exact hp (List.isPrefixOf_iff_prefix.2
          (h2.trans ((List.prefix_cons_inj c).2 (beforeFirst_isPrefix needle t))))
      · exact ih h2

/-- The index at which the emitted `replyFinished` starts the result: the end of the first
opening tag of the unescaped body, or the length of the opening tag less one when the body
holds none. -/
theorem replyFinished_reply (m : Message) (body : QString) :
    (replyFinished m body).reply
      = beforeFirst (tempFinish m.messageName)
          ((convertReplyToUtf body).drop
            (match findFirst (tempBegin m.messageName) (convertReplyToUtf body) with
             | some i => i + (tempBegin m.messageName).length
             | none => (tempBegin m.messageName).length - 1)) := by
  have hBne : tempBegin m.messageName ≠ [] := by rw [tempBegin_eq_cons]; exact List.cons_ne_nil _ _
  have hFne : tempFinish m.messageName ≠ [] := by
    rw [tempFinish_eq_cons]; exact List.cons_ne_nil _ _
  have hBlen : 0 < (tempBegin m.messageName).length := List.length_pos.2 hBne
  -- the start index is a natural number
  have hb : ∃ b : Nat,
      (convertReplyToUtf body).indexOf (tempBegin m.messageName) 0
          + ((tempBegin m.messageName).length : Int) = (b : Int)
      ∧ b = (match findFirst (tempBegin m.messageName) (convertReplyToUtf body) with
             | some i => i + (tempBegin m.messageName).length
             | none => (tempBegin m.messageName).length - 1) := by
    have h0 := indexOf_nat (convertReplyToUtf body) (tempBegin m.messageName) 0 hBne
    rw [List.drop_zero] at h0
    have e0 : ((0 : Nat) : Int) = 0 := rfl
    rw [e0] at h0
    rw [h0]
    cases findFirst (tempBegin m.messageName) (convertReplyToUtf body) with
    | none => exact ⟨(tempBegin m.messageName).length - 1, by simp only []; omega, rfl⟩
    | some i =>
      exact ⟨i + (tempBegin m.messageName).length, by simp only [Nat.zero_add]; push_cast; rfl, rfl⟩
  obtain ⟨b, hb1, hb2⟩ := hb
  rw [← hb2]
  unfold replyFinished
  simp only []
  rw [hb1, indexOf_nat _ _ b hFne, beforeFirst_eq]
  cases hj : findFirst (tempFinish m.messageName) ((convertReplyToUtf body).drop b) with
  | none =>
    simp only [if_true]
    by_cases hlen : b ≥ (convertReplyToUtf body).length
    · rw [List.drop_of_length_le hlen]
      unfold QString.mid
      rw [if_pos (by omega)]
    · have e : ((convertReplyToUtf body).length : Int) - (b : Int)
          = (((convertReplyToUtf body).length - b : Nat) : Int) := by omega
      rw [e, mid_nat, List.take_of_length_le (by rw [List.length_drop])]
  | some j =>
    have hne : ¬ (((b + j : Nat) : Int) = -1) := by omega
    simp only [hne, if_false]
    have e : ((b + j : Nat) : Int) - (b : Int) = (j : Int) := by push_cast; omega
    rw [e, mid_nat]

end Extraction


section ExtractionOrder

/-- The fragment that `extractResult` gives is a part of the text. -/
theorem extractResult_isInfix (messageName text r : QString)
    (h : extractResult messageName text = some r) : r <:+: text := by
  unfold extractResult at h
  rw [afterFirst_eq] at h
  cases hi : findFirst (tempBegin messageName) text with
  | none => rw [hi] at h; cases h
  | some i =>
    rw [hi] at h
    simp only [Option.map_some', Option.some.injEq] at h
    rw [← h]
    exact (beforeFirst_isPrefix _ _).isInfix.trans (List.drop_suffix _ _).isInfix

end ExtractionOrder

set_option maxRecDepth 100000 in
/-- C21 fails: for the message `getX` and the body
`<getXResult>a&lt;/getXResult&gt;b</getXResult>`, the fragment between the markers of the body as
received is `a&lt;/getXResult&gt;b`, which unescapes to `a</getXResult>b`, while the emitted
`replyFinished` stores `a`; and for the body `&lt;getXResult&gt;5&lt;/getXResult&gt;`, which as
received holds no marker, it stores `5`. -/
theorem extraction_order_counterexample :
    extractResult "getX".toList "<getXResult>a&lt;/getXResult&gt;b</getXResult>".toList
        = some "a&lt;/getXResult&gt;b".toList
    ∧ convertReplyToUtf "a&lt;/getXResult&gt;b".toList = "a</getXResult>b".toList
    ∧ (replyFinished exampleGetX
        "<getXResult>a&lt;/getXResult&gt;b</getXResult>".toList).reply = "a".toList
    ∧ extractResult "getX".toList "&lt;getXResult&gt;5&lt;/getXResult&gt;".toList = none
    ∧ (replyFinished exampleGetX "&lt;getXResult&gt;5&lt;/getXResult&gt;".toList).reply
        = "5".toList := by
  decide

/-- C21 as amended: the emitted `replyFinished` unescapes the whole body first and locates the
markers in the unescaped text.  For every body whose unescaped text holds the opening tag, the
stored result is the fragment of the unescaped text from the end of its first opening tag to
the first closing tag after it, or to the end when there is none; and when the body as received
holds neither `&lt;` nor `&gt;`, this is the unescaped fragment of the body as received. -/
theorem replyFinished_extracts_from_unescaped (m : Message) (body : QString)
    (hopen : tempBegin m.messageName <:+: convertReplyToUtf body) :
    extractResult m.messageName (convertReplyToUtf body) = some (replyFinished m body).reply
    ∧ (¬ "&lt;".toList <:+: body → ¬ "&gt;".toList <:+: body →
        (extractResult m.messageName body).map convertReplyToUtf
          = some (replyFinished m body).reply) := by
  have h1 : extractResult m.messageName (convertReplyToUtf body)
      = some (replyFinished m body).reply := by
    obtain ⟨i, hi⟩ := findFirst_of_infix _ _ hopen
    rw [replyFinished_reply, extractResult, afterFirst_eq, hi]
    rfl
  refine ⟨h1, ?_⟩
  intro hlt hgt
  have hc := convertReplyToUtf_of_no_entity body hlt hgt
  rw [hc] at h1
  rw [h1]
  have hin := extractResult_isInfix _ _ _ h1
  simp only [Option.map_some', Option.some.injEq]
  exact convertReplyToUtf_of_no_entity _ (fun h => hlt (h.trans hin))
    (fun h => hgt (h.trans hin))

set_option maxRecDepth 100000 in
/-- C21 as amended, at the body `<getXResult>a&lt;/getXResult&gt;b</getXResult>`: the unescaped
text is `<getXResult>a</getXResult>b</getXResult>` and the stored result is `a`. -/
theorem replyFinished_extracts_from_unescaped_getX :
    convertReplyToUtf "<getXResult>a&lt;/getXResult&gt;b</getXResult>".toList
        = "<getXResult>a</getXResult>b</getXResult>".toList
    ∧ tempBegin exampleGetX.messageName
        <:+: convertReplyToUtf "<getXResult>a&lt;/getXResult&gt;b</getXResult>".toList
    ∧ extractResult "getX".toList "<getXResult>a</getXResult>b</getXResult>".toList
        = some "a".toList
    ∧ (replyFinished exampleGetX
        "<getXResult>a&lt;/getXResult&gt;b</getXResult>".toList).reply = "a".toList :=
  ⟨by decide, by decide, by decide,
    Option.some.inj ((replyFinished_extracts_from_unescaped exampleGetX
      "<getXResult>a&lt;/getXResult&gt;b</getXResult>".toList (by decide)).1.symm.trans
        (by decide))⟩

/-- C23: for every message name and every reply body, with or without the opening tag and with
or without the closing tag, the result that the emitted `replyFinished` stores holds no
occurrence of the closing tag `</{messageName}Result>`. -/
theorem reply_without_closing_tag (m : Message) (body : QString) :
    ¬ tempFinish m.messageName <:+: (replyFinished m body).reply := by
  rw [replyFinished_reply]
  exact not_infix_beforeFirst _ (by rw [tempFinish_eq_cons]; exact List.cons_ne_nil _ _) _


/-! ## The unescaped text holds no entity -/

section Idempotence

/-- A character other than `<` and `>` at the head of an unescaped text stood at the head of the
text before, which did not start with an entity. -/
theorem head_of_unescapeEntities (x : Char) (hlt : x ≠ '<') (hgt : x ≠ '>') (t z : QString)
    (h : unescapeEntities t = x :: z) : ∃ t2, t = x :: t2 ∧ z = unescapeEntities t2 := by
  induction t using unescapeEntities.induct with
  | case1 rest _ =>
    rw [unescapeEntities] at h
    simp only [List.cons.injEq] at h
    exact absurd h.1.symm hlt
  | case2 rest _ =>
    rw [unescapeEntities] at h
    simp only [List.cons.injEq] at h
    exact absurd h.1.symm hgt
  | case3 c rest h1 h2 _ =>
    rw [unescapeEntities] at h
    · simp only [List.cons.injEq] at h
      exact ⟨rest, by rw [h.1], h.2.symm⟩
    · exact h1
    · exact h2
  | case4 =>
    rw [unescapeEntities] at h
    cases h

/-- The text that `unescapeEntities` gives holds neither `&lt;` nor `&gt;`. -/
theorem unescapeEntities_no_entity (s : QString) :
    ¬ "&lt;".toList <:+: unescapeEntities s ∧ ¬ "&gt;".toList <:+: unescapeEntities s := by
  induction s using unescapeEntities.induct with
  | case1 rest ih =>
    rw [unescapeEntities]
    constructor
    · intro h
      rcases List.infix_cons_iff.1 h with h2 | h2
      · obtain ⟨r, hr⟩ := h2
        simp [String.toList] at hr
      · exact ih.1 h2
    · intro h
      rcases List.infix_cons_iff.1 h with h2 | h2
      · obtain ⟨r, hr⟩ := h2
        simp [String.toList] at hr
      · exact ih.2 h2
  | case2 rest ih =>
    rw [unescapeEntities]
    constructor
    · intro h
      rcases List.infix_cons_iff.1 h with h2 | h2
      · obtain ⟨r, hr⟩ := h2
        simp [String.toList] at hr
      · exact ih.1 h2
    · intro h
      rcases List.infix_cons_iff.1 h with h2 | h2
      · obtain ⟨r, hr⟩ := h2
        simp [String.toList] at hr
      · exact ih.2 h2
  | case3 c rest h1 h2 ih =>
    rw [unescapeEntities]
    · constructor
      · intro h
        rcases List.infix_cons_iff.1 h with h3 | h3
        · obtain ⟨r, hr⟩ := h3
          simp only [String.toList, List.cons_append, List.nil_append, List.cons.injEq] at hr
          obtain ⟨hc, hr⟩ := hr
          obtain ⟨t1, ht1, hz1⟩ :=
            head_of_unescapeEntities 'l' (by decide) (by decide) _ _ hr.symm
          obtain ⟨t2, ht2, hz2⟩ :=
            head_of_unescapeEntities 't' (by decide) (by decide) _ _ hz1.symm
          obtain ⟨t3, ht3, _⟩ :=
            head_of_unescapeEntities ';' (by decide) (by decide) _ _ hz2.symm
          exact h1 t3 hc.symm (by rw [ht1, ht2, ht3])
        · exact ih.1 h3
      · intro h
        rcases List.infix_cons_iff.1 h with h3 | h3
        · obtain ⟨r, hr⟩ := h3
          simp only [String.toList, List.cons_append, List.nil_append, List.cons.injEq] at hr
          obtain ⟨hc, hr⟩ := hr
          obtain ⟨t1, ht1, hz1⟩ :=
            head_of_unescapeEntities 'g' (by decide) (by decide) _ _ hr.symm
          obtain ⟨t2, ht2, hz2⟩ :=
            head_of_unescapeEntities 't' (by decide) (by decide) _ _ hz1.symm
          obtain ⟨t3, ht3, _⟩ :=
            head_of_unescapeEntities ';' (by decide) (by decide) _ _ hz2.symm
          exact h2 t3 hc.symm (by rw [ht1, ht2, ht3])
        · exact ih.2 h3
    · exact h1
    · exact h2
  | case4 =>
    rw [unescapeEntities]
    constructor <;> intro h <;> have h2 := List.eq_nil_of_infix_nil h <;> cases h2

end Idempotence

/-- C24: for every text, what the emitted `convertReplyToUtf` returns holds neither `&lt;` nor
`&gt;`, and applying `convertReplyToUtf` to it again gives the same text. -/
theorem convertReplyToUtf_idempotent (s : QString) :
    ¬ "&lt;".toList <:+: convertReplyToUtf s
    ∧ ¬ "&gt;".toList <:+: convertReplyToUtf s
    ∧ convertReplyToUtf (convertReplyToUtf s) = convertReplyToUtf s := by
  have h := unescapeEntities_no_entity s
  rw [← convertReplyToUtf_eq_unescapeEntities] at h
  exact ⟨h.1, h.2, convertReplyToUtf_of_no_entity _ h.1 h.2⟩

/-! ## Request data and the envelope -/

set_option maxRecDepth 100000 in
/-- C22 (the code at the failing input): for every instance the data built by the emitted
`prepareRequestData` is the opening element directly followed by the closing element, alone when
the protocol is http or soap1.0 and between the fixed envelope header and the fixed footer when
it is soap1.2; no parameter element is part of it.  For the message `getX` under protocol
soap1.0 with `a` bound to 1 the data is `<getX xmlns= + targetNamespace + >` followed by
`</getX>`, without `<a>1</a>`. -/
theorem prepareRequestData_envelope :
    (∀ m : Message, m.protocol = Protocol.http ∨ m.protocol = Protocol.soap10 →
      (prepareRequestData m).data
        = "\t<".toList ++ m.messageName ++ " xmlns= + targetNamespace + > \r\n".toList
          ++ ("\t</".toList ++ m.messageName ++ "> \r\n".toList))
    ∧ (∀ m : Message, m.protocol = Protocol.soap12 →
      (prepareRequestData m).data
        = "<?xml version=\"1.0\" encoding=\"utf-8\"?> \r\n <soap12:Envelope xmlns:xsi=\"http://www.w3.org/2001/XMLSchema-instance\" xmlns:xsd=\"http://www.w3.org/2001/XMLSchema\" xmlns:soap12=\"http://www.w3.org/2003/05/soap-envelope\"> \r\n <soap12:Body> \r\n".toList
          ++ ("\t<".toList ++ m.messageName ++ " xmlns= + targetNamespace + > \r\n".toList
            ++ ("\t</".toList ++ m.messageName ++ "> \r\n".toList))
          ++ "</soap12:Body> \r\n</soap12:Envelope>".toList)
    ∧ (prepareRequestData { exampleGetX with protocol := Protocol.soap10 }).parameters
        = [("a".toList, "1".toList)]
    ∧ (prepareRequestData { exampleGetX with protocol := Protocol.soap10 }).data
        = "\t<getX xmlns= + targetNamespace + > \r\n\t</getX> \r\n".toList
    ∧ ¬ "<a>1</a>".toList
        <:+: (prepareRequestData { exampleGetX with protocol := Protocol.soap10 }).data := by
  refine ⟨?_, ?_, by decide, by decide, by decide⟩
  · intro m h
    have h2 : ¬ m.protocol = Protocol.soap12 := by
      rcases h with h | h <;> rw [h] <;> decide
    rw [prepareRequestData_data]
    simp only [h2, if_false, List.nil_append, List.append_nil]
  · intro m h
    rw [prepareRequestData_data]
    simp only [h, if_true]

set_option maxRecDepth 100000 in
/-- C22 at the message `getX` under http and under soap1.2. -/
theorem prepareRequestData_envelope_getX :
    (prepareRequestData { exampleGetX with protocol := Protocol.http }).data
        = "\t<getX xmlns= + targetNamespace + > \r\n\t</getX> \r\n".toList
    ∧ exampleGetX.protocol = Protocol.soap12
    ∧ "\t<getX xmlns= + targetNamespace + > \r\n\t</getX> \r\n</soap12:Body> \r\n</soap12:Envelope>".toList
        <:+ (prepareRequestData exampleGetX).data :=
  ⟨(prepareRequestData_envelope.1 { exampleGetX with protocol := Protocol.http }
      (Or.inl rfl)).trans (by decide),
    rfl,
    by rw [prepareRequestData_envelope.2.1 exampleGetX rfl]; decide⟩

/-! ## The two constructors -/

set_option maxRecDepth 100000 in
/-- C25 (the code at the failing input): an instance made by the emitted constructor that takes
the parameters has an empty `hostname` and an empty `messageName`, whatever the operation,
while an instance made by the default constructor and `setParams` has the target namespace as
`hostname` and the name of the operation as `messageName`; the protocol is the same.  For the
operation `getBandName(int id)` the names are empty in the one and `http://example.org/` and
`getBandName` in the other; the text of the emitted constructor is given. -/
theorem parameterized_constructor_names :
    (∀ (flags : Flags) (msg : QSoapMessage) (raw : Message) (args : List QString),
      (parameterizedConstructor flags msg raw args).hostname = []
      ∧ (parameterizedConstructor flags msg raw args).messageName = []
      ∧ (setParams msg (defaultConstructor flags msg raw) args).hostname
          = msg.targetNamespace.data
      ∧ (setParams msg (defaultConstructor flags msg raw) args).messageName
          = msg.messageName.data
      ∧ (parameterizedConstructor flags msg raw args).protocol
          = (setParams msg (defaultConstructor flags msg raw) args).protocol
      ∧ (parameterizedConstructor flags msg raw args).parameters
          = (setParams msg (defaultConstructor flags msg raw) args).parameters)
    ∧ msgParameters getBandName = "int id"
    ∧ sourceParamConstructor syncFullSoap12 getBandName
        = [ "getBandName::getBandName(int id, QObject *parent) :",
            "    QObject(parent)",
            "\x7b",
            "    this->id = id;",
            "    protocol = soap12;",
            "    hostUrl.setHost(hostname + messageName);",
            "\x7d",
            "" ]
    ∧ (parameterizedConstructor syncFullSoap12 getBandName exampleGetX ["5".toList]).hostname
        = []
    ∧ (parameterizedConstructor syncFullSoap12 getBandName exampleGetX ["5".toList]).messageName
        = []
    ∧ (setParams getBandName (defaultConstructor syncFullSoap12 getBandName exampleGetX)
        ["5".toList]).hostname = "http://example.org/".toList
    ∧ (setParams getBandName (defaultConstructor syncFullSoap12 getBandName exampleGetX)
        ["5".toList]).messageName = "getBandName".toList := by
  refine ⟨fun _ _ _ _ => ⟨rfl, rfl, rfl, rfl, rfl, rfl⟩, by decide, by decide, by decide,
    by decide, by decide, by decide⟩


/-! ## The facade: the identifiers of the message instances -/

section InstanceIdentifiers

variable (flags : Flags) (baseClassName : String) (wsdl : QWsdl)

/-- In the asynchronous full or debug configuration the facade header ends with the
declarations of the message instances, one per operation, each named by the lower-case form of
the name of its operation. -/
theorem headerMessageMembers_instances
    (hasync : flags.synchronousness = Flags.Synchronousness.asynchronous)
    (hmode : flags.mode = Flags.Mode.fullMode ∨ flags.mode = Flags.Mode.debugMode) :
    [ "    // Messages:" ]
      ++ (wsdl.methods.keys.map fun s => "    " ++ s ++ " " ++ toLower s ++ ";")
      ++ [ "\x7d;", "", "#endif // " ++ toUpper (wsName baseClassName wsdl) ++ "_H" ]
      <:+ createServiceHeaderOut flags baseClassName wsdl := by
  have h : headerMessageMembers flags wsdl
      = ([ "    // Message replies:" ]
          ++ (wsdl.methods.keys.map fun s =>
                "    " ++ tmpReturn (wsdl.methods.value s) ++ " " ++ s ++ "Result;"))
        ++ ([ "    // Messages:" ]
          ++ (wsdl.methods.keys.map fun s => "    " ++ s ++ " " ++ toLower s ++ ";")) := by
    simp only [headerMessageMembers, hasync, hmode, and_self, if_true, List.append_assoc]
  unfold createServiceHeaderOut
  simp only []
  rw [h]
  simp only [List.append_assoc]
  have step : ∀ (a b l : List String), l <:+ b → l <:+ a ++ b :=
    fun a b l h => h.trans (List.suffix_append a b)
  repeat' first
    | exact List.suffix_refl _
    | apply step

/-- The asynchronous `Send` member of an operation of the map forwards to the instance named by
the lower-case form of the name of the operation. -/
theorem sourceSendMembers_instance
    (hasync : flags.synchronousness = Flags.Synchronousness.asynchronous)
    (s : String) (hs : s ∈ wsdl.methods.keys) :
    [ "void " ++ wsName baseClassName wsdl ++ "::" ++ s ++ "Send("
        ++ msgParameters (wsdl.methods.value s) ++ ")",
      "\x7b",
      "    " ++ toLower s ++ ".sendMessage(" ++ paramNames (wsdl.methods.value s) ++ ");",
      "\x7d",
      "" ]
      <:+: createServiceSourceOut flags baseClassName wsdl := by
  have h1 : [ "void " ++ wsName baseClassName wsdl ++ "::" ++ s ++ "Send("
        ++ msgParameters (wsdl.methods.value s) ++ ")",
      "\x7b",
      "    " ++ toLower s ++ ".sendMessage(" ++ paramNames (wsdl.methods.value s) ++ ");",
      "\x7d",
      "" ]
      <:+: sourceSendMembers flags baseClassName wsdl := by
    have h2 := infix_flatMap_of_mem wsdl.methods.keys
      (fun s =>
        [ "void " ++ wsName baseClassName wsdl ++ "::" ++ s ++ "Send("
            ++ msgParameters (wsdl.methods.value s) ++ ")",
          "\x7b",
          "    " ++ toLower s ++ ".sendMessage(" ++ paramNames (wsdl.methods.value s) ++ ");",
          "\x7d",
          "" ]) s hs
    have h3 : sourceSendMembers flags baseClassName wsdl
        = wsdl.methods.keys.flatMap (fun s =>
          [ "void " ++ wsName baseClassName wsdl ++ "::" ++ s ++ "Send("
              ++ msgParameters (wsdl.methods.value s) ++ ")",
            "\x7b",
            "    " ++ toLower s ++ ".sendMessage(" ++ paramNames (wsdl.methods.value s) ++ ");",
            "\x7d",
            "" ]) := by
      have hne : ¬ (Flags.Synchronousness.asynchronous = Flags.Synchronousness.synchronous) := by
        decide
      simp only [sourceSendMembers, hasync, hne, if_false, if_true]
    rw [h3]
    exact h2
  unfold createServiceSourceOut
  exact (((h1.trans (List.suffix_append _ _).isInfix).trans
    (List.prefix_append _ _).isInfix).trans (List.prefix_append _ _).isInfix).trans
    (List.prefix_append _ _).isInfix

end InstanceIdentifiers

set_option maxRecDepth 100000 in
/-- C26 fails: in the service with the two operations `GetX` and `getX`, whose names are
distinct, both message instances are declared with the identifier `getx`, both `connect`
statements name `&getx`, and both `Send` bodies call `getx.sendMessage()`. -/
theorem instance_identifiers_counterexample :
    caseService.methods.keys = ["GetX", "getX"]
    ∧ caseService.methods.keys.Nodup
    ∧ caseService.methods.keys.map toLower = ["getx", "getx"]
    ∧ [ "    // Messages:", "    GetX getx;", "    getX getx;", "\x7d;" ]
        <:+: createServiceHeaderOut asyncFullSoap12 "" caseService
    ∧ (sourceServiceConstructor asyncFullSoap12 "" caseService).filter isConnectStatement
        = [ "    connect(&getx, SIGNAL(replyReady(QString)), this, SLOT(GetXReply(QString)));",
            "    connect(&getx, SIGNAL(replyReady(QString)), this, SLOT(getXReply(QString)));" ]
    ∧ [ "void x_ws::GetXSend()", "\x7b", "    getx.sendMessage();", "\x7d", "",
        "void x_ws::getXSend()", "\x7b", "    getx.sendMessage();", "\x7d", "" ]
        <:+: createServiceSourceOut asyncFullSoap12 "" caseService := by
  decide

/-- C26 as amended: for an asynchronous full or debug configuration and a service whose
operation names are made of basic Latin characters and in which no two operation names have the
same lower-case form, the identifiers of the message instances (the lower-case forms of the
operation names) are pairwise distinct; the facade header holds, after the line
`    // Messages:` and up to the end of the class, the declarations `<op> <identifier>;`, one
per operation; the `connect` statements of the constructor are one per operation, each naming
the identifier and the reply handler of its operation; and the `Send` member of every operation
calls `sendMessage` on the identifier of its operation. -/
theorem instance_identifiers (flags : Flags) (baseClassName : String) (wsdl : QWsdl)
    (hasync : flags.synchronousness = Flags.Synchronousness.asynchronous)
    (hmode : flags.mode = Flags.Mode.fullMode ∨ flags.mode = Flags.Mode.debugMode)
    (_hnames : ∀ s ∈ wsdl.methods.keys, isBasicLatin s)
    (hcase : ∀ s ∈ wsdl.methods.keys, ∀ t ∈ wsdl.methods.keys,
      toLower s = toLower t → s = t) :
    (wsdl.methods.keys.map toLower).Nodup
    ∧ [ "    // Messages:" ]
        ++ (wsdl.methods.keys.map fun s => "    " ++ s ++ " " ++ toLower s ++ ";")
        ++ [ "\x7d;" ]
        <:+: createServiceHeaderOut flags baseClassName wsdl
    ∧ (sourceServiceConstructor flags baseClassName wsdl).filter isConnectStatement
        = wsdl.methods.keys.map (fun s =>
            "    connect(&" ++ toLower s ++ ", SIGNAL(replyReady(QString)), this, SLOT("
              ++ s ++ "Reply(QString)));")
    ∧ ∀ s ∈ wsdl.methods.keys,
        [ "void " ++ wsName baseClassName wsdl ++ "::" ++ s ++ "Send("
            ++ msgParameters (wsdl.methods.value s) ++ ")",
          "\x7b",
          "    " ++ toLower s ++ ".sendMessage(" ++ paramNames (wsdl.methods.value s) ++ ");",
          "\x7d",
          "" ]
          <:+: createServiceSourceOut flags baseClassName wsdl := by
  refine ⟨List.Nodup.map_on hcase wsdl.methods.keys_nodup, ?_, ?_,
    fun s hs => sourceSendMembers_instance flags baseClassName wsdl hasync s hs⟩
  · obtain ⟨pre, hpre⟩ := headerMessageMembers_instances flags baseClassName wsdl hasync hmode
    exact ⟨pre, [ "", "#endif // " ++ toUpper (wsName baseClassName wsdl) ++ "_H" ], by
      rw [← hpre]; simp only [List.append_assoc, List.cons_append, List.nil_append]⟩
  · have hc : ¬ flags.mode = Flags.Mode.compactMode := by
      rcases hmode with h | h <;> rw [h] <;> decide
    rw [sourceServiceConstructor_connects flags baseClassName wsdl hasync]
    simp [hc, String.append_assoc]

set_option maxRecDepth 100000 in
/-- C26 as amended, at the band service under asynchronous + full: the identifiers
`getbandname` and `getbandslist`. -/
theorem instance_identifiers_bandService :
    asyncFullSoap12.synchronousness = Flags.Synchronousness.asynchronous
    ∧ (asyncFullSoap12.mode = Flags.Mode.fullMode ∨ asyncFullSoap12.mode = Flags.Mode.debugMode)
    ∧ (∀ s ∈ bandService.methods.keys, isBasicLatin s)
    ∧ (∀ s ∈ bandService.methods.keys, ∀ t ∈ bandService.methods.keys,
        toLower s = toLower t → s = t)
    ∧ bandService.methods.keys.map toLower = ["getbandname", "getbandslist"]
    ∧ (bandService.methods.keys.map toLower).Nodup
    ∧ [ "    // Messages:", "    getBandName getbandname;", "    getBandsList getbandslist;",
        "\x7d;" ]
        <:+: createServiceHeaderOut asyncFullSoap12 "" bandService :=
  ⟨by decide, by decide, by decide, by decide, by decide,
    (instance_identifiers asyncFullSoap12 "" bandService (by decide) (by decide) (by decide)
      (by decide)).1,
    (instance_identifiers asyncFullSoap12 "" bandService (by decide) (by decide) (by decide)
      (by decide)).2.1⟩

end StandardPath
